import Mathlib

/-!
# TLE field decoder of `go-satellite` (`helpers.go`)

A shallow embedding of `ParseTLE`, of `TLEToSat` and of the standard-library routines they
call (`strings.TrimSpace`, `strings.Replace`, `strconv.ParseInt`, `strconv.ParseFloat`),
followed by the properties of the decoder and of the record assembly.

Conventions.
* A Go `string` is a sequence of bytes; it is modelled as a list of natural numbers,
  one per byte.  `len(s)` is `List.length`.
* A slice expression `s[lo:hi]` panics when it is out of range; `slice` returns `none` then.
* A Go function returning `(value, error)` is modelled by `Outcome`, with a third case
  for a run-time panic.
* `float64` is modelled by `F64`: sign, integer mantissa and binary exponent of an
  IEEE-754 binary64 number, or an infinity, or NaN.
* The standard-library routines follow the sources of Go 1.15 and later (underscore digit
  separators and hexadecimal floats are accepted by `ParseFloat`, not by `ParseInt` in
  base 10).
* `getGravConst` lives in another file of the package; `ParseTLE` takes it as a parameter.
* `days2mdhms`, `JDay` and `sgp4init` live in other files too; `TLEToSat` takes them as the
  fields of `External` and reports the calls it makes to them, with their arguments.
* The arithmetic of `float64` (`/`, `*`, `-`) is IEEE-754 with rounding to nearest, ties to
  even; typed constant expressions are rounded after each operation, as the compiler does.
-/

namespace GoSat

/-! ## Strings -/

/-- A Go string: its bytes. -/
abbrev GoString := List Nat

/-- The bytes of an ASCII literal. -/
def ascii (s : String) : GoString := s.toList.map Char.toNat

/-- The slice expression `s[lo:hi]`; `none` stands for the out-of-range panic. -/
def slice (s : GoString) (lo hi : Nat) : Option GoString :=
  if lo ≤ hi ∧ hi ≤ s.length then some ((s.drop lo).take (hi - lo)) else none

/-- Go `lower(c)` of package strconv: `c | ('x' - 'X')`, written arithmetically
(bit 5 is set if it is not set already). -/
def lower (c : Nat) : Nat := if (c / 32) % 2 = 0 then c + 32 else c

/-- A decimal digit byte `'0'..'9'`. -/
def isDigit (c : Nat) : Bool := decide (48 ≤ c ∧ c ≤ 57)

/-! ## `strings.Replace(s, " ", "", n)`

`Replace` is only ever called with a one-byte `old`; the model is specialised to that case:
the first `n` occurrences of the byte `old` are replaced by `new`. -/

/-- Go `strings.Replace(s, old, new, n)` for a one-byte `old` and `n ≥ 0`. -/
def Replace : GoString → Nat → GoString → Nat → GoString
  | [], _, _, _ => []
  | s, _, _, 0 => s
  | c :: cs, old, new, n + 1 =>
    if c = old then new ++ Replace cs old new n else c :: Replace cs old new (n + 1)

/-! ## `strings.TrimSpace` -/

/-- The rune returned by the UTF-8 decoder for an invalid encoding. -/
def RuneError : Nat := 0xFFFD

/-- A UTF-8 continuation byte `0x80..0xBF`. -/
def isCont (b : Nat) : Bool := decide (0x80 ≤ b ∧ b ≤ 0xBF)

/-- Go `utf8.DecodeRuneInString`: the first rune of `s` and its width in bytes;
`(RuneError, 1)` for an invalid or incomplete encoding, `(RuneError, 0)` for the empty string. -/
def decodeRune : GoString → Nat × Nat
  | [] => (RuneError, 0)
  | b0 :: rest =>
    if b0 < 0x80 then (b0, 1)
    else if 0xC2 ≤ b0 ∧ b0 ≤ 0xDF then
      match rest with
      | b1 :: _ => if isCont b1 then ((b0 - 0xC0) * 64 + (b1 - 0x80), 2) else (RuneError, 1)
      | _ => (RuneError, 1)
    else if 0xE0 ≤ b0 ∧ b0 ≤ 0xEF then
      match rest with
      | b1 :: b2 :: _ =>
        let lo := if b0 = 0xE0 then 0xA0 else 0x80
        let hi := if b0 = 0xED then 0x9F else 0xBF
        if lo ≤ b1 ∧ b1 ≤ hi ∧ isCont b2 then
          ((b0 - 0xE0) * 4096 + (b1 - 0x80) * 64 + (b2 - 0x80), 3)
        else (RuneError, 1)
      | _ => (RuneError, 1)
    else if 0xF0 ≤ b0 ∧ b0 ≤ 0xF4 then
      match rest with
      | b1 :: b2 :: b3 :: _ =>
        let lo := if b0 = 0xF0 then 0x90 else 0x80
        let hi := if b0 = 0xF4 then 0x8F else 0xBF
        if lo ≤ b1 ∧ b1 ≤ hi ∧ isCont b2 ∧ isCont b3 then
          ((b0 - 0xF0) * 262144 + (b1 - 0x80) * 4096 + (b2 - 0x80) * 64 + (b3 - 0x80), 4)
        else (RuneError, 1)
      | _ => (RuneError, 1)
    else (RuneError, 1)

/-- Go `utf8.RuneStart`: the byte is not a continuation byte. -/
def runeStart (b : Nat) : Bool := !isCont b

/-- The backward scan of `utf8.DecodeLastRuneInString`: starting at index `start`, step
down while `start ≥ lim` until a rune-start byte is met; returns the index reached
(`lim - 1`, as an integer, when none is met). -/
def lastRuneStart (s : GoString) (lim : Nat) : Nat → Int
  | 0 => if 0 < lim then -1 else if runeStart (s.getD 0 0) then 0 else -1
  | k + 1 =>
    if k + 1 < lim then (lim : Int) - 1
    else if runeStart (s.getD (k + 1) 0) then ((k + 1 : Nat) : Int)
    else lastRuneStart s lim k

/-- Go `utf8.DecodeLastRuneInString`: the last rune of `s` and its width. -/
def decodeLastRune (s : GoString) : Nat × Nat :=
  let e := s.length
  if e = 0 then (RuneError, 0)
  else
    let r := s.getD (e - 1) 0
    if r < 0x80 then (r, 1)
    else
      let lim := e - 4
      let start : Nat := if e - 1 = 0 then 0 else (lastRuneStart s lim (e - 2)).toNat
      let (r, size) := decodeRune (s.drop start)
      if start + size ≠ e then (RuneError, 1) else (r, size)

/-- Go `unicode.IsSpace`: the Unicode White_Space property. -/
def isSpace (r : Nat) : Bool :=
  decide ((9 ≤ r ∧ r ≤ 13) ∨ r = 0x20 ∨ r = 0x85 ∨ r = 0xA0 ∨ r = 0x1680 ∨
    (0x2000 ≤ r ∧ r ≤ 0x200A) ∨ r = 0x2028 ∨ r = 0x2029 ∨ r = 0x202F ∨ r = 0x205F ∨
    r = 0x3000)

/-- Go `asciiSpace[c] == 1`: tab, newline, vertical tab, form feed, carriage return, space. -/
def isAsciiSpace (c : Nat) : Bool := decide ((9 ≤ c ∧ c ≤ 13) ∨ c = 32)

/-- Go `strings.TrimLeftFunc(s, unicode.IsSpace)`; `fuel` bounds the number of runes. -/
def trimLeftSpace : Nat → GoString → GoString
  | 0, s => s
  | fuel + 1, s =>
    match s with
    | [] => []
    | c :: cs =>
      let rw := if c < 0x80 then (c, 1) else decodeRune (c :: cs)
      if isSpace rw.1 then trimLeftSpace fuel ((c :: cs).drop rw.2) else c :: cs

/-- Go `lastIndexFunc(s, unicode.IsSpace, false)`: the index at which the last rune that
is not a space starts, `-1` if there is none; `fuel` bounds the number of runes. -/
def lastIndexNotSpace : Nat → GoString → Int
  | 0, _ => -1
  | fuel + 1, s =>
    if s = [] then -1
    else
      let rw := decodeLastRune s
      let i := s.length - rw.2
      if isSpace rw.1 then lastIndexNotSpace fuel (s.take i) else (i : Int)

/-- Go `strings.TrimRightFunc(s, unicode.IsSpace)`. -/
def trimRightSpace (s : GoString) : GoString :=
  let i := lastIndexNotSpace s.length s
  if 0 ≤ i ∧ 0x80 ≤ s.getD i.toNat 0 then s.take (i.toNat + (decodeRune (s.drop i.toNat)).2)
  else s.take (i + 1).toNat

/-- The first loop of `strings.TrimSpace`: skip leading ASCII space; at a non-ASCII byte
fall back to the Unicode-aware `TrimFunc` on the remaining bytes. -/
def trimSpaceStart : GoString → GoString × Bool
  | [] => ([], false)
  | c :: cs =>
    if 0x80 ≤ c then (trimRightSpace (trimLeftSpace (c :: cs).length (c :: cs)), true)
    else if isAsciiSpace c then trimSpaceStart cs
    else (c :: cs, false)

/-- The second loop of `strings.TrimSpace`, run on the reversed remainder: skip trailing
ASCII space; at a non-ASCII byte fall back to `TrimRightFunc`. -/
def trimSpaceStop : GoString → GoString
  | [] => []
  | c :: cs =>
    if 0x80 ≤ c then (trimRightSpace (c :: cs).reverse).reverse
    else if isAsciiSpace c then trimSpaceStop cs
    else c :: cs

/-- Go `strings.TrimSpace`. -/
def TrimSpace (s : GoString) : GoString :=
  match trimSpaceStart s with
  | (r, true) => r
  | (r, false) => (trimSpaceStop r.reverse).reverse


/-! ## `strconv` errors -/

/-- The two sentinel errors of package strconv. -/
inductive ErrKind where
  | ErrSyntax
  | ErrRange
deriving DecidableEq, Repr

/-- Go `strconv.NumError`: the failing function, the text it was given, and the reason. -/
structure NumError where
  Func : String
  Num : GoString
  Err : ErrKind
deriving DecidableEq, Repr

/-- Go `syntaxError(fn, str)`. -/
def syntaxError (fn : String) (str : GoString) : NumError := ⟨fn, str, ErrKind.ErrSyntax⟩

/-- Go `rangeError(fn, str)`. -/
def rangeError (fn : String) (str : GoString) : NumError := ⟨fn, str, ErrKind.ErrRange⟩

/-! ## `strconv.ParseInt(s, 10, 0)`

The package calls `ParseInt` with base 10 and bit size 0 only; the model is specialised to
these arguments.  Bit size 0 stands for the size of `int`, taken to be 64. -/

/-- Go `strconv.IntSize` on a 64-bit platform. -/
def IntSize : Nat := 64

/-- The digit loop of `strconv.ParseUint(s, 10, 0)`, with accumulator `n`: the value and the
error (`none` for nil).  A byte that is not a decimal digit is a syntax error; an overflow of
the accumulator is a range error with value `maxVal`. -/
def parseUintLoop : GoString → Nat → Nat × Option ErrKind
  | [], n => (n, none)
  | c :: cs, n =>
    let maxVal := 2 ^ IntSize - 1
    let cutoff := (2 ^ 64 - 1) / 10 + 1
    if isDigit c ∨ (97 ≤ lower c ∧ lower c ≤ 122) then
      let d := if isDigit c then c - 48 else lower c - 97 + 10
      if 10 ≤ d then (0, some ErrKind.ErrSyntax)
      else if cutoff ≤ n then (maxVal, some ErrKind.ErrRange)
      else
        let n1 := (n * 10 + d) % 2 ^ 64
        if n1 < n * 10 ∨ maxVal < n1 then (maxVal, some ErrKind.ErrRange)
        else parseUintLoop cs n1
    else (0, some ErrKind.ErrSyntax)

/-- Go `strconv.ParseUint(s, 10, 0)`, returning the value and the kind of the error. -/
def ParseUint (s : GoString) : Nat × Option ErrKind :=
  if s = [] then (0, some ErrKind.ErrSyntax) else parseUintLoop s 0

/-- Go `strconv.ParseInt(s, 10, 0)`: the value and the error (`none` for nil). -/
def ParseInt (s : GoString) : Int × Option NumError :=
  match s with
  | [] => (0, some (syntaxError "ParseInt" s))
  | c :: cs =>
    let neg := decide (c = 45)
    let body := if c = 43 ∨ c = 45 then cs else c :: cs
    match ParseUint body with
    | (_, some ErrKind.ErrSyntax) => (0, some (syntaxError "ParseInt" s))
    | (un, _) =>
      let cutoff := 2 ^ (IntSize - 1)
      if !neg ∧ cutoff ≤ un then (((cutoff - 1 : Nat) : Int), some (rangeError "ParseInt" s))
      else if neg ∧ cutoff < un then (-((cutoff : Nat) : Int), some (rangeError "ParseInt" s))
      else (if neg then -(un : Int) else (un : Int), none)

/-- Source `parseInt` (helpers.go:163). -/
def parseInt (strIn : GoString) : Int × Option NumError := ParseInt strIn

/-! ## `float64` -/

/-- An IEEE-754 binary64 value.  `finite neg m e` is `(-1)^neg * m * 2^e`; the values
produced by `roundF64` are in canonical form: `2^52 ≤ m < 2^53` and `-1074 ≤ e ≤ 971`
(normal), or `m < 2^52` and `e = -1074` (subnormal and zero). -/
inductive F64 where
  | finite (neg : Bool) (m : Nat) (e : Int)
  | inf (neg : Bool)
  | nan
deriving DecidableEq, Repr

/-- The zero value of `float64`. -/
def F64.zero : F64 := F64.finite false 0 (-1074)

/-- The rational number a finite `F64` stands for (`none` for infinities and NaN). -/
def F64.toRat : F64 → Option ℚ
  | F64.finite neg m e => some ((if neg then -1 else 1) * (m : ℚ) * (2 : ℚ) ^ e)
  | _ => none

/-- Whether `n / d ≥ 2 ^ a`, in integer arithmetic. -/
def geTwoPow (n d : Nat) (a : Int) : Bool :=
  if 0 ≤ a then decide (d * 2 ^ a.toNat ≤ n) else decide (d ≤ n * 2 ^ (-a).toNat)

/-- The binary logarithm by repeated halving; `fuel` bounds the number of halvings. -/
def log2Aux : Nat → Nat → Nat
  | 0, _ => 0
  | fuel + 1, n => if 2 ≤ n then log2Aux fuel (n / 2) + 1 else 0

/-- The integer `⌊log₂ n⌋` (`0` for `n = 0`). -/
def log2 (n : Nat) : Nat := log2Aux n n

/-- The integer `⌊log₂ (n / d)⌋` for positive `n` and `d`. -/
def floorLog2 (n d : Nat) : Int :=
  let a : Int := (log2 n : Int) - (log2 d : Int)
  if geTwoPow n d a then a else a - 1

/-- Round the non-negative rational `N / D` to the nearest integer, ties to even. -/
def roundHalfEven (N D : Nat) : Nat :=
  let q := N / D
  let r := N % D
  if 2 * r < D then q
  else if D < 2 * r then q + 1
  else if q % 2 = 0 then q else q + 1

/-- The binary64 number nearest to `(-1)^neg * n / d` (IEEE-754 round to nearest, ties to
even), and whether the magnitude overflowed to infinity. -/
def roundF64 (neg : Bool) (n d : Nat) : F64 × Bool :=
  if n = 0 then (F64.finite neg 0 (-1074), false)
  else
    let e : Int := max (floorLog2 n d - 52) (-1074)
    let m := if 0 ≤ e then roundHalfEven n (d * 2 ^ e.toNat)
             else roundHalfEven (n * 2 ^ (-e).toNat) d
    let me : Nat × Int := if m = 2 ^ 53 then (2 ^ 52, e + 1) else (m, e)
    if 971 < me.2 then (F64.inf neg, true) else (F64.finite neg me.1 me.2, false)

/-- The binary64 number nearest to `(-1)^neg * m * b^x` for a base `b` and an integer
exponent `x`, with the overflow flag. -/
def roundScaled (neg : Bool) (m b : Nat) (x : Int) : F64 × Bool :=
  if 0 ≤ x then roundF64 neg (m * b ^ x.toNat) 1 else roundF64 neg m (b ^ (-x).toNat)

/-! ## `strconv.ParseFloat(s, 64)`

The library reads the text with `special` (infinities and NaN) and `readFloat` (decimal and
hexadecimal literals, with `_` digit separators), then converts the digits to the nearest
binary64 number.  It keeps the first 19 digits in a machine word and falls back to exact
decimal arithmetic when more are present; in every case the result is the correctly rounded
value of the whole digit string, which is what the model computes, so the mantissa here is
the unbounded value of all digits read. -/

/-- Go `commonPrefixLenIgnoreCase(s, p)` for a lower-case `p`. -/
def commonPrefixLenIgnoreCase : GoString → GoString → Nat
  | c :: cs, p :: ps =>
    let c1 := if 65 ≤ c ∧ c ≤ 90 then c + 32 else c
    if c1 ≠ p then 0 else 1 + commonPrefixLenIgnoreCase cs ps
  | _, _ => 0

/-- The `'i', 'I'` case of `special`: `inf` or `infinity`, after `nsign` sign bytes. -/
def specialInf (neg : Bool) (nsign : Nat) (s : GoString) : Option (F64 × Nat) :=
  let n := commonPrefixLenIgnoreCase s (ascii "infinity")
  let n := if 3 < n ∧ n < 8 then 3 else n
  if n = 3 ∨ n = 8 then some (F64.inf neg, nsign + n) else none

/-- Go `special(s)`: the special value at the start of `s` and the number of bytes it takes. -/
def special (s : GoString) : Option (F64 × Nat) :=
  match s with
  | [] => none
  | c :: cs =>
    if c = 43 ∨ c = 45 then specialInf (decide (c = 45)) 1 cs
    else if c = 105 ∨ c = 73 then specialInf false 0 (c :: cs)
    else if c = 110 ∨ c = 78 then
      if commonPrefixLenIgnoreCase (c :: cs) (ascii "nan") = 3 then some (F64.nan, 3) else none
    else none

/-- The main loop of `underscoreOK`; `saw` is the class of the last byte seen:
`'^'` start, `'0'` digit or base prefix, `'_'` underscore, `'!'` anything else. -/
def underscoreLoop (hex : Bool) : GoString → Nat → Bool
  | [], saw => decide (saw ≠ 95)
  | c :: cs, saw =>
    if isDigit c ∨ (hex ∧ 97 ≤ lower c ∧ lower c ≤ 102) then underscoreLoop hex cs 48
    else if c = 95 then (if saw ≠ 48 then false else underscoreLoop hex cs 95)
    else if saw = 95 then false
    else underscoreLoop hex cs 33

/-- Go `underscoreOK(s)`: underscores appear only between digits or between a base prefix
and a digit. -/
def underscoreOK (s : GoString) : Bool :=
  let s1 := match s with
    | c :: cs => if c = 45 ∨ c = 43 then cs else c :: cs
    | [] => []
  match s1 with
  | c0 :: c1 :: rest =>
    if c0 = 48 ∧ (lower c1 = 98 ∨ lower c1 = 111 ∨ lower c1 = 120) then
      underscoreLoop (decide (lower c1 = 120)) rest 48
    else underscoreLoop false s1 94
  | _ => underscoreLoop false s1 94

/-- The variables of the digit loop of `readFloat`. -/
structure Scan where
  mant : Nat
  nd : Nat
  dp : Int
  sawdot : Bool
  sawdigits : Bool
  underscores : Bool
deriving DecidableEq, Repr

/-- The digit loop of `readFloat` (label `loop`): the variables after the loop and the
unread rest of the text. -/
def scanMantissa (base : Nat) : GoString → Scan → Scan × GoString
  | [], st => (st, [])
  | c :: cs, st =>
    if c = 95 then scanMantissa base cs { st with underscores := true }
    else if c = 46 then
      if st.sawdot then (st, c :: cs)
      else scanMantissa base cs { st with sawdot := true, dp := st.nd }
    else if isDigit c then
      if c = 48 ∧ st.nd = 0 then
        scanMantissa base cs { st with sawdigits := true, dp := st.dp - 1 }
      else
        scanMantissa base cs
          { st with sawdigits := true, nd := st.nd + 1, mant := st.mant * base + (c - 48) }
    else if base = 16 ∧ 97 ≤ lower c ∧ lower c ≤ 102 then
      scanMantissa base cs
        { st with sawdigits := true, nd := st.nd + 1, mant := st.mant * 16 + (lower c - 97 + 10) }
    else (st, c :: cs)

/-- The exponent loop of `readFloat`: decimal digits and underscores; the exponent stops
growing once it is 10000 or more. -/
def scanExp : GoString → Nat → Bool → Nat × Bool × GoString
  | [], e, u => (e, u, [])
  | c :: cs, e, u =>
    if c = 95 then scanExp cs e true
    else if isDigit c then scanExp cs (if e < 10000 then e * 10 + (c - 48) else e) u
    else (e, u, c :: cs)

/-- What `readFloat` returns when it succeeds: the text read stands for
`(-1)^neg * mant * 10^exp` (`mant * 2^exp` for `hex`), and `rest` is the unread text. -/
structure FloatText where
  mant : Nat
  exp : Int
  neg : Bool
  hex : Bool
  rest : GoString
deriving DecidableEq, Repr

/-- The end of `readFloat`: the underscore check on the text read so far. -/
def readFloatEnd (s : GoString) (mant : Nat) (exp : Int) (neg hex underscores : Bool)
    (rest : GoString) : Option FloatText :=
  if underscores ∧ !underscoreOK (s.take (s.length - rest.length)) then none
  else some ⟨mant, exp, neg, hex, rest⟩

/-- The base-prefix test of `readFloat`: `i+2 < len(s) && s[i] == '0' && lower(s[i+1]) == 'x'`. -/
def hasHexStart (s : GoString) : Bool :=
  match s with
  | c0 :: c1 :: _ :: _ => decide (c0 = 48 ∧ lower c1 = 120)
  | _ => false

/-- The part of `readFloat` after the digit loop: `st` holds the variables of the loop and
`rest` is the unread text.  Digits are required; an exponent (`e` or `E`; `p` or `P` for a
hexadecimal mantissa, where it is mandatory) moves the point. -/
def readFloatExp (s : GoString) (neg hex : Bool) (st : Scan) (rest : GoString) :
    Option FloatText :=
  if !st.sawdigits then none
  else
    let dp0 : Int := if st.sawdot then st.dp else st.nd
    let dp : Int := if hex then dp0 * 4 else dp0
    let nd : Int := if hex then st.nd * 4 else st.nd
    let expChar := if hex then 112 else 101
    match rest with
    | [] => if hex then none else readFloatEnd s st.mant (dp - nd) neg hex st.underscores []
    | x :: s4 =>
      if lower x = expChar then
        match s4 with
        | [] => none
        | y :: s5 =>
          let esign : Int := if y = 45 then -1 else 1
          let s6 := if y = 43 ∨ y = 45 then s5 else y :: s5
          match s6 with
          | [] => none
          | z :: _ =>
            if isDigit z then
              let t := scanExp s6 0 st.underscores
              readFloatEnd s st.mant (dp + t.1 * esign - nd) neg hex t.2.1 t.2.2
            else none
      else if hex then none
      else readFloatEnd s st.mant (dp - nd) neg hex st.underscores (x :: s4)

/-- Go `readFloat(s)`; `none` stands for `ok = false`.  An optional sign, an optional `0x`
prefix, the digit loop, then the exponent. -/
def readFloat (s : GoString) : Option FloatText :=
  match s with
  | [] => none
  | c :: cs =>
    let s1 := if c = 43 ∨ c = 45 then cs else c :: cs
    let hex := hasHexStart s1
    let r := scanMantissa (if hex then 16 else 10) (if hex then s1.drop 2 else s1)
      ⟨0, 0, 0, false, false, false⟩
    readFloatExp s (decide (c = 45)) hex r.1 r.2

/-- Go `strconv.ParseFloat(s, 64)`: the value and the error (`none` for nil). -/
def ParseFloat (s : GoString) : F64 × Option NumError :=
  match special s with
  | some (f, n) =>
    if n ≠ s.length then (F64.zero, some (syntaxError "ParseFloat" s)) else (f, none)
  | none =>
    match readFloat s with
    | none => (F64.zero, some (syntaxError "ParseFloat" s))
    | some r =>
      if r.rest ≠ [] then (F64.zero, some (syntaxError "ParseFloat" s))
      else
        let fo := roundScaled r.neg r.mant (if r.hex then 2 else 10) r.exp
        (fo.1, if fo.2 then some (rangeError "ParseFloat" s) else none)

/-- Source `parseFloat` (helpers.go:158). -/
def parseFloat (strIn : GoString) : F64 × Option NumError := ParseFloat strIn

/-! ## Results of Go functions -/

/-- A Go `error` value as `ParseTLE` produces it: a formatted message (`fmt.Errorf`) or a
conversion error of package strconv. -/
inductive GoError where
  | errorf (msg : GoString)
  | num (e : NumError)
deriving DecidableEq, Repr

/-- The result of a call: a run-time panic, `(nil, err)`, or `(value, nil)`. -/
inductive Outcome (α : Type) where
  | panic : Outcome α
  | error (e : GoError) : Outcome α
  | ok (a : α) : Outcome α
deriving DecidableEq, Repr

/-- Sequencing: a panic or an error ends the function at once. -/
def Outcome.bind {α β : Type} (x : Outcome α) (f : α → Outcome β) : Outcome β :=
  match x with
  | Outcome.panic => Outcome.panic
  | Outcome.error e => Outcome.error e
  | Outcome.ok a => f a

instance : Monad Outcome where
  pure := Outcome.ok
  bind := Outcome.bind

/-- A slice expression inside a function body. -/
def sliceP (s : GoString) (lo hi : Nat) : Outcome GoString :=
  match slice s lo hi with
  | some t => Outcome.ok t
  | none => Outcome.panic

/-- The statement pair `v, err = f(...); if err != nil \x7b return nil, err \x7d`. -/
def conv {α : Type} (r : α × Option NumError) : Outcome α :=
  match r.2 with
  | some e => Outcome.error (GoError.num e)
  | none => Outcome.ok r.1

/-! ## The record -/

/-- Source `Elements` (helpers.go:31). -/
structure Elements where
  MeanMotion : F64
  Eccentricity : F64
  Inclination : F64
deriving DecidableEq, Repr

/-- The fields of `Satellite` that helpers.go reads or writes; `G` is the type of the
gravity constants, `elements` is a pointer (`none` for nil). -/
structure Satellite (G : Type) where
  Line1 : GoString
  Line2 : GoString
  satnum : Int
  epochyr : Int
  epochdays : F64
  ndot : F64
  nddot : F64
  bstar : F64
  inclo : F64
  nodeo : F64
  ecco : F64
  argpo : F64
  mo : F64
  no : F64
  jdsatepoch : F64
  Error : Int
  whichconst : G
  elements : Option Elements
deriving DecidableEq, Repr

/-! ## `ParseTLE` -/

/-- Source `ParseTLE` (helpers.go:38).  `getGravConst` is defined in another file of the
package and is a parameter here. -/
def ParseTLE {G : Type} (getGravConst : GoString → G) (line1 line2 gravconst : GoString) :
    Outcome (Satellite G) :=
  if line1.length < 61 then
    Outcome.error (GoError.errorf (ascii "Line 1 '" ++ line1 ++ ascii "' too short"))
  else if line2.length < 63 then
    Outcome.error (GoError.errorf (ascii "Line 2 '" ++ line2 ++ ascii "' too short"))
  else do
    let sat : Satellite G :=
      { Line1 := line1, Line2 := line2, satnum := 0, epochyr := 0, epochdays := F64.zero,
        ndot := F64.zero, nddot := F64.zero, bstar := F64.zero, inclo := F64.zero,
        nodeo := F64.zero, ecco := F64.zero, argpo := F64.zero, mo := F64.zero,
        no := F64.zero, jdsatepoch := F64.zero, Error := 0,
        whichconst := getGravConst gravconst, elements := none }
    -- LINE 1
    let satnum ← (do let c ← sliceP line1 2 7; conv (parseInt (TrimSpace c)))
    let sat := { sat with satnum := satnum }
    let epochyr ← (do let c ← sliceP line1 18 20; conv (parseInt c))
    let sat := { sat with epochyr := epochyr }
    let epochdays ← (do let c ← sliceP line1 20 32; conv (parseFloat c))
    let sat := { sat with epochdays := epochdays }
    let ndot ← (do let c ← sliceP line1 33 43; conv (parseFloat (Replace c 32 [] 2)))
    let sat := { sat with ndot := ndot }
    let nddot ← (do
      let a ← sliceP line1 44 45
      let b ← sliceP line1 45 50
      let c ← sliceP line1 50 52
      conv (parseFloat (Replace (a ++ ascii "." ++ b ++ ascii "e" ++ c) 32 [] 2)))
    let sat := { sat with nddot := nddot }
    let bstar ← (do
      let a ← sliceP line1 53 54
      let b ← sliceP line1 54 59
      let c ← sliceP line1 59 61
      conv (parseFloat (Replace (a ++ ascii "." ++ b ++ ascii "e" ++ c) 32 [] 2)))
    let sat := { sat with bstar := bstar }
    -- LINE 2
    let inclo ← (do let c ← sliceP line2 8 16; conv (parseFloat (Replace c 32 [] 2)))
    let sat := { sat with inclo := inclo }
    let nodeo ← (do let c ← sliceP line2 17 25; conv (parseFloat (Replace c 32 [] 2)))
    let sat := { sat with nodeo := nodeo }
    let ecco ← (do let c ← sliceP line2 26 33; conv (parseFloat (ascii "." ++ c)))
    let sat := { sat with ecco := ecco }
    let argpo ← (do let c ← sliceP line2 34 42; conv (parseFloat (Replace c 32 [] 2)))
    let sat := { sat with argpo := argpo }
    let mo ← (do let c ← sliceP line2 43 51; conv (parseFloat (Replace c 32 [] 2)))
    let sat := { sat with mo := mo }
    let no ← (do let c ← sliceP line2 52 63; conv (parseFloat (Replace c 32 [] 2)))
    let sat := { sat with no := no }
    let elements : Elements :=
      { MeanMotion := sat.no, Eccentricity := sat.ecco, Inclination := sat.inclo }
    let sat := { sat with elements := some elements }
    return sat

/-- The ISS element set used in the examples. -/
def issLine1 : GoString :=
  ascii "1 25544U 98067A   08264.51782528 -.00002182  00000-0 -11606-4 0  2927"

/-- Second line of the ISS element set. -/
def issLine2 : GoString :=
  ascii "2 25544  51.6416 247.4627 0006703 130.5360 325.0288 15.72125391563537"

/-! ## Vocabulary of the properties -/

/-- Columns `lo..hi` (0-based, end-exclusive) of a line. -/
def col (s : GoString) (lo hi : Nat) : GoString := (s.drop lo).take (hi - lo)

/-- A text with every space byte removed. -/
def stripSpaces (s : GoString) : GoString := s.filter (fun c => c ≠ 32)

/-- The reassembled text of an implied-decimal field starting at column `o` of line 1:
sign, `"."`, five mantissa bytes, `"e"`, two exponent bytes. -/
def impliedText (line1 : GoString) (o : Nat) : GoString :=
  col line1 o (o + 1) ++ ascii "." ++ col line1 (o + 1) (o + 6) ++ ascii "e" ++
    col line1 (o + 6) (o + 8)

/-- The twelve conversions of `ParseTLE`, in source order, on the texts they are given:
the two integer results and the ten float results. -/
structure Conversions where
  satnum : Int × Option NumError
  epochyr : Int × Option NumError
  epochdays : F64 × Option NumError
  ndot : F64 × Option NumError
  nddot : F64 × Option NumError
  bstar : F64 × Option NumError
  inclo : F64 × Option NumError
  nodeo : F64 × Option NumError
  ecco : F64 × Option NumError
  argpo : F64 × Option NumError
  mo : F64 × Option NumError
  no : F64 × Option NumError

/-- The conversions `ParseTLE` performs on two lines that pass the length check. -/
def conversions (line1 line2 : GoString) : Conversions :=
  { satnum := parseInt (TrimSpace (col line1 2 7)),
    epochyr := parseInt (col line1 18 20),
    epochdays := parseFloat (col line1 20 32),
    ndot := parseFloat (Replace (col line1 33 43) 32 [] 2),
    nddot := parseFloat (Replace (impliedText line1 44) 32 [] 2),
    bstar := parseFloat (Replace (impliedText line1 53) 32 [] 2),
    inclo := parseFloat (Replace (col line2 8 16) 32 [] 2),
    nodeo := parseFloat (Replace (col line2 17 25) 32 [] 2),
    ecco := parseFloat (ascii "." ++ col line2 26 33),
    argpo := parseFloat (Replace (col line2 34 42) 32 [] 2),
    mo := parseFloat (Replace (col line2 43 51) 32 [] 2),
    no := parseFloat (Replace (col line2 52 63) 32 [] 2) }

/-- The errors of the twelve conversions in the order of the source: catalog number, epoch
year, epoch day, first derivative, second derivative, drag term, inclination, right
ascension, eccentricity, argument of perigee, mean anomaly, mean motion. -/
def Conversions.errors (c : Conversions) : List (Option NumError) :=
  [c.satnum.2, c.epochyr.2, c.epochdays.2, c.ndot.2, c.nddot.2, c.bstar.2,
   c.inclo.2, c.nodeo.2, c.ecco.2, c.argpo.2, c.mo.2, c.no.2]

/-- The first error of a list of results, if any. -/
def firstError : List (Option NumError) → Option NumError
  | [] => none
  | some e :: _ => some e
  | none :: rest => firstError rest

/-- The record assembled from the values of the twelve conversions. -/
def Conversions.record {G : Type} (c : Conversions) (line1 line2 : GoString) (grav : G) :
    Satellite G :=
  { Line1 := line1, Line2 := line2, satnum := c.satnum.1, epochyr := c.epochyr.1,
    epochdays := c.epochdays.1, ndot := c.ndot.1, nddot := c.nddot.1, bstar := c.bstar.1,
    inclo := c.inclo.1, nodeo := c.nodeo.1, ecco := c.ecco.1, argpo := c.argpo.1,
    mo := c.mo.1, no := c.no.1, jdsatepoch := F64.zero, Error := 0, whichconst := grav,
    elements := some
      { MeanMotion := c.no.1, Eccentricity := c.ecco.1, Inclination := c.inclo.1 } }

/-- The texts handed to the twelve conversions, in source order. -/
def convTexts (line1 line2 : GoString) : List GoString :=
  [TrimSpace (col line1 2 7), col line1 18 20, col line1 20 32,
   Replace (col line1 33 43) 32 [] 2, Replace (impliedText line1 44) 32 [] 2,
   Replace (impliedText line1 53) 32 [] 2, Replace (col line2 8 16) 32 [] 2,
   Replace (col line2 17 25) 32 [] 2, ascii "." ++ col line2 26 33,
   Replace (col line2 34 42) 32 [] 2, Replace (col line2 43 51) 32 [] 2,
   Replace (col line2 52 63) 32 [] 2]

/-- The strconv function that converts each of the twelve fields, in source order. -/
def convFuncs : List String :=
  ["ParseInt", "ParseInt", "ParseFloat", "ParseFloat", "ParseFloat", "ParseFloat",
   "ParseFloat", "ParseFloat", "ParseFloat", "ParseFloat", "ParseFloat", "ParseFloat"]

/-- The columns of the twelve numeric fields of the wire format, in source order:
line number, first column, end column. -/
def fieldColumns : List (Nat × Nat × Nat) :=
  [(1, 2, 7), (1, 18, 20), (1, 20, 32), (1, 33, 43), (1, 44, 52), (1, 53, 61),
   (2, 8, 16), (2, 17, 25), (2, 26, 33), (2, 34, 42), (2, 43, 51), (2, 52, 63)]

/-- The raw text of a field of `fieldColumns`. -/
def fieldText (line1 line2 : GoString) (f : Nat × Nat × Nat) : GoString :=
  col (if f.1 = 1 then line1 else line2) f.2.1 f.2.2

/-- A text made of space bytes only. -/
def isBlank (s : GoString) : Prop := ∀ c ∈ s, c = 32

instance (s : GoString) : Decidable (isBlank s) := by
  unfold isBlank
  infer_instance

/-- The ISS second line with the inclination field (columns 8..16) blanked. -/
def issLine2NoIncl : GoString :=
  ascii "2 25544          247.4627 0006703 130.5360 325.0288 15.72125391563537"

/-- The ISS second line with the right-ascension field (columns 17..25) blanked. -/
def issLine2NoNode : GoString :=
  ascii "2 25544  51.6416          0006703 130.5360 325.0288 15.72125391563537"

/-- The number a text of decimal digits stands for. -/
def decVal (ds : GoString) : Nat := ds.foldl (fun acc c => acc * 10 + (c - 48)) 0

/-- A text made of decimal digits only. -/
def allDigits (ds : GoString) : Prop := ∀ c ∈ ds, 48 ≤ c ∧ c ≤ 57

instance (ds : GoString) : Decidable (allDigits ds) := by
  unfold allDigits
  infer_instance

/-- The ISS second line with the eccentricity field (columns 26..33) set to `12345e6`. -/
def issLine2BigEcc : GoString :=
  ascii "2 25544  51.6416 247.4627 12345e6 130.5360 325.0288 15.72125391563537"

/-- The ISS second line with the eccentricity field set to `1234567`. -/
def issLine2Ecc : GoString :=
  ascii "2 25544  51.6416 247.4627 1234567 130.5360 325.0288 15.72125391563537"

/-- The ISS second line with the inclination field (columns 8..16) set to `5 1.6416`. -/
def issLine2InnerSpace : GoString :=
  ascii "2 25544 5 1.6416 247.4627 0006703 130.5360 325.0288 15.72125391563537"

/-- The ISS first line with the epoch-year field (columns 18..20) padded: ` 8`. -/
def issLine1PaddedYear : GoString :=
  ascii "1 25544U 98067A    8264.51782528 -.00002182  00000-0 -11606-4 0  2927"

/-- The ISS first line with the epoch-day field (columns 20..32) padded: ` 64.51782528`. -/
def issLine1PaddedDay : GoString :=
  ascii "1 25544U 98067A   08 64.51782528 -.00002182  00000-0 -11606-4 0  2927"

/-- The negation of a binary64 value. -/
def F64.neg : F64 → F64
  | F64.finite neg m e => F64.finite (!neg) m e
  | F64.inf neg => F64.inf (!neg)
  | F64.nan => F64.nan

/-- The exponent written in the two exponent bytes of an implied-decimal field: a sign
(`' '`, `'+'` or `'-'`) and one digit, or two digits. -/
def expOf (x0 x1 : Nat) : Int :=
  if x0 = 45 then -((x1 - 48 : Nat) : Int)
  else if x0 = 32 ∨ x0 = 43 then ((x1 - 48 : Nat) : Int)
  else (((x0 - 48) * 10 + (x1 - 48) : Nat) : Int)

/-- The value of an implied-decimal field with sign byte `s`, mantissa digits `m` and
exponent bytes `x0 x1`: the binary64 number nearest to `(sign s) 0.m * 10^x`. -/
def impliedValue (s : Nat) (m : GoString) (x0 x1 : Nat) : F64 :=
  (roundScaled (decide (s = 45)) (decVal m) 10 (expOf x0 x1 - (m.length : Int))).1

/-- The shape of an implied-decimal field: a sign byte `' '`, `'+'` or `'-'`, five mantissa
digits, and two exponent bytes (a sign and a digit, or two digits). -/
def ImpliedField (field : GoString) (s : Nat) (m : GoString) (x0 x1 : Nat) : Prop :=
  field = s :: (m ++ [x0, x1]) ∧ (s = 32 ∨ s = 43 ∨ s = 45) ∧ allDigits m ∧ m.length = 5 ∧
  ((x0 = 32 ∨ x0 = 43 ∨ x0 = 45) ∨ (48 ≤ x0 ∧ x0 ≤ 57)) ∧ (48 ≤ x1 ∧ x1 ≤ 57)

instance (field : GoString) (s : Nat) (m : GoString) (x0 x1 : Nat) :
    Decidable (ImpliedField field s m x0 x1) := by
  unfold ImpliedField
  infer_instance

/-! ## `float64` arithmetic and constants -/

/-- The `float64` value of the constant `n / d` (a literal or an exact constant expression,
rounded once). -/
def F64.lit (n d : Nat) : F64 := (roundF64 false n d).1

/-- IEEE-754 multiplication (the `*` of `float64`). -/
def F64.mul : F64 → F64 → F64
  | F64.finite s m e, F64.finite t n f => (roundScaled (xor s t) (m * n) 2 (e + f)).1
  | F64.finite s m _, F64.inf t => if m = 0 then F64.nan else F64.inf (xor s t)
  | F64.inf s, F64.finite t n _ => if n = 0 then F64.nan else F64.inf (xor s t)
  | F64.inf s, F64.inf t => F64.inf (xor s t)
  | _, _ => F64.nan

/-- IEEE-754 division (the `/` of `float64`). -/
def F64.div : F64 → F64 → F64
  | F64.finite s m e, F64.finite t n f =>
    if n = 0 then (if m = 0 then F64.nan else F64.inf (xor s t))
    else if f ≤ e then (roundF64 (xor s t) (m * 2 ^ (e - f).toNat) n).1
    else (roundF64 (xor s t) m (n * 2 ^ (f - e).toNat)).1
  | F64.finite s _ _, F64.inf t => F64.finite (xor s t) 0 (-1074)
  | F64.inf s, F64.finite t _ _ => F64.inf (xor s t)
  | _, _ => F64.nan

/-- IEEE-754 subtraction (the `-` of `float64`).  An exact zero difference is `+0` unless
the operands are `-0` and `+0`. -/
def F64.sub : F64 → F64 → F64
  | F64.finite s m e, F64.finite t n f =>
    let k : Int := min e f
    let a : Int := (if s then -1 else 1) * ((m * 2 ^ (e - k).toNat : Nat) : Int)
    let b : Int := (if t then -1 else 1) * ((n * 2 ^ (f - k).toNat : Nat) : Int)
    if a - b = 0 then F64.finite (s && !t) 0 (-1074)
    else (roundScaled (decide (a - b < 0)) (a - b).natAbs 2 k).1
  | F64.finite _ _ _, F64.inf t => F64.inf (!t)
  | F64.inf s, F64.finite _ _ _ => F64.inf s
  | F64.inf s, F64.inf t => if s = t then F64.nan else F64.inf s
  | _, _ => F64.nan

/-- The Go conversion to a signed integer type of `w` bits: the low `w` bits in two's
complement. -/
def wrapInt (w : Nat) (x : Int) : Int := (x + 2 ^ (w - 1)) % 2 ^ w - 2 ^ (w - 1)

/-- The Go conversion `int(x)` of a `float64`: the fraction is discarded (truncation toward
zero).  For a value outside the range of `int` the language leaves the result to the
implementation; the smallest `int` is returned here, as on amd64. -/
def F64.toInt : F64 → Int
  | F64.finite neg m e =>
    let a : Nat := if 0 ≤ e then m * 2 ^ e.toNat else m / 2 ^ (-e).toNat
    let v : Int := if neg then -(a : Int) else (a : Int)
    if -(2 : Int) ^ (IntSize - 1) ≤ v ∧ v < (2 : Int) ^ (IntSize - 1) then v
    else -(2 : Int) ^ (IntSize - 1)
  | _ => -(2 : Int) ^ (IntSize - 1)

/-- The digits of the library constant `math.Pi`, which is this number over `10^62`. -/
def piDigits : Nat := 314159265358979323846264338327950288419716939937510582097494459

/-- Source `TWOPI` (helpers.go:11): `math.Pi * 2.0`. -/
def TWOPI : F64 := F64.lit (piDigits * 2) (10 ^ 62)

/-- Source `DEG2RAD` (helpers.go:12): `math.Pi / 180.0`. -/
def DEG2RAD : F64 := F64.lit piDigits (10 ^ 62 * 180)

/-- Source `RAD2DEG` (helpers.go:13): `180.0 / math.Pi`. -/
def RAD2DEG : F64 := F64.lit (180 * 10 ^ 62) piDigits

/-- Source `XPDOTP` (helpers.go:14): `1440.0 / (2.0 * math.Pi)`. -/
def XPDOTP : F64 := F64.lit (1440 * 10 ^ 62) (2 * piDigits)

/-! ## `TLEToSat` -/

/-- The functions of the package that `TLEToSat` and `ParseTLE` call and that are defined in
other files.  They are taken as they are called: `days2mdhms` returns five numbers of a
type `T` that the caller converts with `int(·)` (the field `toInt`), `JDay` takes six `int`
values, and `sgp4init` receives the record by pointer (it returns the record as it leaves
it).  Each is assumed to return. -/
structure External (G T : Type) where
  getGravConst : GoString → G
  days2mdhms : Int → F64 → T × T × T × T × T
  toInt : T → Int
  JDay : Int → Int → Int → Int → Int → Int → F64
  sgp4init : GoString → F64 → Satellite G → Satellite G

/-- A call of `TLEToSat` to one of the external functions, with its arguments. -/
inductive Call (G : Type) where
  | days2mdhms (year : Int) (days : F64)
  | JDay (year mon day hr min sec : Int)
  | sgp4init (opsmode : GoString) (epoch : F64) (sat : Satellite G)
deriving DecidableEq, Repr

/-- Source `TLEToSat` (helpers.go:123): the result, and the calls to external functions in
the order they are made.  `year` is an `int64`, `int(year)` a conversion to `int`. -/
def TLEToSatRun {G T : Type} (ext : External G T) (line1 line2 gravconst : GoString) :
    Outcome (Satellite G) × List (Call G) :=
  match ParseTLE ext.getGravConst line1 line2 gravconst with
  | Outcome.panic => (Outcome.panic, [])
  | Outcome.error err => (Outcome.error err, [])
  | Outcome.ok sat =>
    let opsmode := ascii "i"
    let sat : Satellite G := { sat with no := F64.div sat.no XPDOTP }
    let sat : Satellite G :=
      { sat with ndot := F64.div sat.ndot (F64.mul XPDOTP (F64.lit 1440 1)) }
    let sat : Satellite G := { sat with
      nddot := F64.div sat.nddot (F64.mul (F64.mul XPDOTP (F64.lit 1440 1)) (F64.lit 1440 1)) }
    let sat : Satellite G := { sat with inclo := F64.mul sat.inclo DEG2RAD }
    let sat : Satellite G := { sat with nodeo := F64.mul sat.nodeo DEG2RAD }
    let sat : Satellite G := { sat with argpo := F64.mul sat.argpo DEG2RAD }
    let sat : Satellite G := { sat with mo := F64.mul sat.mo DEG2RAD }
    let year : Int :=
      if sat.epochyr < 57 then wrapInt 64 (sat.epochyr + 2000)
      else wrapInt 64 (sat.epochyr + 1900)
    let r := ext.days2mdhms year sat.epochdays
    let mon := r.1
    let day := r.2.1
    let hr := r.2.2.1
    let min := r.2.2.2.1
    let sec := r.2.2.2.2
    let jd := ext.JDay (wrapInt IntSize year) (ext.toInt mon) (ext.toInt day) (ext.toInt hr)
      (ext.toInt min) (ext.toInt sec)
    let sat : Satellite G := { sat with jdsatepoch := jd }
    let epoch := F64.sub sat.jdsatepoch (F64.lit 4866563 2)
    (Outcome.ok (ext.sgp4init opsmode epoch sat),
      [Call.days2mdhms year sat.epochdays,
       Call.JDay (wrapInt IntSize year) (ext.toInt mon) (ext.toInt day) (ext.toInt hr)
         (ext.toInt min) (ext.toInt sec),
       Call.sgp4init opsmode epoch sat])

/-- Source `TLEToSat` (helpers.go:123): what the function returns. -/
def TLEToSat {G T : Type} (ext : External G T) (line1 line2 gravconst : GoString) :
    Outcome (Satellite G) :=
  (TLEToSatRun ext line1 line2 gravconst).1

/-! ## Inputs and vocabulary for `TLEToSat` -/

/-- External functions for the examples: a calendar decomposer that returns `float64`
values (20 September, 12:25:40.104192, the epoch of the ISS element set), converted by
`F64.toInt`; a Julian-day calculator with a fixed result; an initializer that leaves the
record as it is. -/
def exampleExt : External Unit F64 :=
  { getGravConst := fun _ => (),
    days2mdhms := fun _ _ =>
      (F64.lit 9 1, F64.lit 20 1, F64.lit 12 1, F64.lit 25 1, F64.lit 40104192 1000000),
    toInt := F64.toInt,
    JDay := fun _ _ _ _ _ _ => F64.lit 4909460 2,
    sgp4init := fun _ _ sat => sat }

/-- The external functions of `exampleExt` with an initializer that leaves error code 6. -/
def failingInitExt : External Unit F64 :=
  { exampleExt with sgp4init := fun _ _ sat => { sat with Error := 6 } }

/-- A first line with the two bytes of the epoch year (columns 18..20) replaced. -/
def withEpochYear (line1 yy : GoString) : GoString := line1.take 18 ++ yy ++ line1.drop 20

/-- The record that `TLEToSat` hands to the initializer for the ISS element set with
`exampleExt`; the scaled fields are the `float64` quotients and products. -/
def issHanded : Satellite Unit :=
  { Line1 := issLine1, Line2 := issLine2, satnum := 25544, epochyr := 8,
    epochdays := F64.finite false 4653446794390086 (-44),
    ndot := F64.finite true 5115513763873143 (-86),
    nddot := F64.finite false 0 (-1074),
    bstar := F64.finite true 6850973175023138 (-69),
    inclo := F64.finite false 8118332362114486 (-53),
    nodeo := F64.finite false 4862805484885801 (-50),
    ecco := F64.finite false 6182426276303756 (-63),
    argpo := F64.finite false 5130237217771025 (-51),
    mo := F64.finite false 6387030576268059 (-50),
    no := F64.finite false 4942928351970965 (-56),
    jdsatepoch := F64.finite false 5271492535255040 (-31),
    Error := 0, whichconst := (),
    elements := some
      { MeanMotion := F64.finite false 8850279156359119 (-49),
        Eccentricity := F64.finite false 6182426276303756 (-63),
        Inclination := F64.finite false 7267909078650506 (-47) } }

/-- The eight fields that `ParseTLE` converts after `strings.Replace(text, " ", "", 2)`, in
source order (first derivative, second derivative, drag term, inclination, right ascension,
argument of perigee, mean anomaly, mean motion): the text before the replacement and the
result of the conversion. -/
def spaceFields (line1 line2 : GoString) : List (GoString × (F64 × Option NumError)) :=
  [(col line1 33 43, (conversions line1 line2).ndot),
   (impliedText line1 44, (conversions line1 line2).nddot),
   (impliedText line1 53, (conversions line1 line2).bstar),
   (col line2 8 16, (conversions line1 line2).inclo),
   (col line2 17 25, (conversions line1 line2).nodeo),
   (col line2 34 42, (conversions line1 line2).argpo),
   (col line2 43 51, (conversions line1 line2).mo),
   (col line2 52 63, (conversions line1 line2).no)]

/-- The ISS second line with the inclination field (columns 8..16) set to `5 1. 641`. -/
def issLine2TwoSpaces : GoString :=
  ascii "2 25544 5 1. 641 247.4627 0006703 130.5360 325.0288 15.72125391563537"

/-- The ISS second line with the inclination field (columns 8..16) set to `5 1. 6 4`. -/
def issLine2ThreeSpaces : GoString :=
  ascii "2 25544 5 1. 6 4 247.4627 0006703 130.5360 325.0288 15.72125391563537"

/-- The ISS first line with other bytes in the columns that `ParseTLE` does not read:
line number, classification, launch designator, ephemeris type, element number, checksum. -/
def issLine1Other : GoString :=
  ascii "9 25544S 05001B   08264.51782528 -.00002182  00000-0 -11606-4 7  1234 and more"

/-- The ISS second line with other bytes in the columns that `ParseTLE` does not read. -/
def issLine2Other : GoString :=
  ascii "7 00001  51.6416 247.4627 0006703 130.5360 325.0288 15.72125391000009"

/-! ## Basic facts -/

theorem slice_eq_col (s : GoString) (lo hi : Nat) (h1 : lo ≤ hi) (h2 : hi ≤ s.length) :
    slice s lo hi = some (col s lo hi) := by
  simp [slice, col, h1, h2]

theorem sliceP_eq_col (s : GoString) (lo hi : Nat) (h1 : lo ≤ hi) (h2 : hi ≤ s.length) :
    sliceP s lo hi = Outcome.ok (col s lo hi) := by
  simp [sliceP, slice_eq_col s lo hi h1 h2]

/-- On two lines that pass the length check, `ParseTLE` is the chain of its twelve
conversions: the first error if there is one, the assembled record otherwise. -/
theorem ParseTLE_eq_chain {G : Type} (g : GoString → G) (line1 line2 gravconst : GoString)
    (h1 : 61 ≤ line1.length) (h2 : 63 ≤ line2.length) :
    ParseTLE g line1 line2 gravconst =
      match firstError (conversions line1 line2).errors with
      | some e => Outcome.error (GoError.num e)
      | none => Outcome.ok ((conversions line1 line2).record line1 line2 (g gravconst)) := by
  have n1 : ¬ line1.length < 61 := by omega
  have n2 : ¬ line2.length < 63 := by omega
  simp only [ParseTLE, n1, n2, if_false, bind, Outcome.bind, pure,
    sliceP_eq_col line1 2 7 (by omega) (by omega),
    sliceP_eq_col line1 18 20 (by omega) (by omega),
    sliceP_eq_col line1 20 32 (by omega) (by omega),
    sliceP_eq_col line1 33 43 (by omega) (by omega),
    sliceP_eq_col line1 44 45 (by omega) (by omega),
    sliceP_eq_col line1 45 50 (by omega) (by omega),
    sliceP_eq_col line1 50 52 (by omega) (by omega),
    sliceP_eq_col line1 53 54 (by omega) (by omega),
    sliceP_eq_col line1 54 59 (by omega) (by omega),
    sliceP_eq_col line1 59 61 (by omega) (by omega),
    sliceP_eq_col line2 8 16 (by omega) (by omega),
    sliceP_eq_col line2 17 25 (by omega) (by omega),
    sliceP_eq_col line2 26 33 (by omega) (by omega),
    sliceP_eq_col line2 34 42 (by omega) (by omega),
    sliceP_eq_col line2 43 51 (by omega) (by omega),
    sliceP_eq_col line2 52 63 (by omega) (by omega)]
  simp only [conversions, Conversions.errors, Conversions.record, impliedText]
  generalize parseInt (TrimSpace (col line1 2 7)) = r1
  generalize parseInt (col line1 18 20) = r2
  generalize parseFloat (col line1 20 32) = r3
  generalize parseFloat (Replace (col line1 33 43) 32 [] 2) = r4
  generalize parseFloat (Replace (col line1 44 (44 + 1) ++ ascii "." ++ col line1 (44 + 1) (44 + 6) ++ ascii "e" ++ col line1 (44 + 6) (44 + 8)) 32 [] 2) = r5
  generalize parseFloat (Replace (col line1 53 (53 + 1) ++ ascii "." ++ col line1 (53 + 1) (53 + 6) ++ ascii "e" ++ col line1 (53 + 6) (53 + 8)) 32 [] 2) = r6
  generalize parseFloat (Replace (col line2 8 16) 32 [] 2) = r7
  generalize parseFloat (Replace (col line2 17 25) 32 [] 2) = r8
  generalize parseFloat (ascii "." ++ col line2 26 33) = r9
  generalize parseFloat (Replace (col line2 34 42) 32 [] 2) = r10
  generalize parseFloat (Replace (col line2 43 51) 32 [] 2) = r11
  generalize parseFloat (Replace (col line2 52 63) 32 [] 2) = r12
  obtain ⟨v1, e1⟩ := r1
  obtain ⟨v2, e2⟩ := r2
  obtain ⟨v3, e3⟩ := r3
  obtain ⟨v4, e4⟩ := r4
  obtain ⟨v5, e5⟩ := r5
  obtain ⟨v6, e6⟩ := r6
  obtain ⟨v7, e7⟩ := r7
  obtain ⟨v8, e8⟩ := r8
  obtain ⟨v9, e9⟩ := r9
  obtain ⟨v10, e10⟩ := r10
  obtain ⟨v11, e11⟩ := r11
  obtain ⟨v12, e12⟩ := r12
  cases e1 <;> [skip; rfl]
  cases e2 <;> [skip; rfl]
  cases e3 <;> [skip; rfl]
  cases e4 <;> [skip; rfl]
  cases e5 <;> [skip; rfl]
  cases e6 <;> [skip; rfl]
  cases e7 <;> [skip; rfl]
  cases e8 <;> [skip; rfl]
  cases e9 <;> [skip; rfl]
  cases e10 <;> [skip; rfl]
  cases e11 <;> [skip; rfl]
  cases e12 <;> rfl

theorem col_length (s : GoString) (lo hi : Nat) (h : hi ≤ s.length) :
    (col s lo hi).length = hi - lo := by
  simp [col]; omega

theorem col_append (s : GoString) (lo mid hi : Nat) (h1 : lo ≤ mid) (h2 : mid ≤ hi) :
    col s lo hi = col s lo mid ++ col s mid hi := by
  unfold col
  have e : hi - lo = (mid - lo) + (hi - mid) := by omega
  rw [e, List.take_add, List.drop_drop]
  congr 3
  omega

theorem blank_eq_replicate (s : GoString) (n : Nat) (hl : s.length = n) (hb : isBlank s) :
    s = List.replicate n 32 :=
  List.eq_replicate_iff.mpr ⟨hl, hb⟩

theorem firstError_of_first (l : List (Option NumError)) (k : Nat) (e : NumError)
    (hk : l[k]? = some (some e)) (hj : ∀ j : Nat, j < k → l[j]? = some none) :
    firstError l = some e := by
  induction l generalizing k with
  | nil => simp at hk
  | cons x xs ih =>
    cases k with
    | zero =>
      simp at hk
      subst hk
      rfl
    | succ k =>
      have h0 := hj 0 (by omega)
      simp at h0
      subst h0
      simp only [firstError]
      apply ih k
      · simpa using hk
      · intro j hjk
        have := hj (j + 1) (by omega)
        simpa using this

theorem firstError_first (l : List (Option NumError)) (e : NumError)
    (h : firstError l = some e) :
    ∃ k : Nat, l[k]? = some (some e) ∧ ∀ j : Nat, j < k → l[j]? = some none := by
  induction l with
  | nil => simp [firstError] at h
  | cons x xs ih =>
    cases x with
    | some a =>
      simp only [firstError, Option.some.injEq] at h
      subst h
      exact ⟨0, by simp, by intro j hj; omega⟩
    | none =>
      simp only [firstError] at h
      obtain ⟨k, hk, hj⟩ := ih h
      refine ⟨k + 1, by simpa using hk, ?_⟩
      intro j hjk
      cases j with
      | zero => simp
      | succ j => simpa using hj j (by omega)

theorem firstError_none (l : List (Option NumError)) :
    firstError l = none ↔ ∀ x ∈ l, x = none := by
  induction l with
  | nil => simp [firstError]
  | cons x xs ih =>
    cases x with
    | some a => simp [firstError]
    | none => simp [firstError, ih]

/-! ## The library models on known inputs -/

/-- The model of `strings.TrimSpace` on ASCII and Unicode white space, and on an incomplete
UTF-8 sequence, which is kept. -/
theorem TrimSpace_examples :
    TrimSpace (ascii "  12 ") = ascii "12" ∧ TrimSpace (ascii "     ") = [] ∧
    TrimSpace [0xC2, 0xA0, 49, 50, 32] = [49, 50] ∧
    TrimSpace [32, 49, 50, 0xE2, 0x80, 0x80] = [49, 50] ∧
    TrimSpace [32, 49, 50, 0xE2, 0x80] = [49, 50, 0xE2, 0x80] := by
  refine ⟨?_, ?_, ?_, ?_, ?_⟩ <;> decide

/-- The model of `strconv.ParseInt(s, 10, 0)`: signs, the empty text, a padded text, and
the two ends of the `int64` range. -/
theorem ParseInt_examples :
    ParseInt (ascii "25544") = (25544, none) ∧ ParseInt (ascii "-5") = (-5, none) ∧
    ParseInt (ascii "+7") = (7, none) ∧
    ParseInt (ascii " 5") = (0, some (syntaxError "ParseInt" (ascii " 5"))) ∧
    ParseInt (ascii "1_0") = (0, some (syntaxError "ParseInt" (ascii "1_0"))) ∧
    ParseInt [] = (0, some (syntaxError "ParseInt" [])) ∧
    ParseInt (ascii "9223372036854775808") =
      (9223372036854775807, some (rangeError "ParseInt" (ascii "9223372036854775808"))) ∧
    ParseInt (ascii "-9223372036854775808") = (-9223372036854775808, none) := by
  refine ⟨?_, ?_, ?_, ?_, ?_, ?_, ?_, ?_⟩ <;> decide

/-- The model of `strconv.ParseFloat(s, 64)`: correctly rounded decimals (0.1 is
`0x1.999999999999ap-4`), exponents, underscores, hexadecimal floats, the special values,
and texts that are not numbers. -/
theorem ParseFloat_examples :
    ParseFloat (ascii "0.1") = (F64.finite false 0x1999999999999A (-56), none) ∧
    ParseFloat (ascii ".1234567") = (F64.finite false 0x1f9adbb8f8da72 (-56), none) ∧
    ParseFloat (ascii ".12345e6") = (F64.finite false (123450 * 2 ^ 36) (-36), none) ∧
    ParseFloat (ascii "1_0.5_0e+0_1") = (F64.finite false (105 * 2 ^ 46) (-46), none) ∧
    ParseFloat (ascii "0x1.8p1") = (F64.finite false (3 * 2 ^ 51) (-51), none) ∧
    ParseFloat (ascii "-0") = (F64.finite true 0 (-1074), none) ∧
    ParseFloat (ascii "-InF") = (F64.inf true, none) ∧
    ParseFloat (ascii "NaN") = (F64.nan, none) ∧
    ParseFloat (ascii "+nan") = (F64.zero, some (syntaxError "ParseFloat" (ascii "+nan"))) ∧
    ParseFloat (ascii "0x1") = (F64.zero, some (syntaxError "ParseFloat" (ascii "0x1"))) ∧
    ParseFloat (ascii "1e") = (F64.zero, some (syntaxError "ParseFloat" (ascii "1e"))) ∧
    ParseFloat (ascii " 1.5") = (F64.zero, some (syntaxError "ParseFloat" (ascii " 1.5"))) ∧
    ParseFloat (ascii "1.5 ") = (F64.zero, some (syntaxError "ParseFloat" (ascii "1.5 "))) ∧
    ParseFloat [] = (F64.zero, some (syntaxError "ParseFloat" [])) := by
  refine ⟨?_, ?_, ?_, ?_, ?_, ?_, ?_, ?_, ?_, ?_, ?_, ?_, ?_, ?_⟩ <;> decide

/-- The model of `ParseTLE` on the ISS element set: every field decodes. -/
theorem ParseTLE_iss :
    ParseTLE (fun _ => ()) issLine1 issLine2 (ascii "wgs72") =
      Outcome.ok ((conversions issLine1 issLine2).record issLine1 issLine2 ()) ∧
    (conversions issLine1 issLine2).satnum = (25544, none) ∧
    (conversions issLine1 issLine2).epochyr = (8, none) ∧
    (conversions issLine1 issLine2).epochdays =
      ((roundScaled false 26451782528 10 (-8)).1, none) ∧
    (conversions issLine1 issLine2).ndot = ((roundScaled true 2182 10 (-8)).1, none) ∧
    (conversions issLine1 issLine2).nddot = (F64.zero, none) ∧
    (conversions issLine1 issLine2).bstar = ((roundScaled true 11606 10 (-9)).1, none) ∧
    (conversions issLine1 issLine2).inclo = ((roundScaled false 516416 10 (-4)).1, none) ∧
    (conversions issLine1 issLine2).ecco = ((roundScaled false 6703 10 (-7)).1, none) ∧
    (conversions issLine1 issLine2).no = ((roundScaled false 1572125391 10 (-8)).1, none) := by
  refine ⟨?_, ?_, ?_, ?_, ?_, ?_, ?_, ?_, ?_, ?_⟩ <;> decide

/-! ## The length check (C1, C2) -/

/-- C1: if line 1 has fewer than 61 bytes or line 2 fewer than 63, `ParseTLE` returns the
"too short" format error of the offending line and no record, whatever the columns and the
gravity-model name are; the error is never a conversion error. -/
theorem ParseTLE_too_short {G : Type} (g : GoString → G) (line1 line2 gravconst : GoString)
    (h : line1.length < 61 ∨ line2.length < 63) :
    ParseTLE g line1 line2 gravconst =
      Outcome.error (GoError.errorf
        (if line1.length < 61 then ascii "Line 1 '" ++ line1 ++ ascii "' too short"
         else ascii "Line 2 '" ++ line2 ++ ascii "' too short")) := by
  unfold ParseTLE
  by_cases h1 : line1.length < 61
  · simp [h1]
  · have h2 : line2.length < 63 := by
      rcases h with h | h
      · exact absurd h h1
      · exact h
    simp [h1, h2]

/-- Instance of C1: a truncated first line. -/
theorem ParseTLE_too_short_witness :
    ((ascii "1 25544U").length < 61 ∨ issLine2.length < 63) ∧
    ParseTLE (fun _ => ()) (ascii "1 25544U") issLine2 (ascii "wgs72") =
      Outcome.error (GoError.errorf (ascii "Line 1 '1 25544U' too short")) :=
  ⟨by decide, ParseTLE_too_short (fun _ => ()) (ascii "1 25544U") issLine2 (ascii "wgs72")
    (by decide)⟩

/-- C2: on lines of at least 61 and 63 bytes every column slice `ParseTLE` takes is within
bounds, so `ParseTLE` does not panic: it returns a record or an error. -/
theorem ParseTLE_slices_in_bounds {G : Type} (g : GoString → G)
    (line1 line2 gravconst : GoString) (h1 : 61 ≤ line1.length) (h2 : 63 ≤ line2.length) :
    (∀ p ∈ [(2, 7), (18, 20), (20, 32), (33, 43), (44, 45), (45, 50), (50, 52), (53, 54),
        (54, 59), (59, 61)], slice line1 p.1 p.2 = some (col line1 p.1 p.2)) ∧
    (∀ p ∈ [(8, 16), (17, 25), (26, 33), (34, 42), (43, 51), (52, 63)],
        slice line2 p.1 p.2 = some (col line2 p.1 p.2)) ∧
    ((∃ sat, ParseTLE g line1 line2 gravconst = Outcome.ok sat) ∨
     (∃ e, ParseTLE g line1 line2 gravconst = Outcome.error e)) := by
  refine ⟨?_, ?_, ?_⟩
  · intro p hp
    simp only [List.mem_cons, List.mem_singleton, List.not_mem_nil, or_false] at hp
    rcases hp with rfl | rfl | rfl | rfl | rfl | rfl | rfl | rfl | rfl | rfl <;>
      exact slice_eq_col _ _ _ (by omega) (by omega)
  · intro p hp
    simp only [List.mem_cons, List.mem_singleton, List.not_mem_nil, or_false] at hp
    rcases hp with rfl | rfl | rfl | rfl | rfl | rfl <;>
      exact slice_eq_col _ _ _ (by omega) (by omega)
  · rw [ParseTLE_eq_chain g line1 line2 gravconst h1 h2]
    cases firstError (conversions line1 line2).errors with
    | none => exact Or.inl ⟨_, rfl⟩
    | some e => exact Or.inr ⟨_, rfl⟩

/-- Instance of C2: the ISS element set. -/
theorem ParseTLE_slices_in_bounds_witness :
    (61 ≤ issLine1.length ∧ 63 ≤ issLine2.length) ∧
    ((∃ sat, ParseTLE (fun _ => ()) issLine1 issLine2 [] = Outcome.ok sat) ∨
     (∃ e, ParseTLE (fun _ => ()) issLine1 issLine2 [] = Outcome.error e)) :=
  ⟨by decide, (ParseTLE_slices_in_bounds (fun _ => ()) issLine1 issLine2 []
    (by decide) (by decide)).2.2⟩

/-! ## Errors of the conversions (C7, C8, C9) -/

theorem ParseInt_error (s : GoString) (e : NumError) (h : (ParseInt s).2 = some e) :
    e.Func = "ParseInt" ∧ e.Num = s := by
  cases s with
  | nil =>
    simp [ParseInt] at h
    subst h
    exact ⟨rfl, rfl⟩
  | cons c cs =>
    simp only [ParseInt] at h
    generalize ParseUint (if c = 43 ∨ c = 45 then cs else c :: cs) = r at h
    obtain ⟨un, k⟩ := r
    rcases k with _ | _ | _
    all_goals dsimp only at h
    all_goals try split_ifs at h
    all_goals simp at h
    all_goals (subst h; exact ⟨rfl, rfl⟩)

theorem ParseFloat_error (s : GoString) (e : NumError) (h : (ParseFloat s).2 = some e) :
    e.Func = "ParseFloat" ∧ e.Num = s := by
  unfold ParseFloat at h
  repeat' split at h
  all_goals simp at h
  all_goals first
    | (subst h; exact ⟨rfl, rfl⟩)
    | (obtain ⟨_, rfl⟩ := h; exact ⟨rfl, rfl⟩)

/-- C9: on lines that pass the length check `ParseTLE` returns exactly one of a record and
an error.  If the conversion of field `k` (in source order) fails and the earlier ones do
not, the result is that field's conversion error and no record, whatever the later fields
hold; if no conversion fails the result is the assembled record and no error. -/
theorem ParseTLE_first_failure {G : Type} (g : GoString → G)
    (line1 line2 gravconst : GoString) (h1 : 61 ≤ line1.length) (h2 : 63 ≤ line2.length) :
    (∀ (k : Nat) (e : NumError), (conversions line1 line2).errors[k]? = some (some e) →
        (∀ j : Nat, j < k → (conversions line1 line2).errors[j]? = some none) →
        ParseTLE g line1 line2 gravconst = Outcome.error (GoError.num e)) ∧
    ((∀ x ∈ (conversions line1 line2).errors, x = none) →
        ParseTLE g line1 line2 gravconst =
          Outcome.ok ((conversions line1 line2).record line1 line2 (g gravconst))) ∧
    ((∃ sat, ParseTLE g line1 line2 gravconst = Outcome.ok sat) ∨
     (∃ e, ParseTLE g line1 line2 gravconst = Outcome.error (GoError.num e))) := by
  refine ⟨?_, ?_, ?_⟩
  · intro k e hk hj
    rw [ParseTLE_eq_chain g line1 line2 gravconst h1 h2,
      firstError_of_first _ k e hk hj]
  · intro hn
    rw [ParseTLE_eq_chain g line1 line2 gravconst h1 h2,
      (firstError_none _).mpr hn]
  · rw [ParseTLE_eq_chain g line1 line2 gravconst h1 h2]
    cases firstError (conversions line1 line2).errors with
    | none => exact Or.inl ⟨_, rfl⟩
    | some e => exact Or.inr ⟨_, rfl⟩

/-- Instance of C9: with a blank inclination the result is the error of that conversion,
although the later right-ascension field is sound. -/
theorem ParseTLE_first_failure_witness :
    (61 ≤ issLine1.length ∧ 63 ≤ issLine2NoIncl.length) ∧
    ParseTLE (fun _ => ()) issLine1 issLine2NoIncl [] =
      Outcome.error (GoError.num (syntaxError "ParseFloat" (ascii "      "))) :=
  ⟨by decide, (ParseTLE_first_failure (fun _ => ()) issLine1 issLine2NoIncl []
    (by decide) (by decide)).1 6 _ (by decide) (by decide)⟩

theorem isBlank_col_sub (s : GoString) (lo lo1 hi1 hi : Nat) (h1 : lo ≤ lo1) (h2 : lo1 ≤ hi1)
    (h3 : hi1 ≤ hi) (hb : isBlank (col s lo hi)) : isBlank (col s lo1 hi1) := by
  rw [col_append s lo lo1 hi h1 (by omega), col_append s lo1 hi1 hi h2 h3] at hb
  intro c hc
  exact hb c (by simp [hc])

theorem col_blank (s : GoString) (lo hi : Nat) (h : hi ≤ s.length) (hb : isBlank (col s lo hi)) :
    col s lo hi = List.replicate (hi - lo) 32 :=
  blank_eq_replicate _ _ (col_length s lo hi h) hb

theorem impliedText_blank (s : GoString) (o : Nat) (h : o + 8 ≤ s.length)
    (hb : isBlank (col s o (o + 8))) : impliedText s o = ascii " .     e  " := by
  unfold impliedText
  rw [col_blank s o (o + 1) (by omega) (isBlank_col_sub s o o (o + 1) (o + 8)
        (by omega) (by omega) (by omega) hb),
    col_blank s (o + 1) (o + 6) (by omega) (isBlank_col_sub s o (o + 1) (o + 6) (o + 8)
        (by omega) (by omega) (by omega) hb),
    col_blank s (o + 6) (o + 8) (by omega) (isBlank_col_sub s o (o + 6) (o + 8) (o + 8)
        (by omega) (by omega) (by omega) hb)]
  have e1 : o + 1 - o = 1 := by omega
  have e2 : o + 6 - (o + 1) = 5 := by omega
  have e3 : o + 8 - (o + 6) = 2 := by omega
  rw [e1, e2, e3]
  decide

theorem ParseTLE_error_of_conv {G : Type} (g : GoString → G)
    (line1 line2 gravconst : GoString) (h1 : 61 ≤ line1.length) (h2 : 63 ≤ line2.length)
    (x : Option NumError) (hx : x ∈ (conversions line1 line2).errors) (hne : x ≠ none) :
    ∃ e, ParseTLE g line1 line2 gravconst = Outcome.error (GoError.num e) := by
  rw [ParseTLE_eq_chain g line1 line2 gravconst h1 h2]
  cases hfe : firstError (conversions line1 line2).errors with
  | none => exact absurd ((firstError_none _).mp hfe x hx) hne
  | some e => exact ⟨e, rfl⟩

/-- C7: on lines that pass the length check, if one of the twelve numeric fields consists
of space bytes only, `ParseTLE` returns a conversion error and no record; no field is
defaulted to zero. -/
theorem ParseTLE_blank_field {G : Type} (g : GoString → G)
    (line1 line2 gravconst : GoString) (h1 : 61 ≤ line1.length) (h2 : 63 ≤ line2.length)
    (hb : ∃ f ∈ fieldColumns, isBlank (fieldText line1 line2 f)) :
    ∃ e, ParseTLE g line1 line2 gravconst = Outcome.error (GoError.num e) := by
  obtain ⟨f, hf, hb⟩ := hb
  simp only [fieldColumns, List.mem_cons, List.mem_singleton, List.not_mem_nil, or_false] at hf
  rcases hf with rfl | rfl | rfl | rfl | rfl | rfl | rfl | rfl | rfl | rfl | rfl | rfl
  all_goals simp only [fieldText, if_true, OfNat.ofNat_ne_one, if_false] at hb
  · refine ParseTLE_error_of_conv g _ _ _ h1 h2 (conversions line1 line2).satnum.2
      (by simp [Conversions.errors]) ?_
    simp only [conversions]
    rw [col_blank line1 2 7 (by omega) hb]
    decide
  · refine ParseTLE_error_of_conv g _ _ _ h1 h2 (conversions line1 line2).epochyr.2
      (by simp [Conversions.errors]) ?_
    simp only [conversions]
    rw [col_blank line1 18 20 (by omega) hb]
    decide
  · refine ParseTLE_error_of_conv g _ _ _ h1 h2 (conversions line1 line2).epochdays.2
      (by simp [Conversions.errors]) ?_
    simp only [conversions]
    rw [col_blank line1 20 32 (by omega) hb]
    decide
  · refine ParseTLE_error_of_conv g _ _ _ h1 h2 (conversions line1 line2).ndot.2
      (by simp [Conversions.errors]) ?_
    simp only [conversions]
    rw [col_blank line1 33 43 (by omega) hb]
    decide
  · refine ParseTLE_error_of_conv g _ _ _ h1 h2 (conversions line1 line2).nddot.2
      (by simp [Conversions.errors]) ?_
    simp only [conversions]
    rw [impliedText_blank line1 44 (by omega) hb]
    decide
  · refine ParseTLE_error_of_conv g _ _ _ h1 h2 (conversions line1 line2).bstar.2
      (by simp [Conversions.errors]) ?_
    simp only [conversions]
    rw [impliedText_blank line1 53 (by omega) hb]
    decide
  · refine ParseTLE_error_of_conv g _ _ _ h1 h2 (conversions line1 line2).inclo.2
      (by simp [Conversions.errors]) ?_
    simp only [conversions]
    rw [col_blank line2 8 16 (by omega) hb]
    decide
  · refine ParseTLE_error_of_conv g _ _ _ h1 h2 (conversions line1 line2).nodeo.2
      (by simp [Conversions.errors]) ?_
    simp only [conversions]
    rw [col_blank line2 17 25 (by omega) hb]
    decide
  · refine ParseTLE_error_of_conv g _ _ _ h1 h2 (conversions line1 line2).ecco.2
      (by simp [Conversions.errors]) ?_
    simp only [conversions]
    rw [col_blank line2 26 33 (by omega) hb]
    decide
  · refine ParseTLE_error_of_conv g _ _ _ h1 h2 (conversions line1 line2).argpo.2
      (by simp [Conversions.errors]) ?_
    simp only [conversions]
    rw [col_blank line2 34 42 (by omega) hb]
    decide
  · refine ParseTLE_error_of_conv g _ _ _ h1 h2 (conversions line1 line2).mo.2
      (by simp [Conversions.errors]) ?_
    simp only [conversions]
    rw [col_blank line2 43 51 (by omega) hb]
    decide
  · refine ParseTLE_error_of_conv g _ _ _ h1 h2 (conversions line1 line2).no.2
      (by simp [Conversions.errors]) ?_
    simp only [conversions]
    rw [col_blank line2 52 63 (by omega) hb]
    decide

/-- Instance of C7: the ISS element set with a blank inclination field. -/
theorem ParseTLE_blank_field_witness :
    (61 ≤ issLine1.length ∧ 63 ≤ issLine2NoIncl.length ∧
      ∃ f ∈ fieldColumns, isBlank (fieldText issLine1 issLine2NoIncl f)) ∧
    ∃ e, ParseTLE (fun _ => ()) issLine1 issLine2NoIncl [] = Outcome.error (GoError.num e) :=
  ⟨⟨by decide, by decide, (2, 8, 16), by decide, by decide⟩,
   ParseTLE_blank_field (fun _ => ()) issLine1 issLine2NoIncl [] (by decide) (by decide)
    ⟨(2, 8, 16), by decide, by decide⟩⟩

theorem conversion_error_shape (line1 line2 : GoString) (k : Nat) (ne : NumError)
    (hk : (conversions line1 line2).errors[k]? = some (some ne)) :
    convFuncs[k]? = some ne.Func ∧ (convTexts line1 line2)[k]? = some ne.Num := by
  rcases k with _ | _ | _ | _ | _ | _ | _ | _ | _ | _ | _ | _ | k
  all_goals simp only [Conversions.errors, conversions, List.getElem?_cons_zero,
    List.getElem?_cons_succ, Option.some.injEq, parseInt, parseFloat, List.getElem?_nil] at hk
  iterate 2
    (obtain ⟨hf, hn⟩ := ParseInt_error _ _ hk
     simp [convFuncs, convTexts, hf, hn])
  iterate 10
    (obtain ⟨hf, hn⟩ := ParseFloat_error _ _ hk
     simp [convFuncs, convTexts, hf, hn])
  exact absurd hk (by simp)

/-- C8 (as stated, refuted): two element sets whose failing fields differ (inclination in
the first, right ascension in the second) make `ParseTLE` return the very same error, so the
failing field cannot be identified from the error; and the text the error carries (six
spaces, what is left after the removal of two) is not the raw text of the field (eight
spaces). -/
theorem ParseTLE_error_lacks_field_name :
    ParseTLE (fun _ => ()) issLine1 issLine2NoIncl [] =
      Outcome.error (GoError.num (syntaxError "ParseFloat" (ascii "      "))) ∧
    ParseTLE (fun _ => ()) issLine1 issLine2NoNode [] =
      Outcome.error (GoError.num (syntaxError "ParseFloat" (ascii "      "))) ∧
    (conversions issLine1 issLine2NoIncl).inclo.2 ≠ none ∧
    (conversions issLine1 issLine2NoNode).inclo.2 = none ∧
    (conversions issLine1 issLine2NoNode).nodeo.2 ≠ none ∧
    fieldText issLine1 issLine2NoIncl (2, 8, 16) = ascii "        " ∧
    fieldText issLine1 issLine2NoNode (2, 17, 25) = ascii "        " := by
  refine ⟨?_, ?_, ?_, ?_, ?_, ?_, ?_⟩ <;> decide

/-- C8 (amended): when `ParseTLE` fails on lines that pass the length check, the error is
the strconv error of the first failing conversion: it carries the name of the conversion
function and the text that was handed to it (the column text after trimming, space removal
or reassembly). -/
theorem ParseTLE_error_is_conversion_error {G : Type} (g : GoString → G)
    (line1 line2 gravconst : GoString) (h1 : 61 ≤ line1.length) (h2 : 63 ≤ line2.length)
    (e : GoError) (h : ParseTLE g line1 line2 gravconst = Outcome.error e) :
    ∃ (k : Nat) (ne : NumError), e = GoError.num ne ∧
      (conversions line1 line2).errors[k]? = some (some ne) ∧
      (∀ j : Nat, j < k → (conversions line1 line2).errors[j]? = some none) ∧
      convFuncs[k]? = some ne.Func ∧ (convTexts line1 line2)[k]? = some ne.Num := by
  rw [ParseTLE_eq_chain g line1 line2 gravconst h1 h2] at h
  cases hfe : firstError (conversions line1 line2).errors with
  | none =>
    rw [hfe] at h
    exact absurd h (by simp)
  | some ne =>
    rw [hfe] at h
    simp only [Outcome.error.injEq] at h
    obtain ⟨k, hk, hj⟩ := firstError_first _ ne hfe
    exact ⟨k, ne, h.symm, hk, hj, conversion_error_shape line1 line2 k ne hk⟩

/-- Instance of C8 (amended): the ISS element set with a blank inclination field. -/
theorem ParseTLE_error_is_conversion_error_witness :
    (61 ≤ issLine1.length ∧ 63 ≤ issLine2NoIncl.length ∧
      ParseTLE (fun _ => ()) issLine1 issLine2NoIncl [] =
        Outcome.error (GoError.num (syntaxError "ParseFloat" (ascii "      ")))) ∧
    ∃ (k : Nat) (ne : NumError),
      GoError.num (syntaxError "ParseFloat" (ascii "      ")) = GoError.num ne ∧
      (conversions issLine1 issLine2NoIncl).errors[k]? = some (some ne) ∧
      (∀ j : Nat, j < k → (conversions issLine1 issLine2NoIncl).errors[j]? = some none) ∧
      convFuncs[k]? = some ne.Func ∧ (convTexts issLine1 issLine2NoIncl)[k]? = some ne.Num :=
  ⟨⟨by decide, by decide, by decide⟩,
   ParseTLE_error_is_conversion_error (fun _ => ()) issLine1 issLine2NoIncl []
    (by decide) (by decide) _ (by decide)⟩

/-! ## Texts with a space are not numbers -/

theorem lower_space_ne (x e : Nat) (h : lower x = e) (he : e ≠ 32) : x ≠ 32 := by
  intro hx
  subst hx
  apply he
  rw [← h]
  decide

theorem commonPrefixLen_space (s p : GoString) (hs : 32 ∈ s) (hp : 32 ∉ p) :
    commonPrefixLenIgnoreCase s p < s.length := by
  induction s generalizing p with
  | nil => simp at hs
  | cons c cs ih =>
    cases p with
    | nil => simp [commonPrefixLenIgnoreCase]
    | cons q ps =>
      simp only [commonPrefixLenIgnoreCase]
      split_ifs with h1 h2 h2
      · simp
      · have hc : c ≠ 32 := by omega
        have hcs : 32 ∈ cs := by
          rcases List.mem_cons.mp hs with h | h
          · exact absurd h.symm hc
          · exact h
        have := ih ps hcs (fun h => hp (List.mem_cons_of_mem _ h))
        simp only [List.length_cons]
        omega
      · simp
      · have hc : c ≠ 32 := by
          intro hc
          apply hp
          simp only [not_not] at h2
          rw [← h2, hc]
          simp
        have hcs : 32 ∈ cs := by
          rcases List.mem_cons.mp hs with h | h
          · exact absurd h.symm hc
          · exact h
        have := ih ps hcs (fun h => hp (List.mem_cons_of_mem _ h))
        simp only [List.length_cons]
        omega

theorem specialInf_space (neg : Bool) (nsign : Nat) (s : GoString) (hs : 32 ∈ s) (f : F64)
    (n : Nat) (h : specialInf neg nsign s = some (f, n)) : n < nsign + s.length := by
  unfold specialInf at h
  have hc := commonPrefixLen_space s (ascii "infinity") hs (by decide)
  dsimp only at h
  split_ifs at h <;> simp at h <;> omega

theorem special_space (s : GoString) (hs : 32 ∈ s) (f : F64) (n : Nat)
    (h : special s = some (f, n)) : n < s.length := by
  cases s with
  | nil => simp at hs
  | cons c cs =>
    simp only [special] at h
    split_ifs at h with h1 h2 h3 h4
    · have hc : c ≠ 32 := by omega
      have hcs : 32 ∈ cs := by
        rcases List.mem_cons.mp hs with h | h
        · exact absurd h.symm hc
        · exact h
      have := specialInf_space _ _ _ hcs _ _ h
      simp only [List.length_cons]
      omega
    · have := specialInf_space _ _ _ hs _ _ h
      omega
    · have hc := commonPrefixLen_space (c :: cs) (ascii "nan") hs (by decide)
      simp at h
      omega

theorem scanMantissa_space (base : Nat) (s : GoString) (st : Scan) (hs : 32 ∈ s) :
    32 ∈ (scanMantissa base s st).2 := by
  induction s generalizing st with
  | nil => simp at hs
  | cons c cs ih =>
    have tl : c ≠ 32 → 32 ∈ cs := by
      intro hc
      rcases List.mem_cons.mp hs with h | h
      · exact absurd h.symm hc
      · exact h
    simp only [scanMantissa]
    split_ifs with h1 h2 h3 h4 h5 h6
    · exact ih _ (tl (by omega))
    · exact hs
    · exact ih _ (tl (by omega))
    · exact ih _ (tl (by omega))
    · exact ih _ (tl (by simp [isDigit] at h4; omega))
    · refine ih _ (tl ?_)
      intro hc
      subst hc
      exact absurd h6.2.1 (by decide)
    · exact hs

theorem scanExp_space (s : GoString) (e : Nat) (u : Bool) (hs : 32 ∈ s) :
    32 ∈ (scanExp s e u).2.2 := by
  induction s generalizing e u with
  | nil => simp at hs
  | cons c cs ih =>
    have tl : c ≠ 32 → 32 ∈ cs := by
      intro hc
      rcases List.mem_cons.mp hs with h | h
      · exact absurd h.symm hc
      · exact h
    simp only [scanExp]
    by_cases h1 : c = 95
    · simp only [h1, reduceIte]
      exact ih _ _ (by simpa [h1] using hs)
    · by_cases h2 : isDigit c = true
      · simp only [h1, h2, reduceIte]
        exact ih _ _ (tl (by simp [isDigit] at h2; omega))
      · simp only [h1, h2, reduceIte]
        exact hs


theorem readFloatEnd_rest (s : GoString) (mant : Nat) (exp : Int) (neg hex u : Bool)
    (rest : GoString) (r : FloatText) (h : readFloatEnd s mant exp neg hex u rest = some r) :
    r = ⟨mant, exp, neg, hex, rest⟩ := by
  unfold readFloatEnd at h
  split_ifs at h
  simp at h
  exact h.symm

theorem mem_tail_of_ne (c : Nat) (cs : GoString) (hs : 32 ∈ c :: cs) (hc : c ≠ 32) : 32 ∈ cs := by
  rcases List.mem_cons.mp hs with h | h
  · exact absurd h.symm hc
  · exact h

theorem readFloatExp_space (s : GoString) (neg hex : Bool) (st : Scan) (rest : GoString)
    (hs : 32 ∈ rest) (r : FloatText) (h : readFloatExp s neg hex st rest = some r) :
    32 ∈ r.rest := by
  unfold readFloatExp at h
  by_cases h0 : (!st.sawdigits) = true
  · rw [if_pos h0] at h
    simp at h
  · rw [if_neg h0] at h
    dsimp only at h
    cases rest with
    | nil => simp at hs
    | cons x s4 =>
      dsimp only at h
      by_cases h1 : lower x = (if hex = true then 112 else 101)
      · rw [if_pos h1] at h
        have hx : x ≠ 32 := lower_space_ne x _ h1 (by split_ifs <;> decide)
        have m4 := mem_tail_of_ne x s4 hs hx
        cases s4 with
        | nil => simp at m4
        | cons y s5 =>
          dsimp only at h
          have m6 : 32 ∈ (if y = 43 ∨ y = 45 then s5 else y :: s5) := by
            split_ifs with hy
            · exact mem_tail_of_ne y s5 m4 (by omega)
            · exact m4
          generalize (if y = 43 ∨ y = 45 then s5 else y :: s5) = s6 at h m6
          cases s6 with
          | nil => simp at m6
          | cons z s7 =>
            dsimp only at h
            by_cases h3 : isDigit z = true
            · rw [if_pos h3] at h
              rw [readFloatEnd_rest _ _ _ _ _ _ _ _ h]
              exact scanExp_space _ _ _ m6
            · rw [if_neg h3] at h
              simp at h
      · rw [if_neg h1] at h
        by_cases hh : hex = true
        · rw [if_pos hh] at h
          simp at h
        · rw [if_neg hh] at h
          rw [readFloatEnd_rest _ _ _ _ _ _ _ _ h]
          exact hs

theorem hasHexStart_drop (s : GoString) (hs : 32 ∈ s) (h : hasHexStart s = true) :
    32 ∈ s.drop 2 := by
  match s, hs, h with
  | c0 :: c1 :: c2 :: rest, hs, h =>
    simp only [hasHexStart, decide_eq_true_eq] at h
    have h0 : c0 ≠ 32 := by omega
    have h1 : c1 ≠ 32 := lower_space_ne c1 120 h.2 (by decide)
    exact mem_tail_of_ne c1 _ (mem_tail_of_ne c0 _ hs h0) h1

theorem readFloat_space (s : GoString) (hs : 32 ∈ s) (r : FloatText)
    (h : readFloat s = some r) : 32 ∈ r.rest := by
  cases s with
  | nil => simp at hs
  | cons c cs =>
    simp only [readFloat] at h
    have m1 : 32 ∈ (if c = 43 ∨ c = 45 then cs else c :: cs) := by
      split_ifs with hc
      · exact mem_tail_of_ne c cs hs (by omega)
      · exact hs
    generalize (if c = 43 ∨ c = 45 then cs else c :: cs) = s1 at h m1
    apply readFloatExp_space _ _ _ _ _ ?_ r h
    apply scanMantissa_space
    by_cases hh : hasHexStart s1 = true
    · rw [if_pos hh]
      exact hasHexStart_drop _ m1 hh
    · rw [if_neg hh]
      exact m1

/-- A text with a space byte in it is not a number for `ParseFloat`. -/
theorem ParseFloat_space (s : GoString) (hs : 32 ∈ s) :
    ParseFloat s = (F64.zero, some (syntaxError "ParseFloat" s)) := by
  unfold ParseFloat
  split
  · rename_i f n hsp
    have := special_space s hs f n hsp
    simp only [ne_eq, ite_not]
    rw [if_neg (by omega)]
  · split
    · rfl
    · rename_i r hr
      have := readFloat_space s hs r hr
      rw [if_pos (by intro h0; rw [h0] at this; simp at this)]

/-! ## Reading digits -/

theorem scanMantissa_digits (ds rest : GoString) (st : Scan) (hd : allDigits ds)
    (h0 : st.nd = 0 → st.mant = 0) :
    ∃ st1 : Scan, scanMantissa 10 (ds ++ rest) st = scanMantissa 10 rest st1 ∧
      st1.mant = ds.foldl (fun acc c => acc * 10 + (c - 48)) st.mant ∧
      (st1.nd : Int) - st1.dp = (st.nd : Int) - st.dp + ds.length ∧
      st1.sawdot = st.sawdot ∧ st1.underscores = st.underscores ∧
      (st.sawdigits = true ∨ ds ≠ [] → st1.sawdigits = true) ∧
      (st1.nd = 0 → st1.mant = 0) := by
  induction ds generalizing st with
  | nil => exact ⟨st, rfl, rfl, by simp, rfl, rfl, by simp, h0⟩
  | cons c cs ih =>
    have hc := hd c (List.mem_cons_self _ _)
    have hcs : allDigits cs := fun x hx => hd x (List.mem_cons_of_mem _ hx)
    have e1 : c ≠ 95 := by omega
    have e2 : c ≠ 46 := by omega
    have e3 : isDigit c = true := by simp [isDigit, hc]
    by_cases hz : c = 48 ∧ st.nd = 0
    · obtain ⟨st1, hs, hm, hn, hdot, hu, hsd, hinv⟩ :=
        ih { st with sawdigits := true, dp := st.dp - 1 } hcs h0
      refine ⟨st1, ?_, ?_, ?_, hdot, hu, fun _ => ?_, hinv⟩
      · rw [List.cons_append, scanMantissa, if_neg e1, if_neg e2, if_pos e3, if_pos hz]
        exact hs
      · rw [hm]
        simp only [List.foldl_cons]
        rw [h0 hz.2, hz.1]
      · rw [hn]
        simp only [List.length_cons]
        push_cast
        ring
      · exact hsd (Or.inl rfl)
    · obtain ⟨st1, hs, hm, hn, hdot, hu, hsd, hinv⟩ :=
        ih { st with sawdigits := true, nd := st.nd + 1, mant := st.mant * 10 + (c - 48) } hcs
          (by simp)
      refine ⟨st1, ?_, ?_, ?_, hdot, hu, fun _ => ?_, hinv⟩
      · rw [List.cons_append, scanMantissa, if_neg e1, if_neg e2, if_pos e3, if_neg hz]
        exact hs
      · rw [hm]
        simp only [List.foldl_cons]
      · rw [hn]
        simp only [List.length_cons]
        push_cast
        ring
      · exact hsd (Or.inl rfl)


theorem decVal_lt (ds : GoString) (hd : allDigits ds) : decVal ds < 10 ^ ds.length := by
  have key : ∀ (l : GoString) (a : Nat), allDigits l →
      l.foldl (fun acc c => acc * 10 + (c - 48)) a < (a + 1) * 10 ^ l.length := by
    intro l
    induction l with
    | nil => intro a _; simp
    | cons c cs ih =>
      intro a h
      have hc := h c (List.mem_cons_self _ _)
      have := ih (a * 10 + (c - 48)) (fun x hx => h x (List.mem_cons_of_mem _ hx))
      simp only [List.foldl_cons, List.length_cons]
      calc _ < (a * 10 + (c - 48) + 1) * 10 ^ cs.length := this
        _ ≤ ((a + 1) * 10) * 10 ^ cs.length := Nat.mul_le_mul_right _ (by omega)
        _ = (a + 1) * 10 ^ (cs.length + 1) := by ring
  have := key ds 0 hd
  simpa [decVal] using this

theorem scanMantissa_stop (c : Nat) (cs : GoString) (st : Scan) (h1 : c ≠ 95) (h2 : c ≠ 46)
    (h3 : ¬ (48 ≤ c ∧ c ≤ 57)) : scanMantissa 10 (c :: cs) st = (st, c :: cs) := by
  rw [scanMantissa, if_neg h1, if_neg h2, if_neg (by simpa [isDigit] using h3), if_neg (by simp)]

theorem hasHexStart_dot (t : GoString) : hasHexStart (46 :: t) = false := by
  match t with
  | [] => rfl
  | [_] => rfl
  | _ :: _ :: _ => simp [hasHexStart]

theorem special_dot (t : GoString) : special (46 :: t) = none := by
  simp [special]

theorem special_sign_dot (c : Nat) (t : GoString) (hc : c = 43 ∨ c = 45) :
    special (c :: 46 :: t) = none := by
  simp only [special, hc, reduceIte, specialInf]
  have : commonPrefixLenIgnoreCase (46 :: t) (ascii "infinity") = 0 := by
    simp [commonPrefixLenIgnoreCase, ascii]
  rw [this]
  simp

/-- What the digit loop reads from `"." ++ fp ++ rest` when `rest` does not continue the
mantissa. -/
theorem scanMantissa_fraction (fp rest : GoString) (hd : allDigits fp) (hne : fp ≠ [])
    (hr : rest = [] ∨ ∃ x t, rest = x :: t ∧ x ≠ 95 ∧ x ≠ 46 ∧ ¬ (48 ≤ x ∧ x ≤ 57)) :
    ∃ st1 : Scan, scanMantissa 10 (46 :: (fp ++ rest)) ⟨0, 0, 0, false, false, false⟩ = (st1, rest) ∧
      st1.mant = decVal fp ∧ st1.dp - (st1.nd : Int) = - (fp.length : Int) ∧
      st1.sawdot = true ∧ st1.underscores = false ∧ st1.sawdigits = true := by
  obtain ⟨st1, hs, hm, hn, hdot, hu, hsd, _⟩ :=
    scanMantissa_digits fp rest ⟨0, 0, 0, true, false, false⟩ hd (by simp)
  refine ⟨st1, ?_, hm, ?_, hdot, hu, hsd (Or.inr hne)⟩
  · rw [scanMantissa, if_neg (by decide), if_pos rfl, if_neg (by simp)]
    simp only [Nat.cast_zero]
    rw [hs]
    rcases hr with rfl | ⟨x, t, rfl, h1, h2, h3⟩
    · rfl
    · exact scanMantissa_stop x t st1 h1 h2 h3
  · simp only [Nat.cast_zero, sub_zero, zero_add] at hn
    omega

theorem scanExp_digits (xs : GoString) (e : Nat) (u : Bool) (hd : allDigits xs)
    (hb : (e + 1) * 10 ^ xs.length ≤ 100000) :
    scanExp xs e u = (xs.foldl (fun acc c => acc * 10 + (c - 48)) e, u, []) := by
  induction xs generalizing e with
  | nil => rfl
  | cons c cs ih =>
    have hc := hd c (List.mem_cons_self _ _)
    have hcs : allDigits cs := fun x hx => hd x (List.mem_cons_of_mem _ hx)
    have hp : 1 ≤ 10 ^ cs.length := Nat.one_le_pow _ _ (by decide)
    simp only [List.length_cons, pow_succ] at hb
    have he : e < 10000 := by nlinarith
    rw [scanExp, if_neg (by omega), if_pos (by simp [isDigit, hc]), if_pos he]
    have hb2 : (e * 10 + (c - 48) + 1) * 10 ^ cs.length ≤ 100000 := by
      calc (e * 10 + (c - 48) + 1) * 10 ^ cs.length
          ≤ ((e + 1) * 10) * 10 ^ cs.length := Nat.mul_le_mul_right _ (by omega)
        _ = (e + 1) * (10 ^ cs.length * 10) := by ring
        _ ≤ 100000 := hb
    rw [ih (e * 10 + (c - 48)) hcs hb2]
    rfl

theorem readFloatExp_end (s : GoString) (neg : Bool) (st : Scan) (h1 : st.sawdigits = true)
    (h2 : st.sawdot = true) (h3 : st.underscores = false) :
    readFloatExp s neg false st [] = some ⟨st.mant, st.dp - st.nd, neg, false, []⟩ := by
  simp [readFloatExp, h1, h2, h3, readFloatEnd]

theorem readFloatExp_exponent (s : GoString) (neg : Bool) (st : Scan) (esg xs : GoString)
    (hesg : esg = [] ∨ esg = [43] ∨ esg = [45]) (hx : allDigits xs) (hne : xs ≠ [])
    (hl : xs.length ≤ 2) (h1 : st.sawdigits = true) (h2 : st.sawdot = true)
    (h3 : st.underscores = false) :
    readFloatExp s neg false st (101 :: (esg ++ xs)) =
      some ⟨st.mant, st.dp + (decVal xs : Int) * (if esg = [45] then -1 else 1) - st.nd,
        neg, false, []⟩ := by
  have hsc : scanExp xs 0 false = (decVal xs, false, []) := by
    apply scanExp_digits xs 0 false hx
    have : 10 ^ xs.length ≤ 10 ^ 2 := Nat.pow_le_pow_right (by decide) hl
    omega
  match xs, hne with
  | z :: zs, _ =>
    have hz := hx z (List.mem_cons_self _ _)
    have hzd : isDigit z = true := by simp [isDigit, hz]
    have n1 : ¬ (z = 43 ∨ z = 45) := by omega
    have n2 : z ≠ 45 := by omega
    have n3 : z ≠ 43 := by omega
    rcases hesg with rfl | rfl | rfl
    · simp [readFloatExp, h1, h2, h3, readFloatEnd, lower, n1, n2, n3, hzd, hsc]
    · simp [readFloatExp, h1, h2, h3, readFloatEnd, lower, hzd, hsc]
    · simp [readFloatExp, h1, h2, h3, readFloatEnd, lower, hzd, hsc]

theorem readFloat_fraction (pre fp ex : GoString) (hpre : pre = [] ∨ pre = [43] ∨ pre = [45])
    (hd : allDigits fp) (hne : fp ≠ [])
    (hex : ex = [] ∨ ∃ x t, ex = x :: t ∧ x ≠ 95 ∧ x ≠ 46 ∧ ¬ (48 ≤ x ∧ x ≤ 57)) :
    ∃ st1 : Scan, readFloat (pre ++ 46 :: (fp ++ ex)) =
        readFloatExp (pre ++ 46 :: (fp ++ ex)) (decide (pre = [45])) false st1 ex ∧
      st1.mant = decVal fp ∧ st1.dp - (st1.nd : Int) = - (fp.length : Int) ∧
      st1.sawdot = true ∧ st1.underscores = false ∧ st1.sawdigits = true := by
  obtain ⟨st1, hs, hrest⟩ := scanMantissa_fraction fp ex hd hne hex
  refine ⟨st1, ?_, hrest⟩
  rcases hpre with rfl | rfl | rfl
  · simp [readFloat, hasHexStart_dot, hs]
  · simp [readFloat, hasHexStart_dot, hs]
  · simp [readFloat, hasHexStart_dot, hs]

theorem special_fraction (pre t : GoString) (hpre : pre = [] ∨ pre = [43] ∨ pre = [45]) :
    special (pre ++ 46 :: t) = none := by
  rcases hpre with rfl | rfl | rfl
  · exact special_dot t
  · exact special_sign_dot 43 t (by simp)
  · exact special_sign_dot 45 t (by simp)

/-- The result of `ParseFloat` on `sign "." digits`: the nearest binary64 number to
`0.digits`. -/
theorem ParseFloat_fraction (pre fp : GoString) (hpre : pre = [] ∨ pre = [43] ∨ pre = [45])
    (hd : allDigits fp) (hne : fp ≠ []) :
    ParseFloat (pre ++ 46 :: fp) =
      ((roundScaled (decide (pre = [45])) (decVal fp) 10 (-(fp.length : Int))).1,
       if (roundScaled (decide (pre = [45])) (decVal fp) 10 (-(fp.length : Int))).2 then
         some (rangeError "ParseFloat" (pre ++ 46 :: fp)) else none) := by
  obtain ⟨st1, hr, hm, hdp, h2, h3, h1⟩ := readFloat_fraction pre fp [] hpre hd hne (Or.inl rfl)
  simp only [List.append_nil] at hr
  unfold ParseFloat
  rw [special_fraction pre fp hpre, hr, readFloatExp_end _ _ _ h1 h2 h3]
  simp [hm, hdp]

/-- The result of `ParseFloat` on `sign "." digits "e" sign digits`. -/
theorem ParseFloat_implied (pre fp esg xs : GoString)
    (hpre : pre = [] ∨ pre = [43] ∨ pre = [45]) (hd : allDigits fp) (hne : fp ≠ [])
    (hesg : esg = [] ∨ esg = [43] ∨ esg = [45]) (hx : allDigits xs) (hxne : xs ≠ [])
    (hl : xs.length ≤ 2) :
    ParseFloat (pre ++ 46 :: (fp ++ 101 :: (esg ++ xs))) =
      ((roundScaled (decide (pre = [45])) (decVal fp) 10
          ((decVal xs : Int) * (if esg = [45] then -1 else 1) - (fp.length : Int))).1,
       if (roundScaled (decide (pre = [45])) (decVal fp) 10
          ((decVal xs : Int) * (if esg = [45] then -1 else 1) - (fp.length : Int))).2 then
         some (rangeError "ParseFloat" (pre ++ 46 :: (fp ++ 101 :: (esg ++ xs)))) else none) := by
  obtain ⟨st1, hr, hm, hdp, h2, h3, h1⟩ := readFloat_fraction pre fp (101 :: (esg ++ xs)) hpre hd hne
    (Or.inr ⟨101, _, rfl, by decide, by decide, by decide⟩)
  unfold ParseFloat
  rw [special_fraction pre _ hpre, hr, readFloatExp_exponent _ _ _ esg xs hesg hx hxne hl h1 h2 h3]
  have e : st1.dp + (decVal xs : Int) * (if esg = [45] then -1 else 1) - st1.nd =
      (decVal xs : Int) * (if esg = [45] then -1 else 1) - (fp.length : Int) := by
    omega
  simp only [ne_eq, not_true_eq_false, ↓reduceIte, hm, e, Bool.false_eq_true]

/-! ## Rounding -/

theorem log2Aux_le (fuel n k : Nat) (h : n < 2 ^ (k + 1)) : log2Aux fuel n ≤ k := by
  induction fuel generalizing n k with
  | zero => simp [log2Aux]
  | succ f ih =>
    simp only [log2Aux]
    split_ifs with h2
    · cases k with
      | zero => simp at h; omega
      | succ k =>
        have : n / 2 < 2 ^ (k + 1) := by
          rw [Nat.div_lt_iff_lt_mul (by decide)]
          calc n < 2 ^ (k + 1 + 1) := h
            _ = 2 ^ (k + 1) * 2 := by ring
        have := ih (n / 2) k this
        omega
    · omega

theorem floorLog2_le (n d k : Nat) (h : n < 2 ^ (k + 1)) : floorLog2 n d ≤ k := by
  have h1 : log2 n ≤ k := log2Aux_le n n k h
  unfold floorLog2
  dsimp only
  split_ifs <;> omega

theorem roundF64_no_overflow (neg : Bool) (n d : Nat) (h : n < 2 ^ 1000) :
    (roundF64 neg n d).2 = false := by
  unfold roundF64
  split_ifs with h0
  · rfl
  · have hL := floorLog2_le n d 999 h
    dsimp only
    have he : max (floorLog2 n d - 52) (-1074) ≤ 947 := max_le (by omega) (by omega)
    generalize max (floorLog2 n d - 52) (-1074) = e at he
    split_ifs with h1 h2 h3 h4 h5 h6 h7 <;> first | rfl | (exfalso; dsimp only at *; omega)

theorem roundHalfEven_lt (n d P : Nat) (h1 : n < d) (h2 : d < P) :
    roundHalfEven (n * P) d < P := by
  have hq : n * P / d + 1 < P := by
    have hd : 0 < d := by omega
    have : n * P / d < P - 1 := by
      rw [Nat.div_lt_iff_lt_mul hd]
      have e1 : n * P ≤ (d - 1) * P := Nat.mul_le_mul_right _ (by omega)
      have e2 : (d - 1) * P < (P - 1) * d := by
        obtain ⟨a, rfl⟩ : ∃ a, d = a + 1 := ⟨d - 1, by omega⟩
        obtain ⟨b, rfl⟩ : ∃ b, P = b + 1 := ⟨P - 1, by omega⟩
        simp only [Nat.add_sub_cancel]
        nlinarith
      omega
    omega
  unfold roundHalfEven
  dsimp only
  split_ifs <;> omega

theorem roundHalfEven_near (N D : Nat) (hD : 0 < D) :
    2 * (roundHalfEven N D * D) ≤ 2 * N + D ∧ 2 * N ≤ 2 * (roundHalfEven N D * D) + D := by
  have h1 := Nat.div_add_mod N D
  have h2 := Nat.mod_lt N hD
  have h3 : (N / D + 1) * D = D * (N / D) + D := by ring
  have h4 : N / D * D = D * (N / D) := by ring
  unfold roundHalfEven
  dsimp only
  split_ifs <;> (first | rw [h3] | rw [h4]) <;> omega

/-- Rounding a fraction `n / d < 1` with `d < 2^52`: the result is a finite number in
`[0, 1)` within `2^-53` of `n / d`. -/
theorem roundF64_fraction_near (n d : Nat) (hn : 0 < n) (hnd : n < d) (hd : d < 2 ^ 52)
    (hlog : log2 n ≤ log2 d) :
    ∃ q : ℚ, (roundF64 false n d).1.toRat = some q ∧ (roundF64 false n d).2 = false ∧
      0 ≤ q ∧ q < 1 ∧ |q - (n : ℚ) / d| ≤ 1 / 2 ^ 53 := by
  unfold roundF64
  rw [if_neg (by omega)]
  have hL : floorLog2 n d ≤ 0 := by
    unfold floorLog2
    dsimp only
    split_ifs <;> omega
  have he : max (floorLog2 n d - 52) (-1074) ≤ -52 := max_le (by omega) (by omega)
  have he2 : -1074 ≤ max (floorLog2 n d - 52) (-1074) := le_max_right _ _
  generalize max (floorLog2 n d - 52) (-1074) = e at he he2
  have hneg : ¬ (0 ≤ e) := by omega
  simp only [hneg, ↓reduceIte]
  obtain ⟨k, rfl⟩ : ∃ k : Nat, e = -(k : Int) := ⟨(-e).toNat, by omega⟩
  simp only [neg_neg, Int.toNat_ofNat]
  have hk : 52 ≤ k := by omega
  have hP52 : 2 ^ 52 ≤ 2 ^ k := Nat.pow_le_pow_right (by decide) hk
  have hP : d < 2 ^ k := lt_of_lt_of_le hd hP52
  have hm := roundHalfEven_lt n d (2 ^ k) hnd hP
  have hb := roundHalfEven_near (n * 2 ^ k) d (by omega)
  generalize roundHalfEven (n * 2 ^ k) d = m at hm hb
  -- the value, before the mantissa is renormalised
  have hval : ∀ q : ℚ, q = (m : ℚ) / 2 ^ k → 0 ≤ q ∧ q < 1 ∧ |q - (n : ℚ) / d| ≤ 1 / 2 ^ 53 := by
    intro q hq
    have hdq : (0 : ℚ) < d := by exact_mod_cast (by omega : 0 < d)
    have hPq : (0 : ℚ) < 2 ^ k := by positivity
    have hP52q : (2 : ℚ) ^ 52 ≤ 2 ^ k := by exact_mod_cast hP52
    have hb1 : 2 * ((m : ℚ) * d) ≤ 2 * ((n : ℚ) * 2 ^ k) + d := by exact_mod_cast hb.1
    have hb2 : 2 * ((n : ℚ) * 2 ^ k) ≤ 2 * ((m : ℚ) * d) + d := by exact_mod_cast hb.2
    have hmq : (m : ℚ) < 2 ^ k := by exact_mod_cast hm
    subst hq
    refine ⟨by positivity, (div_lt_one hPq).mpr hmq, ?_⟩
    rw [div_sub_div _ _ (ne_of_gt hPq) (ne_of_gt hdq), abs_le]
    have hden : (0 : ℚ) < 2 ^ k * d := by positivity
    have hdk : (2 : ℚ) ^ 52 * d ≤ 2 ^ k * d := mul_le_mul_of_nonneg_right hP52q (le_of_lt hdq)
    constructor
    · rw [le_div_iff₀ hden]
      nlinarith
    · rw [div_le_iff₀ hden]
      nlinarith
  by_cases h53 : m = 2 ^ 53
  · simp only [h53, ↓reduceIte]
    rw [if_neg (by omega)]
    have hk53 : 53 < k := by
      rw [h53] at hm
      exact (Nat.pow_lt_pow_iff_right (by decide)).mp hm
    obtain ⟨j, rfl⟩ : ∃ j : Nat, k = j + 1 := ⟨k - 1, by omega⟩
    refine ⟨(2 : ℚ) ^ 52 / 2 ^ j, ?_, rfl, ?_⟩
    · simp only [F64.toRat]
      have : (-((j + 1 : Nat) : Int) + 1) = -(j : Int) := by push_cast; ring
      rw [this, zpow_neg, zpow_natCast]
      simp [div_eq_mul_inv]
      norm_num
    · apply hval
      rw [h53]
      push_cast
      rw [pow_succ]
      field_simp
      ring
  · simp only [h53, ↓reduceIte]
    rw [if_neg (by omega)]
    refine ⟨(m : ℚ) / 2 ^ k, ?_, rfl, hval _ rfl⟩
    simp only [F64.toRat]
    rw [zpow_neg, zpow_natCast]
    simp [div_eq_mul_inv]

/-! ## Space removal and the eccentricity (C5, C6) -/

theorem Replace_zero (t : GoString) (old : Nat) (new : GoString) : Replace t old new 0 = t := by
  cases t <;> rfl

theorem Replace_no_space (t : GoString) (n : Nat) (h : 32 ∉ Replace t 32 [] n) :
    Replace t 32 [] n = stripSpaces t := by
  induction t generalizing n with
  | nil => simp [Replace, stripSpaces]
  | cons c cs ih =>
    cases n with
    | zero =>
      rw [Replace_zero] at h ⊢
      unfold stripSpaces
      rw [List.filter_eq_self.mpr]
      intro a ha
      have : a ≠ 32 := fun e => h (e ▸ ha)
      simpa using this
    | succ n =>
      simp only [Replace] at h ⊢
      by_cases hc : c = 32
      · rw [if_pos hc] at h ⊢
        simp only [List.nil_append] at h ⊢
        rw [ih n h]
        simp [stripSpaces, hc]
      · rw [if_neg hc] at h ⊢
        rw [ih (n + 1) (fun hm => h (List.mem_cons_of_mem _ hm))]
        simp [stripSpaces, hc]

theorem Replace_count (t : GoString) (n : Nat) (h : t.count 32 ≤ n) :
    Replace t 32 [] n = stripSpaces t := by
  induction t generalizing n with
  | nil => simp [Replace, stripSpaces]
  | cons c cs ih =>
    by_cases hc : c = 32
    · subst hc
      simp only [List.count_cons_self] at h
      obtain ⟨k, rfl⟩ : ∃ k, n = k + 1 := ⟨n - 1, by omega⟩
      simp only [Replace, ↓reduceIte, List.nil_append]
      rw [ih k (by omega)]
      simp [stripSpaces]
    · rw [List.count_cons_of_ne (Ne.symm hc)] at h
      cases n with
      | zero =>
        rw [Replace_zero]
        unfold stripSpaces
        rw [List.filter_eq_self.mpr]
        intro a ha
        have h0 : cs.count 32 = 0 := by omega
        have hcs : 32 ∉ cs := List.count_eq_zero.mp h0
        have : a ≠ 32 := by
          rintro rfl
          rcases List.mem_cons.mp ha with e | e
          · exact hc e.symm
          · exact hcs e
        simpa using this
      | succ n =>
        simp only [Replace, if_neg hc]
        rw [ih (n + 1) h]
        simp [stripSpaces, hc]

theorem ecco_conversion (line2 : GoString) (h2 : 63 ≤ line2.length)
    (hd : allDigits (col line2 26 33)) :
    parseFloat (ascii "." ++ col line2 26 33) =
      ((roundScaled false (decVal (col line2 26 33)) 10 (-7)).1, none) := by
  have hl : (col line2 26 33).length = 7 := by rw [col_length _ _ _ (by omega)]
  have hne : col line2 26 33 ≠ [] := by
    intro h
    rw [h] at hl
    simp at hl
  have hv := decVal_lt _ hd
  rw [hl] at hv
  have key := ParseFloat_fraction [] (col line2 26 33) (Or.inl rfl) hd hne
  simp only [List.nil_append, hl] at key
  have hno : (roundScaled false (decVal (col line2 26 33)) 10 (-7)).2 = false := by
    simp only [roundScaled]
    rw [if_neg (by decide)]
    apply roundF64_no_overflow
    calc decVal (col line2 26 33) < 10 ^ 7 := hv
      _ ≤ 2 ^ 1000 := by norm_num
  unfold parseFloat
  show ParseFloat (46 :: col line2 26 33) = _
  rw [key]
  simp [hno]


/-- The value of a seven-digit eccentricity field: a number in `[0, 1)` within `2^-53` of
`d1..d7 / 10^7`. -/
theorem ecco_value (line2 : GoString) (h2 : 63 ≤ line2.length)
    (hd : allDigits (col line2 26 33)) :
    ∃ q : ℚ, (roundScaled false (decVal (col line2 26 33)) 10 (-7)).1.toRat = some q ∧
      0 ≤ q ∧ q < 1 ∧ |q - (decVal (col line2 26 33) : ℚ) / 10 ^ 7| ≤ 1 / 2 ^ 53 := by
  have hl : (col line2 26 33).length = 7 := by rw [col_length _ _ _ (by omega)]
  have hv := decVal_lt _ hd
  rw [hl] at hv
  generalize decVal (col line2 26 33) = n at hv
  simp only [roundScaled]
  rw [if_neg (by decide)]
  by_cases hn : n = 0
  · subst hn
    exact ⟨0, by simp [roundF64, F64.toRat], le_refl _, by norm_num, by norm_num⟩
  · have hlog : log2 n ≤ log2 (10 ^ (-(-7 : Int)).toNat) := by
      have : log2 (10 ^ (-(-7 : Int)).toNat) = 23 := by decide
      rw [this]
      exact log2Aux_le n n 23 (by omega)
    obtain ⟨q, hq, _, h0, h1, hnear⟩ := roundF64_fraction_near n (10 ^ (-(-7 : Int)).toNat)
      (by omega) (by simpa using hv) (by decide) hlog
    refine ⟨q, hq, h0, h1, ?_⟩
    have e7 : (-(-7 : Int)).toNat = 7 := by decide
    rw [e7] at hnear
    exact_mod_cast hnear

theorem ParseTLE_ok_record {G : Type} (g : GoString → G) (line1 line2 gravconst : GoString)
    (h1 : 61 ≤ line1.length) (h2 : 63 ≤ line2.length) (sat : Satellite G)
    (h : ParseTLE g line1 line2 gravconst = Outcome.ok sat) :
    (∀ x ∈ (conversions line1 line2).errors, x = none) ∧
    sat = (conversions line1 line2).record line1 line2 (g gravconst) := by
  rw [ParseTLE_eq_chain g line1 line2 gravconst h1 h2] at h
  cases hfe : firstError (conversions line1 line2).errors with
  | none =>
    rw [hfe] at h
    simp only [Outcome.ok.injEq] at h
    exact ⟨(firstError_none _).mp hfe, h.symm⟩
  | some e =>
    rw [hfe] at h
    exact absurd h (by simp)

/-- C5: on lines that pass the length check, if the eccentricity field `line2[26:33]` is
seven decimal digits and the other eleven conversions succeed, `ParseTLE` succeeds and the
eccentricity of the record is the binary64 number nearest to `d1..d7 / 10^7`: a number
within `2^-53` of that quotient. -/
theorem ParseTLE_eccentricity {G : Type} (g : GoString → G) (line1 line2 gravconst : GoString)
    (h1 : 61 ≤ line1.length) (h2 : 63 ≤ line2.length) (hd : allDigits (col line2 26 33))
    (hothers : (conversions line1 line2).satnum.2 = none ∧
      (conversions line1 line2).epochyr.2 = none ∧ (conversions line1 line2).epochdays.2 = none ∧
      (conversions line1 line2).ndot.2 = none ∧ (conversions line1 line2).nddot.2 = none ∧
      (conversions line1 line2).bstar.2 = none ∧ (conversions line1 line2).inclo.2 = none ∧
      (conversions line1 line2).nodeo.2 = none ∧ (conversions line1 line2).argpo.2 = none ∧
      (conversions line1 line2).mo.2 = none ∧ (conversions line1 line2).no.2 = none) :
    ∃ sat, ParseTLE g line1 line2 gravconst = Outcome.ok sat ∧
      sat.ecco = (roundScaled false (decVal (col line2 26 33)) 10 (-7)).1 ∧
      ∃ q : ℚ, sat.ecco.toRat = some q ∧
        |q - (decVal (col line2 26 33) : ℚ) / 10 ^ 7| ≤ 1 / 2 ^ 53 := by
  have he : (conversions line1 line2).ecco =
      ((roundScaled false (decVal (col line2 26 33)) 10 (-7)).1, none) :=
    ecco_conversion line2 h2 hd
  obtain ⟨a1, a2, a3, a4, a5, a6, a7, a8, a9, a10, a11⟩ := hothers
  have hrec : ((conversions line1 line2).record line1 line2 (g gravconst)).ecco =
      (roundScaled false (decVal (col line2 26 33)) 10 (-7)).1 := by
    simp only [Conversions.record]
    rw [he]
  obtain ⟨q, hq, _, _, hnear⟩ := ecco_value line2 h2 hd
  refine ⟨(conversions line1 line2).record line1 line2 (g gravconst), ?_, hrec,
    q, by rw [hrec]; exact hq, hnear⟩
  · rw [ParseTLE_eq_chain g line1 line2 gravconst h1 h2]
    have : firstError (conversions line1 line2).errors = none := by
      rw [firstError_none]
      intro x hx
      simp only [Conversions.errors, List.mem_cons, List.mem_singleton, List.not_mem_nil,
        or_false] at hx
      rcases hx with rfl | rfl | rfl | rfl | rfl | rfl | rfl | rfl | rfl | rfl | rfl | rfl
      · exact a1
      · exact a2
      · exact a3
      · exact a4
      · exact a5
      · exact a6
      · exact a7
      · exact a8
      · rw [he]
      · exact a9
      · exact a10
      · exact a11
    rw [this]

/-- Instance of C5: the eccentricity field `1234567` decodes to the binary64 number
`0x1.f9adbb8f8da72p-4`, the nearest to 0.1234567. -/
theorem ParseTLE_eccentricity_witness :
    (61 ≤ issLine1.length ∧ 63 ≤ issLine2Ecc.length ∧ allDigits (col issLine2Ecc 26 33)) ∧
    (roundScaled false (decVal (col issLine2Ecc 26 33)) 10 (-7)).1 =
      F64.finite false 0x1f9adbb8f8da72 (-56) ∧
    ∃ sat, ParseTLE (fun _ => ()) issLine1 issLine2Ecc [] = Outcome.ok sat ∧
      sat.ecco = (roundScaled false (decVal (col issLine2Ecc 26 33)) 10 (-7)).1 ∧
      ∃ q : ℚ, sat.ecco.toRat = some q ∧
        |q - (decVal (col issLine2Ecc 26 33) : ℚ) / 10 ^ 7| ≤ 1 / 2 ^ 53 :=
  ⟨by decide, by decide,
   ParseTLE_eccentricity (fun _ => ()) issLine1 issLine2Ecc [] (by decide) (by decide)
    (by decide) (by decide)⟩

/-- C6 (as stated, refuted): with the eccentricity field `12345e6` `ParseTLE` succeeds and
the eccentricity of the record is 123450. -/
theorem ParseTLE_eccentricity_not_below_one :
    ∃ sat, ParseTLE (fun _ => ()) issLine1 issLine2BigEcc [] = Outcome.ok sat ∧
      sat.ecco = F64.finite false (123450 * 2 ^ 36) (-36) ∧
      sat.ecco.toRat = some 123450 ∧ ¬ ((123450 : ℚ) < 1) := by
  refine ⟨(conversions issLine1 issLine2BigEcc).record issLine1 issLine2BigEcc (), by decide,
    by decide, ?_, by norm_num⟩
  have : ((conversions issLine1 issLine2BigEcc).record issLine1 issLine2BigEcc ()).ecco =
      F64.finite false (123450 * 2 ^ 36) (-36) := by decide
  rw [this]
  norm_num [F64.toRat]

theorem roundF64_finite (neg : Bool) (n d : Nat) (h : (roundF64 neg n d).2 = false) :
    ∃ m e, (roundF64 neg n d).1 = F64.finite neg m e := by
  unfold roundF64 at h ⊢
  by_cases h0 : n = 0
  · rw [if_pos h0]
    exact ⟨_, _, rfl⟩
  · rw [if_neg h0] at h ⊢
    dsimp only at h ⊢
    split_ifs at h ⊢
    all_goals exact ⟨_, _, rfl⟩

theorem roundScaled_finite (neg : Bool) (m b : Nat) (x : Int)
    (h : (roundScaled neg m b x).2 = false) :
    ∃ k e, (roundScaled neg m b x).1 = F64.finite neg k e := by
  unfold roundScaled at h ⊢
  split_ifs at h ⊢
  · exact roundF64_finite _ _ _ h
  · exact roundF64_finite _ _ _ h

theorem readFloatExp_neg (s : GoString) (neg hex : Bool) (st : Scan) (rest : GoString)
    (r : FloatText) (h : readFloatExp s neg hex st rest = some r) : r.neg = neg := by
  unfold readFloatExp at h
  by_cases h0 : (!st.sawdigits) = true
  · rw [if_pos h0] at h
    simp at h
  · rw [if_neg h0] at h
    dsimp only at h
    cases rest with
    | nil =>
      dsimp only at h
      by_cases hh : hex = true
      · rw [if_pos hh] at h
        simp at h
      · rw [if_neg hh] at h
        rw [readFloatEnd_rest _ _ _ _ _ _ _ _ h]
    | cons x s4 =>
      dsimp only at h
      by_cases h1 : lower x = (if hex = true then 112 else 101)
      · rw [if_pos h1] at h
        cases s4 with
        | nil => simp at h
        | cons y s5 =>
          dsimp only at h
          generalize (if y = 43 ∨ y = 45 then s5 else y :: s5) = s6 at h
          cases s6 with
          | nil => simp at h
          | cons z s7 =>
            dsimp only at h
            by_cases h3 : isDigit z = true
            · rw [if_pos h3] at h
              rw [readFloatEnd_rest _ _ _ _ _ _ _ _ h]
            · rw [if_neg h3] at h
              simp at h
      · rw [if_neg h1] at h
        by_cases hh : hex = true
        · rw [if_pos hh] at h
          simp at h
        · rw [if_neg hh] at h
          rw [readFloatEnd_rest _ _ _ _ _ _ _ _ h]

theorem ParseFloat_dot_finite (t : GoString) (f : F64) (h : ParseFloat (46 :: t) = (f, none)) :
    ∃ m e, f = F64.finite false m e := by
  unfold ParseFloat at h
  rw [special_dot] at h
  dsimp only at h
  cases hr : readFloat (46 :: t) with
  | none =>
    rw [hr] at h
    simp at h
  | some r =>
    rw [hr] at h
    dsimp only at h
    have hneg : r.neg = false := by
      unfold readFloat at hr
      dsimp only at hr
      rw [readFloatExp_neg _ _ _ _ _ _ hr]
      decide
    by_cases hrest : r.rest ≠ []
    · rw [if_pos hrest] at h
      simp at h
    · rw [if_neg hrest, hneg] at h
      simp only [Prod.mk.injEq] at h
      obtain ⟨hf, he⟩ := h
      have h2 : (roundScaled false r.mant (if r.hex = true then 2 else 10) r.exp).2 = false := by
        by_contra hc
        simp only [Bool.not_eq_false] at hc
        rw [if_pos hc] at he
        simp at he
      obtain ⟨m, e, hm⟩ := roundScaled_finite _ _ _ _ h2
      exact ⟨m, e, by rw [← hf, hm]⟩

theorem ParseTLE_ok_lengths {G : Type} (g : GoString → G) (line1 line2 gravconst : GoString)
    (sat : Satellite G) (h : ParseTLE g line1 line2 gravconst = Outcome.ok sat) :
    61 ≤ line1.length ∧ 63 ≤ line2.length := by
  unfold ParseTLE at h
  by_cases h1 : line1.length < 61
  · simp [h1] at h
  · by_cases h2 : line2.length < 63
    · simp [h1, h2] at h
    · omega

/-- C6 (amended): when `ParseTLE` succeeds, the eccentricity `e` of the record is a finite
number with `0 ≤ e`, whatever the eccentricity field holds; and `e < 1` when the field
`line2[26:33]` is seven decimal digits. -/
theorem ParseTLE_eccentricity_range {G : Type} (g : GoString → G)
    (line1 line2 gravconst : GoString) (sat : Satellite G)
    (h : ParseTLE g line1 line2 gravconst = Outcome.ok sat) :
    ∃ q : ℚ, sat.ecco.toRat = some q ∧ 0 ≤ q ∧
      (allDigits (col line2 26 33) → q < 1) := by
  obtain ⟨h1, h2⟩ := ParseTLE_ok_lengths g line1 line2 gravconst sat h
  obtain ⟨hall, rfl⟩ := ParseTLE_ok_record g line1 line2 gravconst h1 h2 sat h
  have e9 : (conversions line1 line2).ecco.2 = none := hall _ (by simp [Conversions.errors])
  have hp : ParseFloat (46 :: col line2 26 33) = ((conversions line1 line2).ecco.1, none) :=
    Prod.ext rfl e9
  obtain ⟨m, e, hm⟩ := ParseFloat_dot_finite _ _ hp
  simp only [Conversions.record]
  rw [hm]
  refine ⟨(m : ℚ) * 2 ^ e, by simp [F64.toRat], by positivity, ?_⟩
  intro hd
  have he : (conversions line1 line2).ecco =
      ((roundScaled false (decVal (col line2 26 33)) 10 (-7)).1, none) :=
    ecco_conversion line2 h2 hd
  obtain ⟨q, hq, _, hlt, _⟩ := ecco_value line2 h2 hd
  rw [he] at hm
  simp only at hm
  rw [hm] at hq
  simp only [F64.toRat, Bool.false_eq_true, if_false, one_mul, Option.some.injEq] at hq
  rw [hq]
  exact hlt

/-- Instance of C6 (amended): the ISS element set (seven digits, `0 ≤ e < 1`) and the ISS
lines with the eccentricity field `12345e6` (`0 ≤ e`). -/
theorem ParseTLE_eccentricity_range_witness :
    (ParseTLE (fun _ => ()) issLine1 issLine2 [] =
        Outcome.ok ((conversions issLine1 issLine2).record issLine1 issLine2 ()) ∧
      allDigits (col issLine2 26 33) ∧
      ParseTLE (fun _ => ()) issLine1 issLine2BigEcc [] =
        Outcome.ok ((conversions issLine1 issLine2BigEcc).record issLine1 issLine2BigEcc ()) ∧
      ¬ allDigits (col issLine2BigEcc 26 33)) ∧
    (∃ q : ℚ,
      ((conversions issLine1 issLine2).record issLine1 issLine2 ()).ecco.toRat = some q ∧
      0 ≤ q ∧ (allDigits (col issLine2 26 33) → q < 1)) ∧
    (∃ q : ℚ,
      ((conversions issLine1 issLine2BigEcc).record issLine1 issLine2BigEcc ()).ecco.toRat =
        some q ∧
      0 ≤ q ∧ (allDigits (col issLine2BigEcc 26 33) → q < 1)) :=
  ⟨⟨by decide, by decide, by decide, by decide⟩,
   ParseTLE_eccentricity_range (fun _ => ()) issLine1 issLine2 [] _ (by decide),
   ParseTLE_eccentricity_range (fun _ => ()) issLine1 issLine2BigEcc [] _ (by decide)⟩

/-! ## The plain fields (C3, C10) -/

theorem strip_of_parse (c : GoString) (h : (parseFloat (Replace c 32 [] 2)).2 = none) :
    Replace c 32 [] 2 = stripSpaces c := by
  apply Replace_no_space
  intro hm
  unfold parseFloat at h
  rw [ParseFloat_space _ hm] at h
  simp at h

/-- C3 (as stated, refuted): with the inclination field `5 1.6416` the text of columns
8..16 of line 2 is not a float, with or without its surrounding white space, yet `ParseTLE`
succeeds and the inclination is the float of `51.6416`: the space was removed first. -/
theorem ParseTLE_inclination_not_plain_float :
    ParseTLE (fun _ => ()) issLine1 issLine2InnerSpace [] =
      Outcome.ok ((conversions issLine1 issLine2InnerSpace).record issLine1
        issLine2InnerSpace ()) ∧
    ((conversions issLine1 issLine2InnerSpace).record issLine1 issLine2InnerSpace ()).inclo =
      (parseFloat (ascii "51.6416")).1 ∧
    (parseFloat (ascii "51.6416")).2 = none ∧
    col issLine2InnerSpace 8 16 = ascii "5 1.6416" ∧
    (parseFloat (col issLine2InnerSpace 8 16)).2 ≠ none ∧
    (parseFloat (TrimSpace (col issLine2InnerSpace 8 16))).2 ≠ none := by
  refine ⟨?_, ?_, ?_, ?_, ?_, ?_⟩ <;> decide

/-- C3 (amended): when `ParseTLE` succeeds, the plain fields of the record are the
decodings of the columns of the wire-format table: the catalog number is the integer of
`line1[2:7]` with surrounding white space trimmed, the epoch year the integer of
`line1[18:20]`, the epoch day the float of `line1[20:32]`, and the first derivative, the
inclination, the right ascension, the argument of perigee, the mean anomaly and the mean
motion are the floats of their columns with the spaces removed. -/
theorem ParseTLE_fields_from_columns {G : Type} (g : GoString → G)
    (line1 line2 gravconst : GoString) (h1 : 61 ≤ line1.length) (h2 : 63 ≤ line2.length)
    (sat : Satellite G) (h : ParseTLE g line1 line2 gravconst = Outcome.ok sat) :
    parseInt (TrimSpace (col line1 2 7)) = (sat.satnum, none) ∧
    parseInt (col line1 18 20) = (sat.epochyr, none) ∧
    parseFloat (col line1 20 32) = (sat.epochdays, none) ∧
    parseFloat (stripSpaces (col line1 33 43)) = (sat.ndot, none) ∧
    parseFloat (stripSpaces (col line2 8 16)) = (sat.inclo, none) ∧
    parseFloat (stripSpaces (col line2 17 25)) = (sat.nodeo, none) ∧
    parseFloat (stripSpaces (col line2 34 42)) = (sat.argpo, none) ∧
    parseFloat (stripSpaces (col line2 43 51)) = (sat.mo, none) ∧
    parseFloat (stripSpaces (col line2 52 63)) = (sat.no, none) := by
  obtain ⟨hall, rfl⟩ := ParseTLE_ok_record g line1 line2 gravconst h1 h2 sat h
  have e1 : (conversions line1 line2).satnum.2 = none := hall _ (by simp [Conversions.errors])
  have e2 : (conversions line1 line2).epochyr.2 = none := hall _ (by simp [Conversions.errors])
  have e3 : (conversions line1 line2).epochdays.2 = none := hall _ (by simp [Conversions.errors])
  have e4 : (conversions line1 line2).ndot.2 = none := hall _ (by simp [Conversions.errors])
  have e7 : (conversions line1 line2).inclo.2 = none := hall _ (by simp [Conversions.errors])
  have e8 : (conversions line1 line2).nodeo.2 = none := hall _ (by simp [Conversions.errors])
  have e10 : (conversions line1 line2).argpo.2 = none := hall _ (by simp [Conversions.errors])
  have e11 : (conversions line1 line2).mo.2 = none := hall _ (by simp [Conversions.errors])
  have e12 : (conversions line1 line2).no.2 = none := hall _ (by simp [Conversions.errors])
  simp only [conversions] at e1 e2 e3 e4 e7 e8 e10 e11 e12
  simp only [Conversions.record, conversions]
  refine ⟨?_, ?_, ?_, ?_, ?_, ?_, ?_, ?_, ?_⟩
  · exact Prod.ext rfl e1
  · exact Prod.ext rfl e2
  · exact Prod.ext rfl e3
  · rw [← strip_of_parse _ e4]
    exact Prod.ext rfl e4
  · rw [← strip_of_parse _ e7]
    exact Prod.ext rfl e7
  · rw [← strip_of_parse _ e8]
    exact Prod.ext rfl e8
  · rw [← strip_of_parse _ e10]
    exact Prod.ext rfl e10
  · rw [← strip_of_parse _ e11]
    exact Prod.ext rfl e11
  · rw [← strip_of_parse _ e12]
    exact Prod.ext rfl e12

/-- Instance of C3 (amended): the ISS element set. -/
theorem ParseTLE_fields_from_columns_witness :
    (61 ≤ issLine1.length ∧ 63 ≤ issLine2.length ∧
      ParseTLE (fun _ => ()) issLine1 issLine2 [] =
        Outcome.ok ((conversions issLine1 issLine2).record issLine1 issLine2 ())) ∧
    parseInt (TrimSpace (col issLine1 2 7)) = (25544, none) ∧
    parseInt (col issLine1 18 20) = (8, none) ∧
    stripSpaces (col issLine2 8 16) = ascii "51.6416" := by
  have h := ParseTLE_fields_from_columns (fun _ => ()) issLine1 issLine2 []
    (by decide) (by decide) _ (show ParseTLE (fun _ => ()) issLine1 issLine2 [] =
        Outcome.ok ((conversions issLine1 issLine2).record issLine1 issLine2 ()) by decide)
  exact ⟨⟨by decide, by decide, by decide⟩, h.1.trans (by decide), h.2.1.trans (by decide),
    by decide⟩

theorem parseUintLoop_space (s : GoString) (n : Nat) (hs : 32 ∈ s) :
    (parseUintLoop s n).2 = some ErrKind.ErrSyntax ∨
    parseUintLoop s n = (2 ^ IntSize - 1, some ErrKind.ErrRange) := by
  induction s generalizing n with
  | nil => simp at hs
  | cons c cs ih =>
    simp only [parseUintLoop]
    by_cases h1 : isDigit c = true ∨ 97 ≤ lower c ∧ lower c ≤ 122
    · have hc : c ≠ 32 := by
        rintro rfl
        revert h1
        decide
      have hcs := mem_tail_of_ne c cs hs hc
      split_ifs <;> first | exact Or.inl rfl | exact Or.inr rfl | exact ih _ hcs
    · rw [if_neg h1]
      exact Or.inl rfl

/-- A text with a space byte in it is not a number for `ParseInt`. -/
theorem ParseInt_space (s : GoString) (hs : 32 ∈ s) : (ParseInt s).2 ≠ none := by
  cases s with
  | nil => simp at hs
  | cons c cs =>
    simp only [ParseInt]
    have m1 : 32 ∈ (if c = 43 ∨ c = 45 then cs else c :: cs) := by
      split_ifs with hc
      · exact mem_tail_of_ne c cs hs (by omega)
      · exact hs
    generalize (if c = 43 ∨ c = 45 then cs else c :: cs) = body at m1
    have hb : body ≠ [] := by
      rintro rfl
      simp at m1
    have hu : ParseUint body = parseUintLoop body 0 := by simp [ParseUint, hb]
    rw [hu]
    rcases parseUintLoop_space body 0 m1 with h | h
    · generalize parseUintLoop body 0 = r at h
      obtain ⟨un, k⟩ := r
      simp only at h
      subst h
      simp
    · rw [h]
      by_cases hc : c = 45 <;> simp [hc, IntSize]

/-- C10 (as stated, refuted): an epoch-year field padded with a space (` 8`) and an
epoch-day field padded with a space (` 64.51782528`) each make `ParseTLE` return a syntax
error, although every other field is valid. -/
theorem ParseTLE_padded_epoch_rejected :
    col issLine1PaddedYear 18 20 = ascii " 8" ∧
    ParseTLE (fun _ => ()) issLine1PaddedYear issLine2 [] =
      Outcome.error (GoError.num (syntaxError "ParseInt" (ascii " 8"))) ∧
    col issLine1PaddedDay 20 32 = ascii " 64.51782528" ∧
    ParseTLE (fun _ => ()) issLine1PaddedDay issLine2 [] =
      Outcome.error (GoError.num (syntaxError "ParseFloat" (ascii " 64.51782528"))) ∧
    (conversions issLine1PaddedYear issLine2).errors =
      [none, some (syntaxError "ParseInt" (ascii " 8")), none, none, none, none, none, none,
       none, none, none, none] ∧
    (conversions issLine1PaddedDay issLine2).errors =
      [none, none, some (syntaxError "ParseFloat" (ascii " 64.51782528")), none, none, none,
       none, none, none, none, none, none] := by
  refine ⟨?_, ?_, ?_, ?_, ?_, ?_⟩ <;> decide

/-- C10 (amended): of the plainly parsed fields only the catalog number has its
surrounding white space stripped before conversion.  The epoch-year field `line1[18:20]`
and the epoch-day field `line1[20:32]` are converted as they stand: on lines that pass the
length check, if either of them contains a space byte `ParseTLE` returns a conversion
error. -/
theorem ParseTLE_epoch_not_stripped {G : Type} (g : GoString → G)
    (line1 line2 gravconst : GoString) (h1 : 61 ≤ line1.length) (h2 : 63 ≤ line2.length) :
    (32 ∈ col line1 18 20 ∨ 32 ∈ col line1 20 32 →
      ∃ e, ParseTLE g line1 line2 gravconst = Outcome.error (GoError.num e)) ∧
    (∀ sat, ParseTLE g line1 line2 gravconst = Outcome.ok sat →
      parseInt (TrimSpace (col line1 2 7)) = (sat.satnum, none) ∧
      parseInt (col line1 18 20) = (sat.epochyr, none) ∧
      parseFloat (col line1 20 32) = (sat.epochdays, none)) := by
  refine ⟨?_, ?_⟩
  swap
  · intro sat hsat
    obtain ⟨hall, rfl⟩ := ParseTLE_ok_record g line1 line2 gravconst h1 h2 sat hsat
    have e1 : (conversions line1 line2).satnum.2 = none := hall _ (by simp [Conversions.errors])
    have e2 : (conversions line1 line2).epochyr.2 = none := hall _ (by simp [Conversions.errors])
    have e3 : (conversions line1 line2).epochdays.2 = none :=
      hall _ (by simp [Conversions.errors])
    simp only [conversions] at e1 e2 e3
    exact ⟨Prod.ext rfl e1, Prod.ext rfl e2, Prod.ext rfl e3⟩
  intro hsp
  rcases hsp with hsp | hsp
  · refine ParseTLE_error_of_conv g _ _ _ h1 h2 (conversions line1 line2).epochyr.2
      (by simp [Conversions.errors]) ?_
    exact ParseInt_space _ hsp
  · refine ParseTLE_error_of_conv g _ _ _ h1 h2 (conversions line1 line2).epochdays.2
      (by simp [Conversions.errors]) ?_
    simp only [conversions, parseFloat]
    rw [ParseFloat_space _ hsp]
    simp

/-- Instance of C10 (amended): the padded epoch year. -/
theorem ParseTLE_epoch_not_stripped_witness :
    (61 ≤ issLine1PaddedYear.length ∧ 63 ≤ issLine2.length ∧
      (32 ∈ col issLine1PaddedYear 18 20 ∨ 32 ∈ col issLine1PaddedYear 20 32)) ∧
    ∃ e, ParseTLE (fun _ => ()) issLine1PaddedYear issLine2 [] =
      Outcome.error (GoError.num e) :=
  ⟨⟨by decide, by decide, by decide⟩,
   (ParseTLE_epoch_not_stripped (fun _ => ()) issLine1PaddedYear issLine2 [] (by decide)
    (by decide)).1 (by decide)⟩

/-! ## The implied-decimal fields (C4) -/

theorem roundF64_neg (n d : Nat) :
    (roundF64 true n d).1 = F64.neg (roundF64 false n d).1 := by
  unfold roundF64
  by_cases h : n = 0
  · simp only [h, ↓reduceIte]
    rfl
  · simp only [h, ↓reduceIte]
    split_ifs <;> rfl

theorem roundScaled_neg (m b : Nat) (x : Int) :
    (roundScaled true m b x).1 = F64.neg (roundScaled false m b x).1 := by
  unfold roundScaled
  split_ifs <;> exact roundF64_neg _ _

theorem roundScaled_no_overflow (neg : Bool) (m : Nat) (x : Int) (hm : m < 10 ^ 5)
    (hx : x ≤ 94) : (roundScaled neg m 10 x).2 = false := by
  unfold roundScaled
  split_ifs with h
  · apply roundF64_no_overflow
    have h1 : 10 ^ x.toNat ≤ 10 ^ 94 := Nat.pow_le_pow_right (by decide) (by omega)
    calc m * 10 ^ x.toNat ≤ m * 10 ^ 94 := Nat.mul_le_mul_left _ h1
      _ < 10 ^ 5 * 10 ^ 94 := Nat.mul_lt_mul_of_pos_right hm (by positivity)
      _ ≤ 2 ^ 1000 := by norm_num
  · apply roundF64_no_overflow
    calc m < 10 ^ 5 := hm
      _ ≤ 2 ^ 1000 := by norm_num

theorem stripSpaces_digits (m : GoString) (hm : allDigits m) : stripSpaces m = m := by
  unfold stripSpaces
  rw [List.filter_eq_self]
  intro a ha
  have := hm a ha
  simp
  omega

theorem stripSpaces_cons (a : Nat) (t : GoString) :
    stripSpaces (a :: t) = if a = 32 then stripSpaces t else a :: stripSpaces t := by
  unfold stripSpaces
  by_cases h : a = 32 <;> simp [h]

theorem stripSpaces_append (a b : GoString) :
    stripSpaces (a ++ b) = stripSpaces a ++ stripSpaces b := by
  simp [stripSpaces]

theorem implied_pieces (line1 : GoString) (o : Nat) (h : o + 8 ≤ line1.length) (s : Nat)
    (m : GoString) (x0 x1 : Nat) (hcol : col line1 o (o + 8) = s :: (m ++ [x0, x1]))
    (hml : m.length = 5) :
    impliedText line1 o = s :: 46 :: (m ++ 101 :: [x0, x1]) := by
  have e : col line1 o (o + 8) =
      col line1 o (o + 1) ++ (col line1 (o + 1) (o + 6) ++ col line1 (o + 6) (o + 8)) := by
    rw [col_append line1 o (o + 1) (o + 8) (by omega) (by omega),
      col_append line1 (o + 1) (o + 6) (o + 8) (by omega) (by omega)]
  rw [hcol] at e
  have l1 : (col line1 o (o + 1)).length = 1 := by rw [col_length _ _ _ (by omega)]; omega
  have l2 : (col line1 (o + 1) (o + 6)).length = 5 := by
    rw [col_length _ _ _ (by omega)]; omega
  have e0 : [s] ++ (m ++ [x0, x1]) =
      col line1 o (o + 1) ++ (col line1 (o + 1) (o + 6) ++ col line1 (o + 6) (o + 8)) := e
  obtain ⟨a1, a2⟩ := List.append_inj e0 (by simp [l1])
  obtain ⟨b1, b2⟩ := List.append_inj a2 (by rw [hml, l2])
  unfold impliedText
  rw [← a1, ← b1, ← b2]
  have e1 : ascii "." = [46] := by decide
  have e2 : ascii "e" = [101] := by decide
  rw [e1, e2]
  simp


/-- The text `ParseTLE` hands to `ParseFloat` for an implied-decimal field, and its value. -/
theorem implied_decode (line1 : GoString) (o : Nat) (h : o + 8 ≤ line1.length) (s : Nat)
    (m : GoString) (x0 x1 : Nat) (hf : ImpliedField (col line1 o (o + 8)) s m x0 x1) :
    Replace (impliedText line1 o) 32 [] 2 = stripSpaces (s :: 46 :: (m ++ 101 :: [x0, x1])) ∧
    parseFloat (Replace (impliedText line1 o) 32 [] 2) = (impliedValue s m x0 x1, none) := by
  obtain ⟨hcol, hs, hm, hml, hx0, hx1⟩ := hf
  rw [implied_pieces line1 o h s m x0 x1 hcol hml]
  have hcm : m.count 32 = 0 := by
    rw [List.count_eq_zero]
    intro h32
    have := hm 32 h32
    omega
  have hv := decVal_lt m hm
  rw [hml] at hv
  have hmne : m ≠ [] := by
    intro e
    rw [e] at hml
    simp at hml
  have hsm := stripSpaces_digits m hm
  have h1 : x1 ≠ 32 := by omega
  have hd1 : allDigits [x1] := by
    intro c hc
    simp at hc
    subst hc
    exact hx1
  have key : ∀ (pre esg xs : GoString), (pre = [] ∨ pre = [43] ∨ pre = [45]) →
      (esg = [] ∨ esg = [43] ∨ esg = [45]) → allDigits xs → xs ≠ [] → xs.length ≤ 2 →
      (decVal xs : Int) * (if esg = [45] then -1 else 1) ≤ 99 →
      parseFloat (pre ++ 46 :: (m ++ 101 :: (esg ++ xs))) =
        ((roundScaled (decide (pre = [45])) (decVal m) 10
          ((decVal xs : Int) * (if esg = [45] then -1 else 1) - (m.length : Int))).1, none) := by
    intro pre esg xs hpre hesg hxs hxne hxl hle
    unfold parseFloat
    rw [ParseFloat_implied pre m esg xs hpre hm hmne hesg hxs hxne hxl,
      roundScaled_no_overflow _ _ _ hv (by omega)]
    simp
  constructor
  · apply Replace_count
    rcases hs with rfl | rfl | rfl <;> rcases hx0 with (rfl | rfl | rfl) | hx0 <;>
      simp [List.count_cons, List.count_append, hcm, h1] <;> (try split_ifs) <;> omega
  · have hrep : Replace (s :: 46 :: (m ++ 101 :: [x0, x1])) 32 [] 2 =
        stripSpaces (s :: 46 :: (m ++ 101 :: [x0, x1])) := by
      apply Replace_count
      rcases hs with rfl | rfl | rfl <;> rcases hx0 with (rfl | rfl | rfl) | hx0 <;>
        simp [List.count_cons, List.count_append, hcm, h1] <;> (try split_ifs) <;> omega
    rw [hrep]
    have hd2 : 48 ≤ x0 ∧ x0 ≤ 57 → allDigits [x0, x1] := by
      intro hx0 c hc
      simp at hc
      rcases hc with rfl | rfl
      · exact hx0
      · exact hx1
    have hnil : stripSpaces [] = [] := rfl
    rcases hs with rfl | rfl | rfl <;> rcases hx0 with (rfl | rfl | rfl) | hx0
    · have := key [] [] [x1] (by simp) (by simp) hd1 (by simp) (by simp)
        (by simp [decVal]; omega)
      simpa [stripSpaces_cons, stripSpaces_append, hsm, hnil, h1, impliedValue, expOf, decVal]
        using this
    · have := key [] [43] [x1] (by simp) (by simp) hd1 (by simp) (by simp)
        (by simp [decVal]; omega)
      simpa [stripSpaces_cons, stripSpaces_append, hsm, hnil, h1, impliedValue, expOf, decVal]
        using this
    · have := key [] [45] [x1] (by simp) (by simp) hd1 (by simp) (by simp)
        (by simp [decVal]; omega)
      simpa [stripSpaces_cons, stripSpaces_append, hsm, hnil, h1, impliedValue, expOf, decVal]
        using this
    · have := key [] [] [x0, x1] (by simp) (by simp) (hd2 hx0) (by simp) (by simp)
        (by simp [decVal]; omega)
      have n0 : x0 ≠ 32 := by omega
      have n1 : x0 ≠ 45 := by omega
      have n2 : x0 ≠ 43 := by omega
      simpa [stripSpaces_cons, stripSpaces_append, hsm, hnil, h1, impliedValue, expOf, decVal,
        n0, n1, n2] using this
    · have := key [43] [] [x1] (by simp) (by simp) hd1 (by simp) (by simp)
        (by simp [decVal]; omega)
      simpa [stripSpaces_cons, stripSpaces_append, hsm, hnil, h1, impliedValue, expOf, decVal]
        using this
    · have := key [43] [43] [x1] (by simp) (by simp) hd1 (by simp) (by simp)
        (by simp [decVal]; omega)
      simpa [stripSpaces_cons, stripSpaces_append, hsm, hnil, h1, impliedValue, expOf, decVal]
        using this
    · have := key [43] [45] [x1] (by simp) (by simp) hd1 (by simp) (by simp)
        (by simp [decVal]; omega)
      simpa [stripSpaces_cons, stripSpaces_append, hsm, hnil, h1, impliedValue, expOf, decVal]
        using this
    · have := key [43] [] [x0, x1] (by simp) (by simp) (hd2 hx0) (by simp) (by simp)
        (by simp [decVal]; omega)
      have n0 : x0 ≠ 32 := by omega
      have n1 : x0 ≠ 45 := by omega
      have n2 : x0 ≠ 43 := by omega
      simpa [stripSpaces_cons, stripSpaces_append, hsm, hnil, h1, impliedValue, expOf, decVal,
        n0, n1, n2] using this
    · have := key [45] [] [x1] (by simp) (by simp) hd1 (by simp) (by simp)
        (by simp [decVal]; omega)
      simpa [stripSpaces_cons, stripSpaces_append, hsm, hnil, h1, impliedValue, expOf, decVal]
        using this
    · have := key [45] [43] [x1] (by simp) (by simp) hd1 (by simp) (by simp)
        (by simp [decVal]; omega)
      simpa [stripSpaces_cons, stripSpaces_append, hsm, hnil, h1, impliedValue, expOf, decVal]
        using this
    · have := key [45] [45] [x1] (by simp) (by simp) hd1 (by simp) (by simp)
        (by simp [decVal]; omega)
      simpa [stripSpaces_cons, stripSpaces_append, hsm, hnil, h1, impliedValue, expOf, decVal]
        using this
    · have := key [45] [] [x0, x1] (by simp) (by simp) (hd2 hx0) (by simp) (by simp)
        (by simp [decVal]; omega)
      have n0 : x0 ≠ 32 := by omega
      have n1 : x0 ≠ 45 := by omega
      have n2 : x0 ≠ 43 := by omega
      simpa [stripSpaces_cons, stripSpaces_append, hsm, hnil, h1, impliedValue, expOf, decVal,
        n0, n1, n2] using this


/-! ### How close the rounded value is -/

theorem log2Aux_lower (fuel n : Nat) (hn : 0 < n) : 2 ^ log2Aux fuel n ≤ n := by
  induction fuel generalizing n with
  | zero => simpa [log2Aux] using hn
  | succ f ih =>
    simp only [log2Aux]
    split_ifs with h2
    · have := ih (n / 2) (by omega)
      rw [pow_succ]
      omega
    · simpa using hn

theorem log2Aux_upper (fuel n : Nat) (hf : n ≤ fuel) : n < 2 ^ (log2Aux fuel n + 1) := by
  induction fuel generalizing n with
  | zero =>
    have : n = 0 := by omega
    subst this
    simp [log2Aux]
  | succ f ih =>
    simp only [log2Aux]
    split_ifs with h2
    · have := ih (n / 2) (by omega)
      rw [pow_succ]
      omega
    · simp
      omega

theorem geTwoPow_iff (n d : Nat) (hd : 0 < d) (a : Int) :
    geTwoPow n d a = true ↔ (2 : ℚ) ^ a ≤ (n : ℚ) / d := by
  have hdq : (0 : ℚ) < d := by exact_mod_cast hd
  unfold geTwoPow
  by_cases ha : 0 ≤ a
  · obtain ⟨k, rfl⟩ : ∃ k : Nat, a = (k : Int) := ⟨a.toNat, by omega⟩
    simp only [ha, ↓reduceIte, Int.toNat_ofNat, decide_eq_true_eq, zpow_natCast]
    rw [le_div_iff₀ hdq]
    constructor
    · intro h
      have : ((d * 2 ^ k : Nat) : ℚ) ≤ n := by exact_mod_cast h
      push_cast at this
      linarith
    · intro h
      have : ((d * 2 ^ k : Nat) : ℚ) ≤ n := by
        push_cast
        linarith
      exact_mod_cast this
  · obtain ⟨k, rfl⟩ : ∃ k : Nat, a = -(k : Int) := ⟨(-a).toNat, by omega⟩
    simp only [ha, ↓reduceIte, neg_neg, Int.toNat_ofNat, decide_eq_true_eq, zpow_neg,
      zpow_natCast]
    have hk : (0 : ℚ) < 2 ^ k := by positivity
    rw [le_div_iff₀ hdq, inv_mul_le_iff₀ hk]
    constructor
    · intro h
      have : ((d : Nat) : ℚ) ≤ ((n * 2 ^ k : Nat) : ℚ) := by exact_mod_cast h
      push_cast at this
      linarith
    · intro h
      have : ((d : Nat) : ℚ) ≤ ((n * 2 ^ k : Nat) : ℚ) := by
        push_cast
        linarith
      exact_mod_cast this

/-- The specification of `floorLog2`: `2^L ≤ n / d < 2^(L+1)`. -/
theorem floorLog2_spec (n d : Nat) (hn : 0 < n) (hd : 0 < d) :
    (2 : ℚ) ^ floorLog2 n d ≤ (n : ℚ) / d ∧ (n : ℚ) / d < (2 : ℚ) ^ (floorLog2 n d + 1) := by
  have hdq : (0 : ℚ) < d := by exact_mod_cast hd
  have hnq : (0 : ℚ) < n := by exact_mod_cast hn
  have n1 : ((2 : ℚ) ^ log2 n) ≤ n := by exact_mod_cast log2Aux_lower n n hn
  have n2 : (n : ℚ) < (2 : ℚ) ^ (log2 n + 1) := by exact_mod_cast log2Aux_upper n n (le_refl _)
  have d1 : ((2 : ℚ) ^ log2 d) ≤ d := by exact_mod_cast log2Aux_lower d d hd
  have d2 : (d : ℚ) < (2 : ℚ) ^ (log2 d + 1) := by exact_mod_cast log2Aux_upper d d (le_refl _)
  have two : (0 : ℚ) < 2 := by norm_num
  -- the quotient lies strictly between 2^(a-1) and 2^(a+1)
  have lo : (2 : ℚ) ^ ((log2 n : Int) - (log2 d : Int) - 1) < (n : ℚ) / d := by
    rw [lt_div_iff₀ hdq]
    have e : (2 : ℚ) ^ ((log2 n : Int) - (log2 d : Int) - 1) * (2 : ℚ) ^ (log2 d + 1) =
        (2 : ℚ) ^ log2 n := by
      rw [← zpow_natCast, ← zpow_natCast, ← zpow_add₀ (ne_of_gt two)]
      congr 1
      push_cast
      ring
    have hpos : (0 : ℚ) < (2 : ℚ) ^ ((log2 n : Int) - (log2 d : Int) - 1) := by positivity
    calc (2 : ℚ) ^ ((log2 n : Int) - (log2 d : Int) - 1) * d
        < (2 : ℚ) ^ ((log2 n : Int) - (log2 d : Int) - 1) * (2 : ℚ) ^ (log2 d + 1) :=
          mul_lt_mul_of_pos_left d2 hpos
      _ = (2 : ℚ) ^ log2 n := e
      _ ≤ n := n1
  have hi : (n : ℚ) / d < (2 : ℚ) ^ ((log2 n : Int) - (log2 d : Int) + 1) := by
    rw [div_lt_iff₀ hdq]
    have e : (2 : ℚ) ^ ((log2 n : Int) - (log2 d : Int) + 1) * (2 : ℚ) ^ log2 d =
        (2 : ℚ) ^ (log2 n + 1) := by
      rw [← zpow_natCast, ← zpow_natCast, ← zpow_add₀ (ne_of_gt two)]
      congr 1
      push_cast
      ring
    have hpos : (0 : ℚ) < (2 : ℚ) ^ ((log2 n : Int) - (log2 d : Int) + 1) := by positivity
    calc (n : ℚ) < (2 : ℚ) ^ (log2 n + 1) := n2
      _ = (2 : ℚ) ^ ((log2 n : Int) - (log2 d : Int) + 1) * (2 : ℚ) ^ log2 d := e.symm
      _ ≤ (2 : ℚ) ^ ((log2 n : Int) - (log2 d : Int) + 1) * d :=
          mul_le_mul_of_nonneg_left d1 (le_of_lt hpos)
  unfold floorLog2
  dsimp only
  by_cases hg : geTwoPow n d ((log2 n : Int) - (log2 d : Int)) = true
  · rw [if_pos hg]
    exact ⟨(geTwoPow_iff n d hd _).mp hg, hi⟩
  · rw [if_neg hg]
    refine ⟨le_of_lt lo, ?_⟩
    have := (geTwoPow_iff n d hd ((log2 n : Int) - (log2 d : Int))).not.mp hg
    simpa using this


theorem roundHalfEven_near_q (N D : Nat) (hD : 0 < D) :
    |(roundHalfEven N D : ℚ) - (N : ℚ) / D| ≤ 1 / 2 := by
  have hb := roundHalfEven_near N D hD
  have hDq : (0 : ℚ) < D := by exact_mod_cast hD
  have h1 : 2 * ((roundHalfEven N D : ℚ) * D) ≤ 2 * (N : ℚ) + D := by exact_mod_cast hb.1
  have h2 : 2 * (N : ℚ) ≤ 2 * ((roundHalfEven N D : ℚ) * D) + D := by exact_mod_cast hb.2
  have hx : (N : ℚ) / D * D = N := div_mul_cancel₀ _ (ne_of_gt hDq)
  generalize (N : ℚ) / D = x at hx
  rw [abs_le]
  constructor
  · by_contra hc
    push_neg at hc
    nlinarith [mul_lt_mul_of_pos_right hc hDq]
  · by_contra hc
    push_neg at hc
    nlinarith [mul_lt_mul_of_pos_right hc hDq]

/-- The mantissa before renormalisation is the integer nearest to `(n / d) / 2^e`. -/
theorem scaled_round_near (n d : Nat) (hd : 0 < d) (e : Int) :
    |((if 0 ≤ e then roundHalfEven n (d * 2 ^ e.toNat)
        else roundHalfEven (n * 2 ^ (-e).toNat) d : Nat) : ℚ) - (n : ℚ) / d * (2 : ℚ) ^ (-e)| ≤
      1 / 2 := by
  have hdq : (0 : ℚ) < d := by exact_mod_cast hd
  by_cases he : 0 ≤ e
  · obtain ⟨k, rfl⟩ : ∃ k : Nat, e = (k : Int) := ⟨e.toNat, by omega⟩
    simp only [he, ↓reduceIte, Int.toNat_ofNat]
    have h := roundHalfEven_near_q n (d * 2 ^ k) (by positivity)
    have e1 : (n : ℚ) / ((d * 2 ^ k : Nat) : ℚ) = (n : ℚ) / d * (2 : ℚ) ^ (-(k : Int)) := by
      rw [zpow_neg, zpow_natCast]
      push_cast
      field_simp
    rw [e1] at h
    exact h
  · obtain ⟨k, rfl⟩ : ∃ k : Nat, e = -(k : Int) := ⟨(-e).toNat, by omega⟩
    simp only [he, ↓reduceIte, neg_neg, Int.toNat_ofNat]
    have h := roundHalfEven_near_q (n * 2 ^ k) d hd
    have e1 : ((n * 2 ^ k : Nat) : ℚ) / d = (n : ℚ) / d * (2 : ℚ) ^ (k : Int) := by
      rw [zpow_natCast]
      push_cast
      field_simp
    rw [e1] at h
    exact h


/-- The specification of `roundF64` on a positive quotient that does not overflow: the
result is a finite binary64 number (mantissa below `2^53`, exponent in range) within half
a unit in the last place of `n / d`; in the normal range the mantissa has its leading bit
set and the relative error is at most `2^-53`. -/
theorem roundF64_spec (neg : Bool) (n d : Nat) (hn : 0 < n) (hd : 0 < d)
    (hfin : (roundF64 neg n d).2 = false) :
    ∃ (m : Nat) (e : Int), (roundF64 neg n d).1 = F64.finite neg m e ∧ m < 2 ^ 53 ∧
      -1074 ≤ e ∧ e ≤ 971 ∧
      |(m : ℚ) * (2 : ℚ) ^ e - (n : ℚ) / d| ≤ (2 : ℚ) ^ e / 2 ∧
      (-1022 ≤ floorLog2 n d →
        2 ^ 52 ≤ m ∧ |(m : ℚ) * (2 : ℚ) ^ e - (n : ℚ) / d| ≤ (n : ℚ) / d / 2 ^ 53) := by
  obtain ⟨hlo, hhi⟩ := floorLog2_spec n d hn hd
  have hnear := scaled_round_near n d hd (max (floorLog2 n d - 52) (-1074))
  unfold roundF64 at hfin ⊢
  rw [if_neg (by omega)] at hfin ⊢
  dsimp only at hfin ⊢
  have he1 : floorLog2 n d - 52 ≤ max (floorLog2 n d - 52) (-1074) := le_max_left _ _
  have he2 : -1074 ≤ max (floorLog2 n d - 52) (-1074) := le_max_right _ _
  have he3 : -1022 ≤ floorLog2 n d → max (floorLog2 n d - 52) (-1074) = floorLog2 n d - 52 := by
    intro h
    exact max_eq_left (by omega)
  generalize floorLog2 n d = L at *
  generalize max (L - 52) (-1074) = e0 at *
  generalize (if 0 ≤ e0 then roundHalfEven n (d * 2 ^ e0.toNat)
    else roundHalfEven (n * 2 ^ (-e0).toNat) d) = m0 at *
  have two : (0 : ℚ) < 2 := by norm_num
  have hP : (0 : ℚ) < (2 : ℚ) ^ e0 := by positivity
  have hinv : (2 : ℚ) ^ (-e0) = ((2 : ℚ) ^ e0)⁻¹ := zpow_neg _ _
  rw [hinv, ← div_eq_mul_inv] at hnear
  generalize hv : (n : ℚ) / d = v at *
  -- bounds on the scaled quotient
  have hx_lt : v / (2 : ℚ) ^ e0 < 2 ^ 53 := by
    rw [div_lt_iff₀ hP]
    have h1 : (2 : ℚ) ^ (L + 1) ≤ (2 : ℚ) ^ (53 + e0) :=
      zpow_le_zpow_right₀ (by norm_num) (by omega)
    have h2 : (2 : ℚ) ^ (53 + e0) = 2 ^ 53 * (2 : ℚ) ^ e0 := by
      rw [zpow_add₀ (ne_of_gt two)]
      norm_num
    linarith
  rw [abs_le] at hnear
  have hm0 : m0 ≤ 2 ^ 53 := by
    have : (m0 : ℚ) < 2 ^ 53 + 1 := by linarith [hnear.2]
    have : (m0 : ℚ) < ((2 ^ 53 + 1 : Nat) : ℚ) := by
      push_cast
      linarith
    have : m0 < 2 ^ 53 + 1 := by exact_mod_cast this
    omega
  -- the error of the unnormalised value
  have herr : |(m0 : ℚ) * (2 : ℚ) ^ e0 - v| ≤ (2 : ℚ) ^ e0 / 2 := by
    have e : (m0 : ℚ) * (2 : ℚ) ^ e0 - v = ((m0 : ℚ) - v / (2 : ℚ) ^ e0) * (2 : ℚ) ^ e0 := by
      field_simp
    rw [e, abs_mul, abs_of_pos hP]
    have : |(m0 : ℚ) - v / (2 : ℚ) ^ e0| ≤ 1 / 2 := abs_le.mpr hnear
    calc |(m0 : ℚ) - v / (2 : ℚ) ^ e0| * (2 : ℚ) ^ e0 ≤ 1 / 2 * (2 : ℚ) ^ e0 :=
          mul_le_mul_of_nonneg_right this (le_of_lt hP)
      _ = (2 : ℚ) ^ e0 / 2 := by ring
  -- the normal range
  have hnormal : -1022 ≤ L → 2 ^ 52 ≤ m0 ∧ (2 : ℚ) ^ e0 / 2 ≤ v / 2 ^ 53 := by
    intro hL
    have heq := he3 hL
    have h52 : (2 : ℚ) ^ L = 2 ^ 52 * (2 : ℚ) ^ e0 := by
      have : L = 52 + e0 := by omega
      rw [this, zpow_add₀ (ne_of_gt two)]
      norm_num
    constructor
    · have hx_ge : (2 : ℚ) ^ 52 ≤ v / (2 : ℚ) ^ e0 := by
        rw [le_div_iff₀ hP]
        linarith
      have : ((2 ^ 52 - 1 : Nat) : ℚ) < (m0 : ℚ) := by
        have e : ((2 ^ 52 - 1 : Nat) : ℚ) = 2 ^ 52 - 1 := by norm_num
        rw [e]
        linarith [hnear.1]
      have : 2 ^ 52 - 1 < m0 := by exact_mod_cast this
      omega
    · rw [div_le_div_iff (by norm_num) (by norm_num)]
      nlinarith
  by_cases h53 : m0 = 2 ^ 53
  · simp only [h53, ↓reduceIte] at hfin ⊢
    have hle : e0 + 1 ≤ 971 := by
      by_contra hc
      rw [if_pos (by omega)] at hfin
      simp at hfin
    rw [if_neg (by omega)]
    have hsame : ((2 ^ 52 : Nat) : ℚ) * (2 : ℚ) ^ (e0 + 1) = (m0 : ℚ) * (2 : ℚ) ^ e0 := by
      rw [h53, zpow_add₀ (ne_of_gt two)]
      push_cast
      ring
    have hbig : (2 : ℚ) ^ e0 / 2 ≤ (2 : ℚ) ^ (e0 + 1) / 2 := by
      rw [zpow_add₀ (ne_of_gt two)]
      linarith
    refine ⟨2 ^ 52, e0 + 1, rfl, by norm_num, by omega, hle, ?_, ?_⟩
    · rw [hsame]
      exact le_trans herr hbig
    · intro hL
      refine ⟨le_refl _, ?_⟩
      rw [hsame]
      exact le_trans herr (hnormal hL).2
  · simp only [h53, ↓reduceIte] at hfin ⊢
    have hle : e0 ≤ 971 := by
      by_contra hc
      rw [if_pos (by omega)] at hfin
      simp at hfin
    rw [if_neg (by omega)]
    refine ⟨m0, e0, rfl, by omega, he2, hle, herr, ?_⟩
    intro hL
    exact ⟨(hnormal hL).1, le_trans herr (hnormal hL).2⟩


/-- The value of `roundScaled` on a nonzero mantissa of at most five digits and a decimal
exponent between -14 and 94: a finite number within relative error `2^-53` of
`(-1)^neg * m * 10^x`. -/
theorem roundScaled_near (neg : Bool) (m : Nat) (x : Int) (hm0 : 0 < m) (hm : m < 10 ^ 5)
    (hx1 : -14 ≤ x) (hx2 : x ≤ 94) :
    ∃ q : ℚ, (roundScaled neg m 10 x).1.toRat = some q ∧
      |q - (if neg then -1 else 1) * ((m : ℚ) * (10 : ℚ) ^ x)| ≤ (m : ℚ) * (10 : ℚ) ^ x / 2 ^ 53 := by
  have hfin := roundScaled_no_overflow neg m x hm hx2
  have hmq : (1 : ℚ) ≤ m := by exact_mod_cast hm0
  have hv14 : (2 : ℚ) ^ (-47 : Int) ≤ (m : ℚ) * (10 : ℚ) ^ x := by
    have h1 : (10 : ℚ) ^ (-14 : Int) ≤ (10 : ℚ) ^ x := zpow_le_zpow_right₀ (by norm_num) hx1
    have h2 : (2 : ℚ) ^ (-47 : Int) ≤ (10 : ℚ) ^ (-14 : Int) := by
      rw [zpow_neg, zpow_neg]
      norm_num
    have h3 : (0 : ℚ) < (10 : ℚ) ^ x := by positivity
    nlinarith
  -- both branches of `roundScaled` round a quotient equal to `m * 10^x`
  have key : ∀ n d : Nat, 0 < n → 0 < d → (n : ℚ) / d = (m : ℚ) * (10 : ℚ) ^ x →
      (roundF64 neg n d).2 = false →
      ∃ q : ℚ, (roundF64 neg n d).1.toRat = some q ∧
        |q - (if neg then -1 else 1) * ((m : ℚ) * (10 : ℚ) ^ x)| ≤
          (m : ℚ) * (10 : ℚ) ^ x / 2 ^ 53 := by
    intro n d hn hd hq hf
    obtain ⟨mm, e, hr, _, _, _, _, hnorm⟩ := roundF64_spec neg n d hn hd hf
    have hL : -1022 ≤ floorLog2 n d := by
      by_contra hc
      have hhi := (floorLog2_spec n d hn hd).2
      have : (2 : ℚ) ^ (floorLog2 n d + 1) ≤ (2 : ℚ) ^ (-47 : Int) :=
        zpow_le_zpow_right₀ (by norm_num) (by omega)
      rw [hq] at hhi
      linarith
    obtain ⟨_, hrel⟩ := hnorm hL
    rw [hq] at hrel
    refine ⟨(if neg then -1 else 1) * (mm : ℚ) * (2 : ℚ) ^ e, by rw [hr]; rfl, ?_⟩
    cases neg
    · simpa using hrel
    · simp only [↓reduceIte]
      have e1 : -1 * (mm : ℚ) * (2 : ℚ) ^ e - -1 * ((m : ℚ) * (10 : ℚ) ^ x) =
          -((mm : ℚ) * (2 : ℚ) ^ e - (m : ℚ) * (10 : ℚ) ^ x) := by ring
      rw [e1, abs_neg]
      exact hrel
  unfold roundScaled at hfin ⊢
  by_cases hx : 0 ≤ x
  · rw [if_pos hx] at hfin ⊢
    obtain ⟨k, rfl⟩ : ∃ k : Nat, x = (k : Int) := ⟨x.toNat, by omega⟩
    simp only [Int.toNat_ofNat] at hfin ⊢
    apply key _ _ (by positivity) (by norm_num) _ hfin
    push_cast
    rw [zpow_natCast]
    simp
  · rw [if_neg hx] at hfin ⊢
    obtain ⟨k, rfl⟩ : ∃ k : Nat, x = -(k : Int) := ⟨(-x).toNat, by omega⟩
    simp only [neg_neg, Int.toNat_ofNat] at hfin ⊢
    apply key _ _ hm0 (by positivity) _ hfin
    push_cast
    rw [zpow_neg, zpow_natCast, div_eq_mul_inv]

theorem roundScaled_zero (neg : Bool) (b : Nat) (x : Int) :
    (roundScaled neg 0 b x).1 = F64.finite neg 0 (-1074) := by
  unfold roundScaled
  split_ifs
  · rw [Nat.zero_mul]
    simp [roundF64]
  · simp [roundF64]

theorem expOf_range (x0 x1 : Nat)
    (hx0 : (x0 = 32 ∨ x0 = 43 ∨ x0 = 45) ∨ (48 ≤ x0 ∧ x0 ≤ 57)) (hx1 : 48 ≤ x1 ∧ x1 ≤ 57) :
    -9 ≤ expOf x0 x1 ∧ expOf x0 x1 ≤ 99 := by
  unfold expOf
  split_ifs <;> omega

/-- The value of an implied-decimal field is within relative error `2^-53` of
`(sign s) 0.m * 10^x`. -/
theorem impliedValue_near (s : Nat) (m : GoString) (x0 x1 : Nat) (hm : allDigits m)
    (hml : m.length = 5)
    (hx0 : (x0 = 32 ∨ x0 = 43 ∨ x0 = 45) ∨ (48 ≤ x0 ∧ x0 ≤ 57)) (hx1 : 48 ≤ x1 ∧ x1 ≤ 57) :
    ∃ q : ℚ, (impliedValue s m x0 x1).toRat = some q ∧
      |q - (if s = 45 then -1 else 1) * ((decVal m : ℚ) / 10 ^ 5 * (10 : ℚ) ^ expOf x0 x1)| ≤
        (decVal m : ℚ) / 10 ^ 5 * (10 : ℚ) ^ expOf x0 x1 / 2 ^ 53 := by
  have hv := decVal_lt m hm
  rw [hml] at hv
  obtain ⟨hr1, hr2⟩ := expOf_range x0 x1 hx0 hx1
  have hval : (decVal m : ℚ) / 10 ^ 5 * (10 : ℚ) ^ expOf x0 x1 =
      (decVal m : ℚ) * (10 : ℚ) ^ (expOf x0 x1 - 5) := by
    rw [zpow_sub₀ (by norm_num)]
    norm_num
    ring
  rw [hval]
  unfold impliedValue
  rw [hml]
  by_cases h0 : decVal m = 0
  · rw [h0]
    refine ⟨0, ?_, by simp⟩
    rw [roundScaled_zero]
    simp [F64.toRat]
  · obtain ⟨q, hq, hb⟩ := roundScaled_near (decide (s = 45)) (decVal m) (expOf x0 x1 - 5)
      (by omega) hv (by omega) (by omega)
    refine ⟨q, hq, ?_⟩
    simpa using hb

/-- C4: both implied-decimal fields (second derivative at `line1[44:52]`, drag term at
`line1[53:61]`) are decoded by one rule.  For a field made of a sign byte `s` (`' '`, `'+'`
or `'-'`), five mantissa digits `m` and two exponent bytes `x` (a sign and a digit, or two
digits), the text handed to `ParseFloat` is `s "." m "e" x` with its spaces removed, the
conversion succeeds, and the value is the binary64 number nearest to
`(sign s) 0.m * 10^x` (within relative error `2^-53` of it); a blank sign gives the same
value as `'+'`, and `'-'` its negation. -/
theorem ParseTLE_implied_decimal {G : Type} (g : GoString → G)
    (line1 line2 gravconst : GoString) (h1 : 61 ≤ line1.length) (h2 : 63 ≤ line2.length)
    (o : Nat) (ho : o = 44 ∨ o = 53) (s : Nat) (m : GoString) (x0 x1 : Nat)
    (hf : ImpliedField (col line1 o (o + 8)) s m x0 x1) :
    Replace (impliedText line1 o) 32 [] 2 = stripSpaces (s :: 46 :: (m ++ 101 :: [x0, x1])) ∧
    parseFloat (Replace (impliedText line1 o) 32 [] 2) = (impliedValue s m x0 x1, none) ∧
    (∀ sat, ParseTLE g line1 line2 gravconst = Outcome.ok sat →
      (o = 44 → sat.nddot = impliedValue s m x0 x1) ∧
      (o = 53 → sat.bstar = impliedValue s m x0 x1)) ∧
    (∃ q : ℚ, (impliedValue s m x0 x1).toRat = some q ∧
      |q - (if s = 45 then -1 else 1) *
          ((decVal m : ℚ) / 10 ^ 5 * (10 : ℚ) ^ expOf x0 x1)| ≤
        (decVal m : ℚ) / 10 ^ 5 * (10 : ℚ) ^ expOf x0 x1 / 2 ^ 53) ∧
    impliedValue 32 m x0 x1 = impliedValue 43 m x0 x1 ∧
    impliedValue 45 m x0 x1 = F64.neg (impliedValue 43 m x0 x1) := by
  have hlen : o + 8 ≤ line1.length := by
    rcases ho with rfl | rfl <;> omega
  obtain ⟨ht, hp⟩ := implied_decode line1 o hlen s m x0 x1 hf
  refine ⟨ht, hp, ?_, impliedValue_near s m x0 x1 hf.2.2.1 hf.2.2.2.1 hf.2.2.2.2.1
    hf.2.2.2.2.2, rfl, ?_⟩
  · intro sat hsat
    obtain ⟨_, rfl⟩ := ParseTLE_ok_record g line1 line2 gravconst h1 h2 sat hsat
    constructor
    · intro h44
      subst h44
      simp only [Conversions.record, conversions]
      rw [hp]
    · intro h53
      subst h53
      simp only [Conversions.record, conversions]
      rw [hp]
  · exact roundScaled_neg _ _ _

/-- Instance of C4: the drag term `-11606-4` of the ISS element set decodes to the binary64
number nearest to `-0.11606e-4`. -/
theorem ParseTLE_implied_decimal_witness :
    (61 ≤ issLine1.length ∧ 63 ≤ issLine2.length ∧
      ImpliedField (col issLine1 53 (53 + 8)) 45 (ascii "11606") 45 52) ∧
    impliedValue 45 (ascii "11606") 45 52 = F64.finite true 0x1856ec7e768622 (-69) ∧
    parseFloat (Replace (impliedText issLine1 53) 32 [] 2) =
      (impliedValue 45 (ascii "11606") 45 52, none) :=
  ⟨by decide, by decide,
   (ParseTLE_implied_decimal (fun _ => ()) issLine1 issLine2 [] (by decide) (by decide) 53
    (Or.inr rfl) 45 (ascii "11606") 45 52 (by decide)).2.1⟩

/-! ## `TLEToSat` on known inputs -/

set_option maxRecDepth 100000

/-- The arithmetic of `float64` on known inputs: the quotients, products and differences are
those of IEEE-754 binary64 hardware (15.72125391 / XPDOTP, XPDOTP * 1440, 0.1 - 0.3, 1 / 3,
division by zero, ...), and the constants are the known bit patterns. -/
theorem F64_arith_examples :
    XPDOTP = F64.finite false 8063664102031864 (-45) ∧
    DEG2RAD = F64.finite false 5030569068109113 (-58) ∧
    TWOPI = F64.finite false 7074237752028440 (-50) ∧
    RAD2DEG = F64.finite false 8063664102031864 (-47) ∧
    F64.lit 1440 1 = F64.finite false 6333186975989760 (-42) ∧
    F64.lit 4866563 2 = F64.finite false 5225432232230912 (-31) ∧
    F64.div (F64.finite false 8850279156359119 (-49))
        (F64.finite false 8063664102031864 (-45)) =
      F64.finite false 4942928351970965 (-56) ∧
    F64.mul (F64.finite false 8063664102031864 (-45))
        (F64.finite false 6333186975989760 (-42)) =
      F64.finite false 5669763821741154 (-34) ∧
    F64.mul (F64.finite false 5669763821741154 (-34))
        (F64.finite false 6333186975989760 (-42)) =
      F64.finite false 7973105374323498 (-24) ∧
    F64.div (F64.finite true 6440127291013479 (-68))
        (F64.finite false 5669763821741154 (-34)) =
      F64.finite true 5115513763873143 (-86) ∧
    F64.mul (F64.finite false 7267909078650506 (-47))
        (F64.finite false 5030569068109113 (-58)) =
      F64.finite false 8118332362114486 (-53) ∧
    F64.sub (F64.finite false 5271492535255040 (-31))
        (F64.finite false 5225432232230912 (-31)) =
      F64.finite false 5895718787088384 (-38) ∧
    F64.sub (F64.finite false 7205759403792794 (-56))
        (F64.finite false 5404319552844595 (-54)) =
      F64.finite true 7205759403792793 (-55) ∧
    F64.sub (F64.finite false 6755399441055744 (-51))
        (F64.finite false 6755399441055744 (-51)) =
      F64.finite false 0 (-1074) ∧
    F64.sub (F64.finite true 0 (-1074)) (F64.finite false 0 (-1074)) = F64.finite true 0 (-1074) ∧
    F64.div (F64.finite false 4503599627370496 (-52))
        (F64.finite false 6755399441055744 (-51)) =
      F64.finite false 6004799503160661 (-54) ∧
    F64.div (F64.finite false 4503599627370496 (-52)) (F64.finite false 0 (-1074)) =
      F64.inf false ∧
    F64.div (F64.finite false 0 (-1074)) (F64.finite false 0 (-1074)) = F64.nan ∧
    F64.mul (F64.finite true 8162774324609024 (-50))
        (F64.finite false 6755399441055744 (-51)) =
      F64.finite true 6122080743456768 (-48) ∧
    F64.mul (F64.inf false) (F64.finite false 0 (-1074)) = F64.nan ∧
    F64.sub (F64.inf false) (F64.inf false) = F64.nan ∧
    F64.div (F64.finite true 4503599627370496 (-52)) (F64.inf false) = F64.finite true 0 (-1074) ∧
    F64.toInt (F64.finite false 5644163254599838 (-47)) = 40 ∧
    F64.toInt (F64.finite true 8162774324609024 (-50)) = -7 ∧
    wrapInt 64 (2 ^ 63) = -2 ^ 63 ∧ wrapInt 64 2008 = 2008 ∧ wrapInt 64 (-9) = -9 := by
  refine ⟨?_, ?_, ?_, ?_, ?_, ?_, ?_, ?_, ?_, ?_, ?_, ?_, ?_, ?_, ?_, ?_, ?_, ?_, ?_, ?_, ?_, ?_,
    ?_, ?_, ?_, ?_, ?_⟩ <;> decide

/-! ## The epoch year (C11, C12, C20) -/

theorem parseUintLoop_ok_cons (c : Nat) (cs : GoString) (n r : Nat)
    (h : parseUintLoop (c :: cs) n = (r, none)) :
    48 ≤ c ∧ c ≤ 57 ∧ parseUintLoop cs ((n * 10 + (c - 48)) % 2 ^ 64) = (r, none) := by
  unfold parseUintLoop at h
  by_cases hd : isDigit c = true
  · have hd2 : 48 ≤ c ∧ c ≤ 57 := by simpa [isDigit] using hd
    simp only [hd, true_or, if_true] at h
    split_ifs at h
    all_goals first
      | (simp at h; done)
      | exact ⟨hd2.1, hd2.2, h⟩
  · simp only [hd, false_or, Bool.false_eq_true, if_false] at h
    split_ifs at h
    all_goals first
      | (simp at h; done)
      | omega

theorem parseUintLoop_range (cs : GoString) (n r : Nat)
    (h : parseUintLoop cs n = (r, some ErrKind.ErrRange)) : r = 2 ^ 64 - 1 := by
  induction cs generalizing n with
  | nil => simp [parseUintLoop] at h
  | cons c cs ih =>
    unfold parseUintLoop at h
    simp only [IntSize] at h
    split_ifs at h
    all_goals first
      | (simp at h; done)
      | exact ih _ h
      | (simp only [Prod.mk.injEq] at h; exact h.1.symm)

theorem ParseInt_ok (s : GoString) (v : Int) (h : ParseInt s = (v, none)) :
    ∃ c cs un, s = c :: cs ∧
      parseUintLoop (if c = 43 ∨ c = 45 then cs else c :: cs) 0 = (un, none) ∧
      v = if c = 45 then -(un : Int) else (un : Int) := by
  cases s with
  | nil => simp [ParseInt] at h
  | cons c cs =>
    refine ⟨c, cs, ?_⟩
    simp only [ParseInt] at h
    generalize hb : (if c = 43 ∨ c = 45 then cs else c :: cs) = body at h ⊢
    cases hp : ParseUint body with
    | mk un err =>
      rw [hp] at h
      have hpu : body ≠ [] → parseUintLoop body 0 = (un, err) := by
        intro hne
        simpa [ParseUint, hne] using hp
      cases err with
      | none =>
        have hne : body ≠ [] := by
          intro e
          simp [ParseUint, e] at hp
        refine ⟨un, rfl, hpu hne, ?_⟩
        simp only at h
        split_ifs at h with h1 h2 hc
        · simp at h
        · simp at h
        · have hc2 : c = 45 := by simpa using hc
          rw [if_pos hc2]
          simp only [Prod.mk.injEq, and_true] at h
          exact h.symm
        · have hc2 : ¬ c = 45 := by simpa using hc
          rw [if_neg hc2]
          simp only [Prod.mk.injEq, and_true] at h
          exact h.symm
      | some k =>
        cases k with
        | ErrSyntax => simp at h
        | ErrRange =>
          have hne : body ≠ [] := by
            intro e
            simp [ParseUint, e] at hp
          have hr := parseUintLoop_range body 0 un (hpu hne)
          subst hr
          simp only [IntSize] at h
          have e1 : (2 : Nat) ^ (64 - 1) ≤ 2 ^ 64 - 1 := by norm_num
          have e2 : (2 : Nat) ^ (64 - 1) < 2 ^ 64 - 1 := by norm_num
          split_ifs at h with h1 h2 hc
          · simp at h
          · simp at h
          · exact absurd ⟨hc, e2⟩ h2
          · exact absurd ⟨by simpa using hc, e1⟩ h1

theorem ParseInt_two_range (a b : Nat) (v : Int) (h : ParseInt [a, b] = (v, none)) :
    -9 ≤ v ∧ v ≤ 99 := by
  obtain ⟨c, cs, un, hs, hl, hv⟩ := ParseInt_ok _ v h
  simp only [List.cons.injEq] at hs
  obtain ⟨rfl, rfl⟩ := hs
  by_cases hc : a = 43 ∨ a = 45
  · rw [if_pos hc] at hl
    obtain ⟨h1, h2, h3⟩ := parseUintLoop_ok_cons _ _ _ _ hl
    rw [Nat.mod_eq_of_lt (show 0 * 10 + (b - 48) < 2 ^ 64 by omega)] at h3
    simp only [parseUintLoop, Prod.mk.injEq, and_true] at h3
    split_ifs at hv <;> omega
  · rw [if_neg hc] at hl
    obtain ⟨h1, h2, h3⟩ := parseUintLoop_ok_cons _ _ _ _ hl
    rw [Nat.mod_eq_of_lt (show 0 * 10 + (a - 48) < 2 ^ 64 by omega)] at h3
    obtain ⟨h4, h5, h6⟩ := parseUintLoop_ok_cons _ _ _ _ h3
    rw [Nat.mod_eq_of_lt (show (0 * 10 + (a - 48)) * 10 + (b - 48) < 2 ^ 64 by omega)] at h6
    simp only [parseUintLoop, Prod.mk.injEq, and_true] at h6
    split_ifs at hv <;> omega

theorem ParseTLE_not_panic {G : Type} (g : GoString → G) (line1 line2 gravconst : GoString) :
    ParseTLE g line1 line2 gravconst ≠ Outcome.panic := by
  by_cases h1 : line1.length < 61
  · simp [ParseTLE, h1]
  · by_cases h2 : line2.length < 63
    · simp [ParseTLE, h1, h2]
    · rw [ParseTLE_eq_chain g line1 line2 gravconst (by omega) (by omega)]
      cases firstError (conversions line1 line2).errors <;> simp

theorem epochyr_range {G : Type} (g : GoString → G) (line1 line2 gravconst : GoString)
    (sat : Satellite G) (h : ParseTLE g line1 line2 gravconst = Outcome.ok sat) :
    parseInt (col line1 18 20) = (sat.epochyr, none) ∧ -9 ≤ sat.epochyr ∧
      sat.epochyr ≤ 99 := by
  obtain ⟨h1, h2⟩ := ParseTLE_ok_lengths g line1 line2 gravconst sat h
  obtain ⟨he, hr⟩ := ParseTLE_ok_record g line1 line2 gravconst h1 h2 sat h
  have e1 : (conversions line1 line2).epochyr.2 = none :=
    he _ (by simp [Conversions.errors])
  have e2 : parseInt (col line1 18 20) = (sat.epochyr, none) := by
    rw [hr]
    exact Prod.ext rfl e1
  refine ⟨e2, ?_⟩
  have hl : (col line1 18 20).length = 2 := by rw [col_length _ _ _ (by omega)]
  obtain ⟨a, b, hab⟩ : ∃ a b, col line1 18 20 = [a, b] := by
    match hc : col line1 18 20, hl with
    | [a, b], _ => exact ⟨a, b, rfl⟩
  rw [hab] at e2
  exact ParseInt_two_range a b _ e2

theorem wrapInt_small (x : Int) (h1 : -2 ^ 63 ≤ x) (h2 : x < 2 ^ 63) : wrapInt 64 x = x := by
  unfold wrapInt
  norm_num at h1 h2 ⊢
  omega

/-- The year `TLEToSat` computes from a decoded epoch year, without wrap-around. -/
theorem year_no_wrap (y : Int) (h1 : -9 ≤ y) (h2 : y ≤ 99) :
    (if y < 57 then wrapInt 64 (y + 2000) else wrapInt 64 (y + 1900)) =
      (if y < 57 then 2000 + y else 1900 + y) ∧
    wrapInt IntSize (if y < 57 then 2000 + y else 1900 + y) =
      (if y < 57 then 2000 + y else 1900 + y) := by
  have e : IntSize = 64 := rfl
  rw [e]
  split_ifs
  · rw [wrapInt_small _ (by norm_num; omega) (by norm_num; omega),
      wrapInt_small _ (by norm_num; omega) (by norm_num; omega)]
    omega
  · rw [wrapInt_small _ (by norm_num; omega) (by norm_num; omega),
      wrapInt_small _ (by norm_num; omega) (by norm_num; omega)]
    omega

theorem TLEToSatRun_ok {G T : Type} (ext : External G T) (line1 line2 gravconst : GoString)
    (sat : Satellite G) (h : ParseTLE ext.getGravConst line1 line2 gravconst = Outcome.ok sat)
    (year : Int)
    (hy : year = if sat.epochyr < 57 then 2000 + sat.epochyr else 1900 + sat.epochyr)
    (c : T × T × T × T × T) (hc : c = ext.days2mdhms year sat.epochdays)
    (jd : F64)
    (hjd : jd = ext.JDay year (ext.toInt c.1) (ext.toInt c.2.1) (ext.toInt c.2.2.1)
      (ext.toInt c.2.2.2.1) (ext.toInt c.2.2.2.2))
    (r : Satellite G)
    (hr : r = { sat with
      no := F64.div sat.no XPDOTP,
      ndot := F64.div sat.ndot (F64.mul XPDOTP (F64.lit 1440 1)),
      nddot := F64.div sat.nddot (F64.mul (F64.mul XPDOTP (F64.lit 1440 1)) (F64.lit 1440 1)),
      inclo := F64.mul sat.inclo DEG2RAD,
      nodeo := F64.mul sat.nodeo DEG2RAD,
      argpo := F64.mul sat.argpo DEG2RAD,
      mo := F64.mul sat.mo DEG2RAD,
      jdsatepoch := jd }) :
    TLEToSatRun ext line1 line2 gravconst =
      (Outcome.ok (ext.sgp4init (ascii "i") (F64.sub jd (F64.lit 4866563 2)) r),
       [Call.days2mdhms year sat.epochdays,
        Call.JDay year (ext.toInt c.1) (ext.toInt c.2.1) (ext.toInt c.2.2.1)
          (ext.toInt c.2.2.2.1) (ext.toInt c.2.2.2.2),
        Call.sgp4init (ascii "i") (F64.sub jd (F64.lit 4866563 2)) r]) := by
  obtain ⟨_, h1, h2⟩ := epochyr_range ext.getGravConst line1 line2 gravconst sat h
  obtain ⟨e1, e2⟩ := year_no_wrap sat.epochyr h1 h2
  subst hr hjd hc hy
  simp only [TLEToSatRun, h, e1, e2]

/-- C11: when `ParseTLE` succeeds with decoded epoch year `y`, `TLEToSat` calls the calendar
decomposer and then the Julian-day calculator with the year `2000 + y` if `y < 57` and
`1900 + y` otherwise (and the initializer last). -/
theorem TLEToSat_year_window {G T : Type} (ext : External G T)
    (line1 line2 gravconst : GoString) (sat : Satellite G)
    (h : ParseTLE ext.getGravConst line1 line2 gravconst = Outcome.ok sat) :
    parseInt (col line1 18 20) = (sat.epochyr, none) ∧
    ∃ mon day hr min sec epoch r,
      (TLEToSatRun ext line1 line2 gravconst).2 =
        [Call.days2mdhms (if sat.epochyr < 57 then 2000 + sat.epochyr else 1900 + sat.epochyr)
           sat.epochdays,
         Call.JDay (if sat.epochyr < 57 then 2000 + sat.epochyr else 1900 + sat.epochyr)
           mon day hr min sec,
         Call.sgp4init (ascii "i") epoch r] := by
  refine ⟨(epochyr_range ext.getGravConst line1 line2 gravconst sat h).1, ?_⟩
  rw [TLEToSatRun_ok ext line1 line2 gravconst sat h _ rfl _ rfl _ rfl _ rfl]
  exact ⟨_, _, _, _, _, _, _, rfl⟩

/-- Instance of C11: the ISS lines with the epoch years 56, 57 and 24, which resolve to 2056,
1957 and 2024. -/
theorem TLEToSat_year_window_witness :
    (ParseTLE exampleExt.getGravConst (withEpochYear issLine1 (ascii "56")) issLine2 [] =
        Outcome.ok ((conversions (withEpochYear issLine1 (ascii "56")) issLine2).record
          (withEpochYear issLine1 (ascii "56")) issLine2 ()) ∧
     ParseTLE exampleExt.getGravConst (withEpochYear issLine1 (ascii "57")) issLine2 [] =
        Outcome.ok ((conversions (withEpochYear issLine1 (ascii "57")) issLine2).record
          (withEpochYear issLine1 (ascii "57")) issLine2 ()) ∧
     ParseTLE exampleExt.getGravConst (withEpochYear issLine1 (ascii "24")) issLine2 [] =
        Outcome.ok ((conversions (withEpochYear issLine1 (ascii "24")) issLine2).record
          (withEpochYear issLine1 (ascii "24")) issLine2 ())) ∧
    ((conversions (withEpochYear issLine1 (ascii "56")) issLine2).epochyr = (56, none) ∧
     (conversions (withEpochYear issLine1 (ascii "57")) issLine2).epochyr = (57, none) ∧
     (conversions (withEpochYear issLine1 (ascii "24")) issLine2).epochyr = (24, none)) ∧
    (∃ mon day hr min sec epoch r,
      (TLEToSatRun exampleExt (withEpochYear issLine1 (ascii "56")) issLine2 []).2 =
        [Call.days2mdhms
           (if ((conversions (withEpochYear issLine1 (ascii "56")) issLine2).record
                 (withEpochYear issLine1 (ascii "56")) issLine2 ()).epochyr < 57
            then 2000 + ((conversions (withEpochYear issLine1 (ascii "56")) issLine2).record
                 (withEpochYear issLine1 (ascii "56")) issLine2 ()).epochyr
            else 1900 + ((conversions (withEpochYear issLine1 (ascii "56")) issLine2).record
                 (withEpochYear issLine1 (ascii "56")) issLine2 ()).epochyr)
           ((conversions (withEpochYear issLine1 (ascii "56")) issLine2).record
                 (withEpochYear issLine1 (ascii "56")) issLine2 ()).epochdays,
         Call.JDay
           (if ((conversions (withEpochYear issLine1 (ascii "56")) issLine2).record
                 (withEpochYear issLine1 (ascii "56")) issLine2 ()).epochyr < 57
            then 2000 + ((conversions (withEpochYear issLine1 (ascii "56")) issLine2).record
                 (withEpochYear issLine1 (ascii "56")) issLine2 ()).epochyr
            else 1900 + ((conversions (withEpochYear issLine1 (ascii "56")) issLine2).record
                 (withEpochYear issLine1 (ascii "56")) issLine2 ()).epochyr)
           mon day hr min sec,
         Call.sgp4init (ascii "i") epoch r]) ∧
    (∃ mon day hr min sec epoch r,
      (TLEToSatRun exampleExt (withEpochYear issLine1 (ascii "57")) issLine2 []).2 =
        [Call.days2mdhms
           (if ((conversions (withEpochYear issLine1 (ascii "57")) issLine2).record
                 (withEpochYear issLine1 (ascii "57")) issLine2 ()).epochyr < 57
            then 2000 + ((conversions (withEpochYear issLine1 (ascii "57")) issLine2).record
                 (withEpochYear issLine1 (ascii "57")) issLine2 ()).epochyr
            else 1900 + ((conversions (withEpochYear issLine1 (ascii "57")) issLine2).record
                 (withEpochYear issLine1 (ascii "57")) issLine2 ()).epochyr)
           ((conversions (withEpochYear issLine1 (ascii "57")) issLine2).record
                 (withEpochYear issLine1 (ascii "57")) issLine2 ()).epochdays,
         Call.JDay
           (if ((conversions (withEpochYear issLine1 (ascii "57")) issLine2).record
                 (withEpochYear issLine1 (ascii "57")) issLine2 ()).epochyr < 57
            then 2000 + ((conversions (withEpochYear issLine1 (ascii "57")) issLine2).record
                 (withEpochYear issLine1 (ascii "57")) issLine2 ()).epochyr
            else 1900 + ((conversions (withEpochYear issLine1 (ascii "57")) issLine2).record
                 (withEpochYear issLine1 (ascii "57")) issLine2 ()).epochyr)
           mon day hr min sec,
         Call.sgp4init (ascii "i") epoch r]) ∧
    (∃ mon day hr min sec epoch r,
      (TLEToSatRun exampleExt (withEpochYear issLine1 (ascii "24")) issLine2 []).2 =
        [Call.days2mdhms
           (if ((conversions (withEpochYear issLine1 (ascii "24")) issLine2).record
                 (withEpochYear issLine1 (ascii "24")) issLine2 ()).epochyr < 57
            then 2000 + ((conversions (withEpochYear issLine1 (ascii "24")) issLine2).record
                 (withEpochYear issLine1 (ascii "24")) issLine2 ()).epochyr
            else 1900 + ((conversions (withEpochYear issLine1 (ascii "24")) issLine2).record
                 (withEpochYear issLine1 (ascii "24")) issLine2 ()).epochyr)
           ((conversions (withEpochYear issLine1 (ascii "24")) issLine2).record
                 (withEpochYear issLine1 (ascii "24")) issLine2 ()).epochdays,
         Call.JDay
           (if ((conversions (withEpochYear issLine1 (ascii "24")) issLine2).record
                 (withEpochYear issLine1 (ascii "24")) issLine2 ()).epochyr < 57
            then 2000 + ((conversions (withEpochYear issLine1 (ascii "24")) issLine2).record
                 (withEpochYear issLine1 (ascii "24")) issLine2 ()).epochyr
            else 1900 + ((conversions (withEpochYear issLine1 (ascii "24")) issLine2).record
                 (withEpochYear issLine1 (ascii "24")) issLine2 ()).epochyr)
           mon day hr min sec,
         Call.sgp4init (ascii "i") epoch r]) :=
  ⟨by decide, by decide,
   (TLEToSat_year_window exampleExt (withEpochYear issLine1 (ascii "56")) issLine2 []
      ((conversions (withEpochYear issLine1 (ascii "56")) issLine2).record
        (withEpochYear issLine1 (ascii "56")) issLine2 ()) (by decide)).2,
   (TLEToSat_year_window exampleExt (withEpochYear issLine1 (ascii "57")) issLine2 []
      ((conversions (withEpochYear issLine1 (ascii "57")) issLine2).record
        (withEpochYear issLine1 (ascii "57")) issLine2 ()) (by decide)).2,
   (TLEToSat_year_window exampleExt (withEpochYear issLine1 (ascii "24")) issLine2 []
      ((conversions (withEpochYear issLine1 (ascii "24")) issLine2).record
        (withEpochYear issLine1 (ascii "24")) issLine2 ()) (by decide)).2⟩

/-- The calls of `TLEToSat` on known inputs: the resolved years of the epoch years 56, 57,
24, -9, 99 and 08, and for the ISS element set the integers handed to the Julian-day
calculator and the record handed to the initializer. -/
theorem TLEToSatRun_examples :
    (TLEToSatRun exampleExt (withEpochYear issLine1 (ascii "56")) issLine2 []).2.head? =
      some (Call.days2mdhms 2056 (roundScaled false 26451782528 10 (-8)).1) ∧
    (TLEToSatRun exampleExt (withEpochYear issLine1 (ascii "57")) issLine2 []).2.head? =
      some (Call.days2mdhms 1957 (roundScaled false 26451782528 10 (-8)).1) ∧
    (TLEToSatRun exampleExt (withEpochYear issLine1 (ascii "24")) issLine2 []).2.head? =
      some (Call.days2mdhms 2024 (roundScaled false 26451782528 10 (-8)).1) ∧
    (TLEToSatRun exampleExt (withEpochYear issLine1 (ascii "-9")) issLine2 []).2.head? =
      some (Call.days2mdhms 1991 (roundScaled false 26451782528 10 (-8)).1) ∧
    (TLEToSatRun exampleExt (withEpochYear issLine1 (ascii "99")) issLine2 []).2.head? =
      some (Call.days2mdhms 1999 (roundScaled false 26451782528 10 (-8)).1) ∧
    TLEToSatRun exampleExt issLine1 issLine2 [] =
      (Outcome.ok issHanded,
       [Call.days2mdhms 2008 (F64.finite false 4653446794390086 (-44)),
        Call.JDay 2008 9 20 12 25 40,
        Call.sgp4init (ascii "i") (F64.finite false 5895718787088384 (-38)) issHanded]) := by
  refine ⟨?_, ?_, ?_, ?_, ?_, ?_⟩ <;> decide

theorem TLEToSat_ok_inv {G T : Type} (ext : External G T) (line1 line2 gravconst : GoString)
    (r : Satellite G) (h : TLEToSat ext line1 line2 gravconst = Outcome.ok r) :
    ∃ sat, ParseTLE ext.getGravConst line1 line2 gravconst = Outcome.ok sat := by
  unfold TLEToSat TLEToSatRun at h
  cases hp : ParseTLE ext.getGravConst line1 line2 gravconst with
  | panic => simp [hp] at h
  | error e => simp [hp] at h
  | ok sat => exact ⟨sat, rfl⟩

/-- C20: when `TLEToSat` succeeds, the decoded epoch year lies between -9 and 99, and the
year passed to the calendar decomposer lies between 1957 and 2056. -/
theorem TLEToSat_year_range {G T : Type} (ext : External G T)
    (line1 line2 gravconst : GoString) (r : Satellite G)
    (h : TLEToSat ext line1 line2 gravconst = Outcome.ok r) :
    ∃ y year days rest,
      parseInt (col line1 18 20) = (y, none) ∧ -9 ≤ y ∧ y ≤ 99 ∧
      (TLEToSatRun ext line1 line2 gravconst).2 = Call.days2mdhms year days :: rest ∧
      1957 ≤ year ∧ year ≤ 2056 := by
  obtain ⟨sat, hs⟩ := TLEToSat_ok_inv ext line1 line2 gravconst r h
  obtain ⟨hp, h1, h2⟩ := epochyr_range ext.getGravConst line1 line2 gravconst sat hs
  rw [TLEToSatRun_ok ext line1 line2 gravconst sat hs _ rfl _ rfl _ rfl _ rfl]
  refine ⟨sat.epochyr, _, _, _, hp, h1, h2, rfl, ?_, ?_⟩
  · split_ifs <;> omega
  · split_ifs <;> omega

/-- Instance of C20: the ISS element set, epoch year 08, resolved year 2008. -/
theorem TLEToSat_year_range_witness :
    TLEToSat exampleExt issLine1 issLine2 [] = Outcome.ok issHanded ∧
    ∃ y year days rest,
      parseInt (col issLine1 18 20) = (y, none) ∧ -9 ≤ y ∧ y ≤ 99 ∧
      (TLEToSatRun exampleExt issLine1 issLine2 []).2 = Call.days2mdhms year days :: rest ∧
      1957 ≤ year ∧ year ≤ 2056 :=
  ⟨by decide, TLEToSat_year_range exampleExt issLine1 issLine2 [] issHanded (by decide)⟩

/-- C12 (as stated, refuted): for the ISS element set, with an initializer that leaves the
record as it is, `TLEToSat` returns a record whose epoch-year field is 8, the two-digit value
of the text, while the year handed to the calendar decomposer is 2008. -/
theorem TLEToSat_epochyr_not_normalized :
    ∃ r,
      TLEToSat exampleExt issLine1 issLine2 [] = Outcome.ok r ∧
      (TLEToSatRun exampleExt issLine1 issLine2 []).2.head? =
        some (Call.days2mdhms 2008 (F64.finite false 4653446794390086 (-44))) ∧
      r.epochyr = 8 ∧ r.epochyr ≠ 2008 :=
  ⟨issHanded, by decide, by decide, by decide, by decide⟩

/-- C12 (amended): when `TLEToSat` succeeds, the record handed to the initializer has in its
epoch-year field the value decoded from columns 18..20 of line 1 (between -9 and 99), not the
resolved year, which only goes to the calendar decomposer and the Julian-day calculator; the
record returned is the one the initializer leaves, so its epoch year is the decoded value
whenever the initializer does not write that field. -/
theorem TLEToSat_epochyr_kept {G T : Type} (ext : External G T)
    (line1 line2 gravconst : GoString) (r : Satellite G)
    (h : TLEToSat ext line1 line2 gravconst = Outcome.ok r) :
    ∃ y d j epoch r0,
      parseInt (col line1 18 20) = (y, none) ∧ -9 ≤ y ∧ y ≤ 99 ∧
      (TLEToSatRun ext line1 line2 gravconst).2 = [d, j, Call.sgp4init (ascii "i") epoch r0] ∧
      r0.epochyr = y ∧
      r = ext.sgp4init (ascii "i") epoch r0 ∧
      ((∀ o e s, (ext.sgp4init o e s).epochyr = s.epochyr) → r.epochyr = y) := by
  obtain ⟨sat, hs⟩ := TLEToSat_ok_inv ext line1 line2 gravconst r h
  obtain ⟨hp, h1, h2⟩ := epochyr_range ext.getGravConst line1 line2 gravconst sat hs
  have hrun := TLEToSatRun_ok ext line1 line2 gravconst sat hs _ rfl _ rfl _ rfl _ rfl
  unfold TLEToSat at h
  rw [hrun] at h ⊢
  simp only [Outcome.ok.injEq] at h
  refine ⟨sat.epochyr, _, _, _, _, hp, h1, h2, rfl, rfl, h.symm, ?_⟩
  intro hk
  rw [← h, hk]

/-- Instance of C12 (amended): the ISS element set. -/
theorem TLEToSat_epochyr_kept_witness :
    TLEToSat exampleExt issLine1 issLine2 [] = Outcome.ok issHanded ∧
    ∃ y d j epoch r0,
      parseInt (col issLine1 18 20) = (y, none) ∧ -9 ≤ y ∧ y ≤ 99 ∧
      (TLEToSatRun exampleExt issLine1 issLine2 []).2 =
        [d, j, Call.sgp4init (ascii "i") epoch r0] ∧
      r0.epochyr = y ∧
      issHanded = exampleExt.sgp4init (ascii "i") epoch r0 ∧
      ((∀ o e s, (exampleExt.sgp4init o e s).epochyr = s.epochyr) → issHanded.epochyr = y) :=
  ⟨by decide, TLEToSat_epochyr_kept exampleExt issLine1 issLine2 [] issHanded (by decide)⟩

/-! ## The record handed to the initializer (C13, C14, C15, C16, C17) -/

/-- C15: when `ParseTLE` succeeds the `Error` field of its record is 0, and the record that
`TLEToSat` then hands to the initializer (its third and last external call) still has
`Error` 0. -/
theorem TLEToSat_error_field_zero {G T : Type} (ext : External G T)
    (line1 line2 gravconst : GoString) (sat : Satellite G)
    (h : ParseTLE ext.getGravConst line1 line2 gravconst = Outcome.ok sat) :
    sat.Error = 0 ∧
    ∃ d j epoch r0,
      (TLEToSatRun ext line1 line2 gravconst).2 = [d, j, Call.sgp4init (ascii "i") epoch r0] ∧
      r0.Error = 0 := by
  obtain ⟨h1, h2⟩ := ParseTLE_ok_lengths ext.getGravConst line1 line2 gravconst sat h
  obtain ⟨_, hr⟩ := ParseTLE_ok_record ext.getGravConst line1 line2 gravconst h1 h2 sat h
  have he : sat.Error = 0 := by rw [hr]; rfl
  rw [TLEToSatRun_ok ext line1 line2 gravconst sat h _ rfl _ rfl _ rfl _ rfl]
  exact ⟨he, _, _, _, _, rfl, he⟩

/-- Instance of C15: the ISS element set. -/
theorem TLEToSat_error_field_zero_witness :
    ParseTLE exampleExt.getGravConst issLine1 issLine2 [] =
      Outcome.ok ((conversions issLine1 issLine2).record issLine1 issLine2 ()) ∧
    ((conversions issLine1 issLine2).record issLine1 issLine2 ()).Error = 0 ∧
    ∃ d j epoch r0,
      (TLEToSatRun exampleExt issLine1 issLine2 []).2 =
        [d, j, Call.sgp4init (ascii "i") epoch r0] ∧
      r0.Error = 0 :=
  ⟨by decide, TLEToSat_error_field_zero exampleExt issLine1 issLine2 []
    ((conversions issLine1 issLine2).record issLine1 issLine2 ()) (by decide)⟩

/-- C16: `TLEToSat` returns an error exactly when `ParseTLE` does, and then the same error
and no record; when `ParseTLE` succeeds, `TLEToSat` returns the record as the initializer
leaves it, with a nil error, whatever the initializer wrote in the `Error` field. -/
theorem TLEToSat_error_iff {G T : Type} (ext : External G T)
    (line1 line2 gravconst : GoString) :
    (∀ e, TLEToSat ext line1 line2 gravconst = Outcome.error e ↔
      ParseTLE ext.getGravConst line1 line2 gravconst = Outcome.error e) ∧
    (∀ sat, ParseTLE ext.getGravConst line1 line2 gravconst = Outcome.ok sat →
      ∃ d j epoch r0,
        (TLEToSatRun ext line1 line2 gravconst).2 =
          [d, j, Call.sgp4init (ascii "i") epoch r0] ∧
        TLEToSat ext line1 line2 gravconst =
          Outcome.ok (ext.sgp4init (ascii "i") epoch r0)) ∧
    TLEToSat ext line1 line2 gravconst ≠ Outcome.panic := by
  refine ⟨?_, ?_, ?_⟩
  · intro e
    unfold TLEToSat TLEToSatRun
    cases hp : ParseTLE ext.getGravConst line1 line2 gravconst <;> simp
  · intro sat hs
    unfold TLEToSat
    rw [TLEToSatRun_ok ext line1 line2 gravconst sat hs _ rfl _ rfl _ rfl _ rfl]
    exact ⟨_, _, _, _, rfl, rfl⟩
  · have hn := ParseTLE_not_panic ext.getGravConst line1 line2 gravconst
    unfold TLEToSat TLEToSatRun
    cases hp : ParseTLE ext.getGravConst line1 line2 gravconst with
    | panic => exact absurd hp hn
    | error e => simp
    | ok sat => simp

/-- Instance of C16: a short line gives the error of `ParseTLE`; the ISS element set with an
initializer that leaves error code 6 still gives a record and a nil error. -/
theorem TLEToSat_error_iff_witness :
    (TLEToSat failingInitExt [] issLine2 [] =
        Outcome.error (GoError.errorf (ascii "Line 1 '' too short")) ↔
      ParseTLE failingInitExt.getGravConst [] issLine2 [] =
        Outcome.error (GoError.errorf (ascii "Line 1 '' too short"))) ∧
    ParseTLE failingInitExt.getGravConst [] issLine2 [] =
        Outcome.error (GoError.errorf (ascii "Line 1 '' too short")) ∧
    TLEToSat failingInitExt issLine1 issLine2 [] =
      Outcome.ok { issHanded with Error := 6 } :=
  ⟨(TLEToSat_error_iff failingInitExt [] issLine2 []).1 _, by decide, by decide⟩

/-- The two scale constants are the `float64` numbers nearest to `1440 / (2π)` and
`π / 180`. -/
theorem constants_near_pi :
    XPDOTP = F64.finite false 8063664102031864 (-45) ∧
    |(8063664102031864 : ℝ) / 2 ^ 45 - 1440 / (2 * Real.pi)| ≤ 1 / 2 ^ 46 ∧
    DEG2RAD = F64.finite false 5030569068109113 (-58) ∧
    |(5030569068109113 : ℝ) / 2 ^ 58 - Real.pi / 180| ≤ 1 / 2 ^ 59 := by
  have hlo := Real.pi_gt_d20
  have hhi := Real.pi_lt_d20
  have hpos : (0 : ℝ) < Real.pi := Real.pi_pos
  refine ⟨by decide, ?_, by decide, ?_⟩
  · obtain ⟨t, ht⟩ : ∃ t : ℝ, t = 1440 / (2 * Real.pi) := ⟨_, rfl⟩
    have htp : t * Real.pi = 720 := by
      rw [ht]
      field_simp
      ring
    have ht0 : 0 < t := by
      rw [ht]
      positivity
    rw [← ht, abs_le]
    constructor
    · by_contra hc
      push_neg at hc
      have h1 : (8063664102031864 / 2 ^ 45 + 1 / 2 ^ 46) * (3.14159265358979323846 : ℝ)
          < t * Real.pi :=
        lt_trans (mul_lt_mul_of_pos_right (by linarith) (by norm_num))
          (mul_lt_mul_of_pos_left hlo ht0)
      rw [htp] at h1
      norm_num at h1
    · by_contra hc
      push_neg at hc
      have h1 : t * Real.pi <
          (8063664102031864 / 2 ^ 45 - 1 / 2 ^ 46) * (3.14159265358979323847 : ℝ) :=
        lt_trans (mul_lt_mul_of_pos_left hhi ht0)
          (mul_lt_mul_of_pos_right (by linarith) (by norm_num))
      rw [htp] at h1
      norm_num at h1
  · rw [abs_le]
    constructor <;> linarith

/-- C13: when `ParseTLE` succeeds with record `sat`, the record handed to the initializer
has the mean motion divided by `XPDOTP`, the first derivative divided by `XPDOTP * 1440`,
the second derivative divided by `XPDOTP * 1440 * 1440`, the four angles multiplied by
`DEG2RAD` (each operation once, in `float64`), and the eccentricity, the drag term, the
catalog number, the epoch year and day and the two lines as `ParseTLE` left them; `XPDOTP`
and `DEG2RAD` are the `float64` numbers nearest to `1440 / (2π)` and `π / 180`. -/
theorem TLEToSat_rescale {G T : Type} (ext : External G T)
    (line1 line2 gravconst : GoString) (sat : Satellite G)
    (h : ParseTLE ext.getGravConst line1 line2 gravconst = Outcome.ok sat) :
    (∃ d j epoch r0,
      (TLEToSatRun ext line1 line2 gravconst).2 = [d, j, Call.sgp4init (ascii "i") epoch r0] ∧
      r0.no = F64.div sat.no XPDOTP ∧
      r0.ndot = F64.div sat.ndot (F64.mul XPDOTP (F64.lit 1440 1)) ∧
      r0.nddot =
        F64.div sat.nddot (F64.mul (F64.mul XPDOTP (F64.lit 1440 1)) (F64.lit 1440 1)) ∧
      r0.inclo = F64.mul sat.inclo DEG2RAD ∧
      r0.nodeo = F64.mul sat.nodeo DEG2RAD ∧
      r0.argpo = F64.mul sat.argpo DEG2RAD ∧
      r0.mo = F64.mul sat.mo DEG2RAD ∧
      r0.ecco = sat.ecco ∧ r0.bstar = sat.bstar ∧ r0.satnum = sat.satnum ∧
      r0.epochyr = sat.epochyr ∧ r0.epochdays = sat.epochdays ∧
      r0.Line1 = line1 ∧ r0.Line2 = line2 ∧ sat.Line1 = line1 ∧ sat.Line2 = line2) ∧
    XPDOTP.toRat = some (8063664102031864 / 2 ^ 45) ∧
    |(8063664102031864 : ℝ) / 2 ^ 45 - 1440 / (2 * Real.pi)| ≤ 1 / 2 ^ 46 ∧
    DEG2RAD.toRat = some (5030569068109113 / 2 ^ 58) ∧
    |(5030569068109113 : ℝ) / 2 ^ 58 - Real.pi / 180| ≤ 1 / 2 ^ 59 := by
  obtain ⟨h1, h2⟩ := ParseTLE_ok_lengths ext.getGravConst line1 line2 gravconst sat h
  obtain ⟨_, hr⟩ := ParseTLE_ok_record ext.getGravConst line1 line2 gravconst h1 h2 sat h
  have l1 : sat.Line1 = line1 := by rw [hr]; rfl
  have l2 : sat.Line2 = line2 := by rw [hr]; rfl
  obtain ⟨c1, c2, c3, c4⟩ := constants_near_pi
  refine ⟨?_, ?_, c2, ?_, c4⟩
  · rw [TLEToSatRun_ok ext line1 line2 gravconst sat h _ rfl _ rfl _ rfl _ rfl]
    exact ⟨_, _, _, _, rfl, rfl, rfl, rfl, rfl, rfl, rfl, rfl, rfl, rfl, rfl, rfl, rfl,
      l1, l2, l1, l2⟩
  · rw [c1]
    simp only [F64.toRat, Bool.false_eq_true, if_false, one_mul, Option.some.injEq]
    rw [zpow_neg, div_eq_mul_inv]
    norm_cast
  · rw [c3]
    simp only [F64.toRat, Bool.false_eq_true, if_false, one_mul, Option.some.injEq]
    rw [zpow_neg, div_eq_mul_inv]
    norm_cast

/-- Instance of C13: the ISS element set; the mean motion 15.72125391 rev/day becomes
0.06859691081788306 rad/min. -/
theorem TLEToSat_rescale_witness :
    ParseTLE exampleExt.getGravConst issLine1 issLine2 [] =
      Outcome.ok ((conversions issLine1 issLine2).record issLine1 issLine2 ()) ∧
    (conversions issLine1 issLine2).no.1 = F64.finite false 8850279156359119 (-49) ∧
    F64.div (F64.finite false 8850279156359119 (-49)) XPDOTP =
      F64.finite false 4942928351970965 (-56) ∧
    ∃ d j epoch r0,
      (TLEToSatRun exampleExt issLine1 issLine2 []).2 =
        [d, j, Call.sgp4init (ascii "i") epoch r0] ∧
      r0.no = F64.div ((conversions issLine1 issLine2).record issLine1 issLine2 ()).no
        XPDOTP :=
  ⟨by decide, by decide, by decide,
   let ⟨d, j, epoch, r0, hc, hno, _⟩ :=
     (TLEToSat_rescale exampleExt issLine1 issLine2 []
       ((conversions issLine1 issLine2).record issLine1 issLine2 ()) (by decide)).1
   ⟨d, j, epoch, r0, hc, hno⟩⟩

/-- C14: when `ParseTLE` succeeds, `Elements` holds the mean motion, the eccentricity and the
inclination exactly as decoded from line 2, and the record that `TLEToSat` hands to the
initializer carries the same `Elements`, while its own mean motion and inclination are these
values divided by `XPDOTP` and multiplied by `DEG2RAD`. -/
theorem TLEToSat_elements_snapshot {G T : Type} (ext : External G T)
    (line1 line2 gravconst : GoString) (sat : Satellite G)
    (h : ParseTLE ext.getGravConst line1 line2 gravconst = Outcome.ok sat) :
    ∃ el d j epoch r0,
      sat.elements = some el ∧
      parseFloat (Replace (col line2 52 63) 32 [] 2) = (el.MeanMotion, none) ∧
      parseFloat (ascii "." ++ col line2 26 33) = (el.Eccentricity, none) ∧
      parseFloat (Replace (col line2 8 16) 32 [] 2) = (el.Inclination, none) ∧
      (TLEToSatRun ext line1 line2 gravconst).2 = [d, j, Call.sgp4init (ascii "i") epoch r0] ∧
      r0.elements = some el ∧
      r0.no = F64.div el.MeanMotion XPDOTP ∧
      r0.ecco = el.Eccentricity ∧
      r0.inclo = F64.mul el.Inclination DEG2RAD := by
  obtain ⟨h1, h2⟩ := ParseTLE_ok_lengths ext.getGravConst line1 line2 gravconst sat h
  obtain ⟨he, hr⟩ := ParseTLE_ok_record ext.getGravConst line1 line2 gravconst h1 h2 sat h
  have e7 : (conversions line1 line2).inclo.2 = none := he _ (by simp [Conversions.errors])
  have e9 : (conversions line1 line2).ecco.2 = none := he _ (by simp [Conversions.errors])
  have e12 : (conversions line1 line2).no.2 = none := he _ (by simp [Conversions.errors])
  rw [TLEToSatRun_ok ext line1 line2 gravconst sat h _ rfl _ rfl _ rfl _ rfl]
  subst hr
  exact ⟨_, _, _, _, _, rfl, Prod.ext rfl e12, Prod.ext rfl e9, Prod.ext rfl e7, rfl, rfl,
    rfl, rfl, rfl⟩

/-- Instance of C14: the ISS element set; `Elements` keeps 15.72125391 rev/day and
51.6416 degrees while the record holds 0.0686 rad/min and 0.9013 rad. -/
theorem TLEToSat_elements_snapshot_witness :
    ParseTLE exampleExt.getGravConst issLine1 issLine2 [] =
      Outcome.ok ((conversions issLine1 issLine2).record issLine1 issLine2 ()) ∧
    issHanded.elements = some
      { MeanMotion := F64.finite false 8850279156359119 (-49),
        Eccentricity := F64.finite false 6182426276303756 (-63),
        Inclination := F64.finite false 7267909078650506 (-47) } ∧
    issHanded.no = F64.finite false 4942928351970965 (-56) ∧
    issHanded.inclo = F64.finite false 8118332362114486 (-53) ∧
    ∃ el d j epoch r0,
      ((conversions issLine1 issLine2).record issLine1 issLine2 ()).elements = some el ∧
      parseFloat (Replace (col issLine2 52 63) 32 [] 2) = (el.MeanMotion, none) ∧
      parseFloat (ascii "." ++ col issLine2 26 33) = (el.Eccentricity, none) ∧
      parseFloat (Replace (col issLine2 8 16) 32 [] 2) = (el.Inclination, none) ∧
      (TLEToSatRun exampleExt issLine1 issLine2 []).2 =
        [d, j, Call.sgp4init (ascii "i") epoch r0] ∧
      r0.elements = some el ∧
      r0.no = F64.div el.MeanMotion XPDOTP ∧
      r0.ecco = el.Eccentricity ∧
      r0.inclo = F64.mul el.Inclination DEG2RAD :=
  ⟨by decide, by decide, by decide, by decide,
   TLEToSat_elements_snapshot exampleExt issLine1 issLine2 []
     ((conversions issLine1 issLine2).record issLine1 issLine2 ()) (by decide)⟩

/-- C17 (as stated, refuted): for the ISS element set with a calendar decomposer that
returns `float64` values, the second returned is 40.104192 and the second passed to the
Julian-day calculator is the integer 40: the conversion `int(sec)` of the source drops the
fraction. -/
theorem TLEToSat_second_truncated :
    (TLEToSatRun exampleExt issLine1 issLine2 []).2.take 2 =
      [Call.days2mdhms 2008 (F64.finite false 4653446794390086 (-44)),
       Call.JDay 2008 9 20 12 25 40] ∧
    (exampleExt.days2mdhms 2008 (F64.finite false 4653446794390086 (-44))).2.2.2.2 =
      F64.finite false 5644163254599838 (-47) ∧
    F64.finite false 5644163254599838 (-47) ≠ F64.lit 40 1 ∧
    F64.toInt (F64.finite false 5644163254599838 (-47)) = 40 := by
  refine ⟨?_, ?_, ?_, ?_⟩ <;> decide

/-- C17 (amended): when `ParseTLE` succeeds, `TLEToSat` calls the calendar decomposer with
the resolved year and the epoch day, then the Julian-day calculator with the resolved year
and the `int(·)` conversions of the month, day, hour, minute and second that the decomposer
returned, and the Julian epoch of the record handed to the initializer is the result of that
call; the initializer's epoch argument is this result minus 2433281.5. -/
theorem TLEToSat_julian_epoch {G T : Type} (ext : External G T)
    (line1 line2 gravconst : GoString) (sat : Satellite G)
    (h : ParseTLE ext.getGravConst line1 line2 gravconst = Outcome.ok sat) :
    ∃ year c epoch r0,
      year = (if sat.epochyr < 57 then 2000 + sat.epochyr else 1900 + sat.epochyr) ∧
      c = ext.days2mdhms year sat.epochdays ∧
      (TLEToSatRun ext line1 line2 gravconst).2 =
        [Call.days2mdhms year sat.epochdays,
         Call.JDay year (ext.toInt c.1) (ext.toInt c.2.1) (ext.toInt c.2.2.1)
           (ext.toInt c.2.2.2.1) (ext.toInt c.2.2.2.2),
         Call.sgp4init (ascii "i") epoch r0] ∧
      r0.jdsatepoch = ext.JDay year (ext.toInt c.1) (ext.toInt c.2.1) (ext.toInt c.2.2.1)
           (ext.toInt c.2.2.2.1) (ext.toInt c.2.2.2.2) ∧
      epoch = F64.sub r0.jdsatepoch (F64.lit 4866563 2) := by
  rw [TLEToSatRun_ok ext line1 line2 gravconst sat h _ rfl _ rfl _ rfl _ rfl]
  exact ⟨_, _, _, _, rfl, rfl, rfl, rfl, rfl⟩

/-- Instance of C17 (amended): the ISS element set. -/
theorem TLEToSat_julian_epoch_witness :
    ParseTLE exampleExt.getGravConst issLine1 issLine2 [] =
      Outcome.ok ((conversions issLine1 issLine2).record issLine1 issLine2 ()) ∧
    ∃ year c epoch r0,
      year = (if ((conversions issLine1 issLine2).record issLine1 issLine2 ()).epochyr < 57
        then 2000 + ((conversions issLine1 issLine2).record issLine1 issLine2 ()).epochyr
        else 1900 + ((conversions issLine1 issLine2).record issLine1 issLine2 ()).epochyr) ∧
      c = exampleExt.days2mdhms year
        ((conversions issLine1 issLine2).record issLine1 issLine2 ()).epochdays ∧
      (TLEToSatRun exampleExt issLine1 issLine2 []).2 =
        [Call.days2mdhms year
           ((conversions issLine1 issLine2).record issLine1 issLine2 ()).epochdays,
         Call.JDay year (exampleExt.toInt c.1) (exampleExt.toInt c.2.1)
           (exampleExt.toInt c.2.2.1) (exampleExt.toInt c.2.2.2.1)
           (exampleExt.toInt c.2.2.2.2),
         Call.sgp4init (ascii "i") epoch r0] ∧
      r0.jdsatepoch = exampleExt.JDay year (exampleExt.toInt c.1) (exampleExt.toInt c.2.1)
           (exampleExt.toInt c.2.2.1) (exampleExt.toInt c.2.2.2.1)
           (exampleExt.toInt c.2.2.2.2) ∧
      epoch = F64.sub r0.jdsatepoch (F64.lit 4866563 2) :=
  ⟨by decide, TLEToSat_julian_epoch exampleExt issLine1 issLine2 []
     ((conversions issLine1 issLine2).record issLine1 issLine2 ()) (by decide)⟩

/-! ## Space removal (C18) -/

theorem Replace_append_no_space (a t : GoString) (n : Nat) (h : 32 ∉ a) :
    Replace (a ++ t) 32 [] (n + 1) = a ++ Replace t 32 [] (n + 1) := by
  induction a with
  | nil => rfl
  | cons c cs ih =>
    have hc : c ≠ 32 := fun e => h (by simp [e])
    have hcs : 32 ∉ cs := fun e => h (by simp [e])
    have e := ih hcs
    simp only [List.cons_append, Replace, if_neg hc]
    exact congrArg (List.cons c) e

theorem Replace_leftmost_two (a b c : GoString) (ha : 32 ∉ a) (hb : 32 ∉ b) :
    Replace (a ++ 32 :: (b ++ 32 :: c)) 32 [] 2 = a ++ (b ++ c) := by
  rw [Replace_append_no_space a _ 1 ha]
  simp only [Replace, if_true, List.nil_append]
  rw [Replace_append_no_space b _ 0 hb]
  simp only [Replace, if_true, List.nil_append, Replace_zero]

theorem Replace_space_left (t : GoString) (n : Nat) (h : n < t.count 32) :
    32 ∈ Replace t 32 [] n := by
  induction t generalizing n with
  | nil => simp at h
  | cons c cs ih =>
    cases n with
    | zero =>
      rw [Replace_zero]
      exact List.count_pos_iff.mp (by omega)
    | succ k =>
      by_cases hc : c = 32
      · subst hc
        simp only [List.count_cons_self] at h
        simp only [Replace, if_true, List.nil_append]
        exact ih k (by omega)
      · rw [List.count_cons_of_ne (fun e => hc e.symm)] at h
        simp only [Replace, if_neg hc]
        exact List.mem_cons_of_mem _ (ih (k + 1) h)

theorem spaceFields_conv (line1 line2 : GoString) (p : GoString × (F64 × Option NumError))
    (hp : p ∈ spaceFields line1 line2) :
    p.2 = parseFloat (Replace p.1 32 [] 2) ∧ p.2.2 ∈ (conversions line1 line2).errors := by
  simp only [spaceFields, List.mem_cons, List.mem_singleton, List.not_mem_nil, or_false] at hp
  rcases hp with rfl | rfl | rfl | rfl | rfl | rfl | rfl | rfl
  all_goals exact ⟨rfl, by simp [Conversions.errors]⟩

/-- C18: for each of the eight fields converted after the removal of spaces, the text given
to `ParseFloat` is the field text without its two leftmost spaces; a field text with at most
two spaces is converted as the text with all spaces deleted, and a field text with three or
more spaces makes `ParseTLE` return a conversion error.  When `ParseTLE` succeeds, the eight
fields of the record are the floats of the texts with all spaces deleted. -/
theorem ParseTLE_two_spaces_removed {G : Type} (g : GoString → G)
    (line1 line2 gravconst : GoString) (h1 : 61 ≤ line1.length) (h2 : 63 ≤ line2.length) :
    (∀ p ∈ spaceFields line1 line2,
      p.2 = parseFloat (Replace p.1 32 [] 2) ∧
      (∀ a b c, p.1 = a ++ 32 :: (b ++ 32 :: c) → 32 ∉ a → 32 ∉ b →
        Replace p.1 32 [] 2 = a ++ (b ++ c)) ∧
      (p.1.count 32 ≤ 2 → p.2 = parseFloat (stripSpaces p.1)) ∧
      (3 ≤ p.1.count 32 →
        p.2.2 = some (syntaxError "ParseFloat" (Replace p.1 32 [] 2)) ∧
        ∃ e, ParseTLE g line1 line2 gravconst = Outcome.error (GoError.num e))) ∧
    (∀ sat, ParseTLE g line1 line2 gravconst = Outcome.ok sat →
      (∀ p ∈ spaceFields line1 line2, p.1.count 32 ≤ 2) ∧
      [sat.ndot, sat.nddot, sat.bstar, sat.inclo, sat.nodeo, sat.argpo, sat.mo, sat.no] =
        (spaceFields line1 line2).map (fun p => (parseFloat (stripSpaces p.1)).1)) := by
  have key : ∀ p ∈ spaceFields line1 line2, 3 ≤ p.1.count 32 →
      p.2.2 = some (syntaxError "ParseFloat" (Replace p.1 32 [] 2)) ∧
      ∃ e, ParseTLE g line1 line2 gravconst = Outcome.error (GoError.num e) := by
    intro p hp h3
    obtain ⟨e1, e2⟩ := spaceFields_conv line1 line2 p hp
    have hm : 32 ∈ Replace p.1 32 [] 2 := Replace_space_left p.1 2 (by omega)
    have he : p.2.2 = some (syntaxError "ParseFloat" (Replace p.1 32 [] 2)) := by
      rw [e1, parseFloat, ParseFloat_space _ hm]
    refine ⟨he, ?_⟩
    exact ParseTLE_error_of_conv g line1 line2 gravconst h1 h2 _ e2 (by rw [he]; simp)
  refine ⟨?_, ?_⟩
  · intro p hp
    obtain ⟨e1, e2⟩ := spaceFields_conv line1 line2 p hp
    refine ⟨e1, ?_, ?_, key p hp⟩
    · intro a b c hab ha hb
      rw [hab]
      exact Replace_leftmost_two a b c ha hb
    · intro hc
      rw [e1, Replace_count _ _ hc]
  · intro sat hs
    have hcount : ∀ p ∈ spaceFields line1 line2, p.1.count 32 ≤ 2 := by
      intro p hp
      by_contra hc
      obtain ⟨_, e, he⟩ := key p hp (by omega)
      rw [he] at hs
      simp at hs
    refine ⟨hcount, ?_⟩
    obtain ⟨_, hr⟩ := ParseTLE_ok_record g line1 line2 gravconst h1 h2 sat hs
    have hv : ∀ p ∈ spaceFields line1 line2, p.2.1 = (parseFloat (stripSpaces p.1)).1 := by
      intro p hp
      rw [(spaceFields_conv line1 line2 p hp).1, Replace_count _ _ (hcount p hp)]
    subst hr
    simp only [spaceFields, List.mem_cons, List.mem_singleton, List.not_mem_nil, or_false,
      forall_eq_or_imp, forall_eq] at hv
    obtain ⟨v1, v2, v3, v4, v5, v6, v7, v8⟩ := hv
    simp only [spaceFields, List.map_cons, List.map_nil, Conversions.record]
    rw [← v1, ← v2, ← v3, ← v4, ← v5, ← v6, ← v7, ← v8]

/-- Instance of C18: the inclination text `5 1. 641` (two spaces) is converted as `51.641`,
and the text `5 1. 6 4` (three spaces) makes `ParseTLE` fail on `51.6 4`. -/
theorem ParseTLE_two_spaces_removed_witness :
    (61 ≤ issLine1.length ∧ 63 ≤ issLine2TwoSpaces.length ∧
      63 ≤ issLine2ThreeSpaces.length) ∧
    ((col issLine2TwoSpaces 8 16, (conversions issLine1 issLine2TwoSpaces).inclo) ∈
        spaceFields issLine1 issLine2TwoSpaces ∧
      (col issLine2TwoSpaces 8 16).count 32 = 2 ∧
      stripSpaces (col issLine2TwoSpaces 8 16) = ascii "51.641") ∧
    (conversions issLine1 issLine2TwoSpaces).inclo =
      parseFloat (stripSpaces (col issLine2TwoSpaces 8 16)) ∧
    ((col issLine2ThreeSpaces 8 16, (conversions issLine1 issLine2ThreeSpaces).inclo) ∈
        spaceFields issLine1 issLine2ThreeSpaces ∧
      (col issLine2ThreeSpaces 8 16).count 32 = 3 ∧
      Replace (col issLine2ThreeSpaces 8 16) 32 [] 2 = ascii "51.6 4") ∧
    ((conversions issLine1 issLine2ThreeSpaces).inclo.2 =
        some (syntaxError "ParseFloat" (Replace (col issLine2ThreeSpaces 8 16) 32 [] 2)) ∧
      ∃ e, ParseTLE (fun _ => ()) issLine1 issLine2ThreeSpaces [] =
        Outcome.error (GoError.num e)) :=
  ⟨by decide, by decide,
   ((ParseTLE_two_spaces_removed (fun _ => ()) issLine1 issLine2TwoSpaces [] (by decide)
      (by decide)).1
      (col issLine2TwoSpaces 8 16, (conversions issLine1 issLine2TwoSpaces).inclo)
      (by decide)).2.2.1 (by decide),
   by decide,
   ((ParseTLE_two_spaces_removed (fun _ => ()) issLine1 issLine2ThreeSpaces [] (by decide)
      (by decide)).1
      (col issLine2ThreeSpaces 8 16, (conversions issLine1 issLine2ThreeSpaces).inclo)
      (by decide)).2.2.2 (by decide)⟩

/-! ## Dependence on the decoded columns only (C19) -/

theorem col_sub (s : GoString) (lo hi a b : Nat) (h1 : lo ≤ a) (h2 : a ≤ b) (h3 : b ≤ hi) :
    col s a b = ((col s lo hi).drop (a - lo)).take (b - a) := by
  unfold col
  rw [List.drop_take, List.drop_drop, List.take_take]
  have e1 : lo + (a - lo) = a := by omega
  have e2 : min (b - a) (hi - lo - (a - lo)) = b - a := by omega
  rw [e1, e2]

theorem col_sub_eq (s t : GoString) (lo hi a b : Nat) (h1 : lo ≤ a) (h2 : a ≤ b) (h3 : b ≤ hi)
    (h : col s lo hi = col t lo hi) : col s a b = col t a b := by
  rw [col_sub s lo hi a b h1 h2 h3, col_sub t lo hi a b h1 h2 h3, h]

theorem conversions_congr (line1 line2 m1 m2 : GoString)
    (c1 : col line1 2 7 = col m1 2 7) (c2 : col line1 18 32 = col m1 18 32)
    (c3 : col line1 33 43 = col m1 33 43) (c4 : col line1 44 52 = col m1 44 52)
    (c5 : col line1 53 61 = col m1 53 61)
    (d1 : col line2 8 16 = col m2 8 16) (d2 : col line2 17 25 = col m2 17 25)
    (d3 : col line2 26 33 = col m2 26 33) (d4 : col line2 34 42 = col m2 34 42)
    (d5 : col line2 43 51 = col m2 43 51) (d6 : col line2 52 63 = col m2 52 63) :
    conversions line1 line2 = conversions m1 m2 := by
  have a1 := col_sub_eq line1 m1 18 32 18 20 (by omega) (by omega) (by omega) c2
  have a2 := col_sub_eq line1 m1 18 32 20 32 (by omega) (by omega) (by omega) c2
  have a3 := col_sub_eq line1 m1 44 52 44 45 (by omega) (by omega) (by omega) c4
  have a4 := col_sub_eq line1 m1 44 52 45 50 (by omega) (by omega) (by omega) c4
  have a5 := col_sub_eq line1 m1 44 52 50 52 (by omega) (by omega) (by omega) c4
  have a6 := col_sub_eq line1 m1 53 61 53 54 (by omega) (by omega) (by omega) c5
  have a7 := col_sub_eq line1 m1 53 61 54 59 (by omega) (by omega) (by omega) c5
  have a8 := col_sub_eq line1 m1 53 61 59 61 (by omega) (by omega) (by omega) c5
  simp only [conversions, impliedText, c1, c3, d1, d2, d3, d4, d5, d6, a1, a2, a3, a4, a5, a6,
    a7, a8]

/-- C19: two pairs of lines that pass the length check and agree on the columns
`line1[2:7]`, `[18:32]`, `[33:43]`, `[44:52]`, `[53:61]` and `line2[8:16]`, `[17:25]`,
`[26:33]`, `[34:42]`, `[43:51]`, `[52:63]` either both make `ParseTLE` return the same
conversion error, or both succeed with the same catalog number, epoch year and day,
derivatives, drag term, angles, eccentricity, mean motion and `Elements`, whatever the other
columns and the gravity-model names are. -/
theorem ParseTLE_depends_on_columns {G : Type} (g g2 : GoString → G)
    (line1 line2 m1 m2 gravconst gravconst2 : GoString)
    (h1 : 61 ≤ line1.length) (h2 : 63 ≤ line2.length)
    (k1 : 61 ≤ m1.length) (k2 : 63 ≤ m2.length)
    (c1 : col line1 2 7 = col m1 2 7) (c2 : col line1 18 32 = col m1 18 32)
    (c3 : col line1 33 43 = col m1 33 43) (c4 : col line1 44 52 = col m1 44 52)
    (c5 : col line1 53 61 = col m1 53 61)
    (d1 : col line2 8 16 = col m2 8 16) (d2 : col line2 17 25 = col m2 17 25)
    (d3 : col line2 26 33 = col m2 26 33) (d4 : col line2 34 42 = col m2 34 42)
    (d5 : col line2 43 51 = col m2 43 51) (d6 : col line2 52 63 = col m2 52 63) :
    (∃ e, ParseTLE g line1 line2 gravconst = Outcome.error (GoError.num e) ∧
      ParseTLE g2 m1 m2 gravconst2 = Outcome.error (GoError.num e)) ∨
    (∃ sat sat2, ParseTLE g line1 line2 gravconst = Outcome.ok sat ∧
      ParseTLE g2 m1 m2 gravconst2 = Outcome.ok sat2 ∧
      sat.satnum = sat2.satnum ∧ sat.epochyr = sat2.epochyr ∧
      sat.epochdays = sat2.epochdays ∧ sat.ndot = sat2.ndot ∧ sat.nddot = sat2.nddot ∧
      sat.bstar = sat2.bstar ∧ sat.inclo = sat2.inclo ∧ sat.nodeo = sat2.nodeo ∧
      sat.ecco = sat2.ecco ∧ sat.argpo = sat2.argpo ∧ sat.mo = sat2.mo ∧ sat.no = sat2.no ∧
      sat.elements = sat2.elements) := by
  have hc := conversions_congr line1 line2 m1 m2 c1 c2 c3 c4 c5 d1 d2 d3 d4 d5 d6
  rw [ParseTLE_eq_chain g line1 line2 gravconst h1 h2,
    ParseTLE_eq_chain g2 m1 m2 gravconst2 k1 k2, hc]
  cases firstError (conversions m1 m2).errors with
  | some e => exact Or.inl ⟨e, rfl, rfl⟩
  | none =>
    exact Or.inr ⟨_, _, rfl, rfl, rfl, rfl, rfl, rfl, rfl, rfl, rfl, rfl, rfl, rfl, rfl, rfl,
      rfl⟩

/-- Instance of C19: the ISS element set and a pair of lines that differs from it in every
column `ParseTLE` does not read. -/
theorem ParseTLE_depends_on_columns_witness :
    (61 ≤ issLine1.length ∧ 63 ≤ issLine2.length ∧ 61 ≤ issLine1Other.length ∧
      63 ≤ issLine2Other.length ∧ issLine1 ≠ issLine1Other ∧ issLine2 ≠ issLine2Other) ∧
    ((∃ e, ParseTLE (fun _ => ()) issLine1 issLine2 (ascii "wgs72") =
        Outcome.error (GoError.num e) ∧
      ParseTLE (fun _ => ()) issLine1Other issLine2Other (ascii "wgs84") =
        Outcome.error (GoError.num e)) ∨
    (∃ sat sat2, ParseTLE (fun _ => ()) issLine1 issLine2 (ascii "wgs72") = Outcome.ok sat ∧
      ParseTLE (fun _ => ()) issLine1Other issLine2Other (ascii "wgs84") = Outcome.ok sat2 ∧
      sat.satnum = sat2.satnum ∧ sat.epochyr = sat2.epochyr ∧
      sat.epochdays = sat2.epochdays ∧ sat.ndot = sat2.ndot ∧ sat.nddot = sat2.nddot ∧
      sat.bstar = sat2.bstar ∧ sat.inclo = sat2.inclo ∧ sat.nodeo = sat2.nodeo ∧
      sat.ecco = sat2.ecco ∧ sat.argpo = sat2.argpo ∧ sat.mo = sat2.mo ∧ sat.no = sat2.no ∧
      sat.elements = sat2.elements)) :=
  ⟨by decide,
   ParseTLE_depends_on_columns (fun _ => ()) (fun _ => ()) issLine1 issLine2 issLine1Other
     issLine2Other (ascii "wgs72") (ascii "wgs84") (by decide) (by decide) (by decide)
     (by decide) (by decide) (by decide) (by decide) (by decide) (by decide) (by decide)
     (by decide) (by decide) (by decide) (by decide) (by decide)⟩

end GoSat
